import Mathlib

/-!
Verification of the snake-game server's simulation kernel against its
specification.  The definitions below are a shallow embedding of the
TypeScript sources (`src/arena.ts`, `src/game.ts`, `src/ai-worker.ts`):
JavaScript numbers are idealised as real numbers, mutation is explicit
state passing, and every use of `Math.random()` is an explicit oracle
argument.
-/

namespace SnakeGame

noncomputable section

open Real

open scoped Classical

/-- `Position` from types.ts: a 2D point. -/
structure Position where
  x : ℝ
  y : ℝ

/-- `while (diff > Math.PI) diff -= 2 * Math.PI` from `angleDiff` in arena.ts. -/
def wrapHigh (d : ℝ) : ℝ :=
  if π < d then wrapHigh (d - 2 * π) else d
termination_by (⌈(d - π) / (2 * π)⌉₊ : ℕ)
decreasing_by
  have hπ : (0:ℝ) < 2 * π := by positivity
  have ht : (0:ℝ) < (d - π) / (2 * π) := div_pos (by linarith) hπ
  have harg : (d - 2 * π - π) / (2 * π) = (d - π) / (2 * π) - 1 := by
    field_simp
    ring
  rw [harg]
  have h1 : 1 ≤ ⌈(d - π) / (2 * π)⌉₊ := Nat.one_le_iff_ne_zero.mpr (by
    intro h
    have := Nat.ceil_eq_zero.mp h
    linarith)
  have h2 : ⌈(d - π) / (2 * π) - 1⌉₊ ≤ ⌈(d - π) / (2 * π)⌉₊ - 1 := by
    rw [Nat.ceil_le]
    push_cast [Nat.cast_sub h1]
    have := Nat.le_ceil ((d - π) / (2 * π))
    linarith
  omega

/-- `while (diff < -Math.PI) diff += 2 * Math.PI` from `angleDiff` in arena.ts. -/
def wrapLow (d : ℝ) : ℝ :=
  if d < -π then wrapLow (d + 2 * π) else d
termination_by (⌈(-π - d) / (2 * π)⌉₊ : ℕ)
decreasing_by
  have hπ : (0:ℝ) < 2 * π := by positivity
  have ht : (0:ℝ) < (-π - d) / (2 * π) := div_pos (by linarith) hπ
  have harg : (-π - (d + 2 * π)) / (2 * π) = (-π - d) / (2 * π) - 1 := by
    field_simp
    ring
  rw [harg]
  have h1 : 1 ≤ ⌈(-π - d) / (2 * π)⌉₊ := Nat.one_le_iff_ne_zero.mpr (by
    intro h
    have := Nat.ceil_eq_zero.mp h
    linarith)
  have h2 : ⌈(-π - d) / (2 * π) - 1⌉₊ ≤ ⌈(-π - d) / (2 * π)⌉₊ - 1 := by
    rw [Nat.ceil_le]
    push_cast [Nat.cast_sub h1]
    have := Nat.le_ceil ((-π - d) / (2 * π))
    linarith
  omega

/-- `angleDiff(from, to)` from arena.ts: `diff = to - from`, then the two
wrapping loops. -/
def angleDiff (a b : ℝ) : ℝ := wrapLow (wrapHigh (b - a))

/-- `normalizeAngle(a)` from arena.ts: `a = a % (2π); if (a < 0) a += 2π`.
JavaScript `%` is the truncated remainder (sign of the dividend). -/
def rtrunc (x : ℝ) : ℤ := if 0 ≤ x then ⌊x⌋ else ⌈x⌉

def jsMod (a m : ℝ) : ℝ := a - m * (rtrunc (a / m) : ℝ)

def normalizeAngle (a : ℝ) : ℝ :=
  let r := jsMod a (2 * π)
  if r < 0 then r + 2 * π else r

/-- `turnToward(current, target, maxRate)` from arena.ts. -/
def turnToward (current target maxRate : ℝ) : ℝ :=
  let diff := angleDiff current target
  if |diff| ≤ maxRate then normalizeAngle target
  else normalizeAngle (current + Real.sign diff * maxRate)

/-- The mutable `config` object of config.ts, as a parameter.  Field values of
the shipped `config.ts` are in `defaultConfig` below.  `tickRateMs` and
`respawnDelayMs` stay natural numbers (they are integral in the schema). -/
structure Config where
  arenaRadius : ℝ
  tickRateMs : ℕ
  snakeSpeed : ℝ
  snakeRadius : ℝ
  segmentSpacing : ℝ
  maxTurnRate : ℝ
  startingSegments : ℕ
  foodRadius : ℝ
  minFood : ℕ
  maxFood : ℕ
  respawnOnDeath : Bool
  respawnDelayMs : ℕ
  colors : List String

/-- The default configuration shipped in config.ts. -/
def defaultConfig : Config where
  arenaRadius := 2000
  tickRateMs := 50
  snakeSpeed := 4
  snakeRadius := 12
  segmentSpacing := 20
  maxTurnRate := 0.25
  startingSegments := 10
  foodRadius := 6
  minFood := 200
  maxFood := 600
  respawnOnDeath := true
  respawnDelayMs := 3000
  colors := ["#e74c3c", "#3498db", "#2ecc71", "#f39c12",
             "#9b59b6", "#1abc9c", "#e67e22", "#e91e63",
             "#00bcd4", "#8bc34a", "#ff5722", "#607d8b"]

/-- One entry of a snake's `submissions` list. -/
structure Submission where
  tick : ℕ
  lines : ℕ
  timestamp : ℕ

/-- `Food` from types.ts.  Values are the integers 1 and 2 in the code, so
`value` is a natural number. -/
structure Food where
  x : ℝ
  y : ℝ
  value : ℕ
  radius : ℝ

/-- `Snake` from types.ts (the arena version used by game.ts). -/
structure Snake where
  id : String
  participantName : String
  color : String
  alive : Bool
  headX : ℝ
  headY : ℝ
  angle : ℝ
  speed : ℝ
  trail : List Position
  segmentCount : ℕ
  kills : ℕ
  totalKills : ℕ
  deaths : ℕ
  bestLength : ℕ
  submissions : List Submission
  aiFunction : String
  diedAt : Option ℕ := none
  deathReason : Option String := none
  respawnAt : Option ℕ := none
  lastAIError : Option String := none

/-- The game status union type. -/
inductive Status where
  | waiting
  | running
  | paused
  | finished
deriving DecidableEq

/-- `GameState` from types.ts. -/
structure GameState where
  tick : ℕ
  status : Status
  arenaRadius : ℝ
  snakes : List Snake
  food : List Food
  winnerId : Option String := none
  spectatorCount : ℕ := 0

/-- `createInitialState()` from game.ts. -/
def createInitialState (cfg : Config) : GameState where
  tick := 0
  status := Status.waiting
  arenaRadius := cfg.arenaRadius
  snakes := []
  food := []

-- Geometry from arena.ts.

/-- `distSq(x1, y1, x2, y2)`. -/
def distSq (x1 y1 x2 y2 : ℝ) : ℝ :=
  (x2 - x1) * (x2 - x1) + (y2 - y1) * (y2 - y1)

/-- `dist(x1, y1, x2, y2)`. -/
def dist (x1 y1 x2 y2 : ℝ) : ℝ := Real.sqrt (distSq x1 y1 x2 y2)

/-- `isInBounds(x, y)`: strict containment in the arena disk. -/
def isInBounds (cfg : Config) (x y : ℝ) : Prop :=
  x * x + y * y < cfg.arenaRadius * cfg.arenaRadius

/-- The loop of `getSegmentPositions`, walking the trail edge by edge.
`budget` is `segmentCount - positions.length` of the code (the loop guard
`positions.length < snake.segmentCount`, re-checked before every edge);
`prev`/`cur` are `trail[i-1]`/`trail[i]`; `distAccum` the running arc length
since the last emitted position; emitted positions are returned in order. -/
def segGo (spacing : ℝ) : ℕ → Position → List Position → ℝ → List Position
  | 0, _, _, _ => []
  | _ + 1, _, [], _ => []
  | budget + 1, prev, cur :: rest, distAccum =>
      let d := dist prev.x prev.y cur.x cur.y
      let acc := distAccum + d
      if spacing ≤ acc then
        let overshoot := acc - spacing
        let pos : Position :=
          if 0 < d then
            ⟨cur.x + overshoot / d * (prev.x - cur.x),
             cur.y + overshoot / d * (prev.y - cur.y)⟩
          else cur
        pos :: segGo spacing budget cur rest overshoot
      else
        segGo spacing (budget + 1) cur rest acc
termination_by b p l a => l.length

/-- `getSegmentPositions(snake)` from arena.ts. -/
def getSegmentPositions (cfg : Config) (s : Snake) : List Position :=
  match s.trail with
  | [] => []
  | h :: rest => h :: segGo cfg.segmentSpacing (s.segmentCount - 1) h rest 0

/-- The truncation loop of `pruneTrail`: keep trail entries until the running
arc length exceeds `maxDist`, keeping the entry that crossed the limit. -/
def pruneGo (maxDist : ℝ) : Position → List Position → ℝ → List Position
  | _, [], _ => []
  | prev, cur :: rest, total =>
      let t := total + dist prev.x prev.y cur.x cur.y
      if maxDist < t then [cur]
      else cur :: pruneGo maxDist cur rest t

/-- `pruneTrail(snake)` from arena.ts. -/
def pruneTrail (cfg : Config) (s : Snake) : Snake :=
  match s.trail with
  | [] => s
  | h :: rest =>
      { s with trail :=
          h :: pruneGo (((s.segmentCount + 5 : ℕ) : ℝ) * cfg.segmentSpacing) h rest 0 }

/-- JavaScript's `Math.atan2(y, x)`. -/
def atan2 (y x : ℝ) : ℝ :=
  if 0 < x then Real.arctan (y / x)
  else if x < 0 then
    (if 0 ≤ y then Real.arctan (y / x) + π else Real.arctan (y / x) - π)
  else
    (if 0 < y then π / 2 else if y < 0 then -(π / 2) else 0)

/-- The result of `spawnSnakePosition()`. -/
structure Spawn where
  x : ℝ
  y : ℝ
  angle : ℝ

/-- `spawnSnakePosition()` from arena.ts, with the three `Math.random()`
draws passed in as `r1 r2 r3`. -/
def spawnSnakePosition (cfg : Config) (r1 r2 r3 : ℝ) : Spawn :=
  let spawnAngle := r1 * (2 * π)
  let spawnRadius := cfg.arenaRadius * (0.5 + r2 * 0.3)
  let x := Real.cos spawnAngle * spawnRadius
  let y := Real.sin spawnAngle * spawnRadius
  let toCenter := atan2 (-y) (-x)
  ⟨x, y, normalizeAngle (toCenter + (r3 - 0.5) * π * 0.5)⟩

/-- `buildInitialTrail(headX, headY, angle)` from arena.ts: `startingSegments × 3`
points spaced `segmentSpacing / 2` apart along the opposite of the heading. -/
def buildInitialTrail (cfg : Config) (headX headY angle : ℝ) : List Position :=
  (List.range (cfg.startingSegments * 3)).map fun i =>
    ⟨headX + Real.cos (angle + π) * ((i : ℝ) * (cfg.segmentSpacing / 2)),
     headY + Real.sin (angle + π) * ((i : ℝ) * (cfg.segmentSpacing / 2))⟩

/-- `spawnFood()` from arena.ts, with the two `Math.random()` draws passed
in as `r1 r2`. -/
def spawnFood (cfg : Config) (r1 r2 : ℝ) : Food :=
  let angle := r1 * (2 * π)
  let r := cfg.arenaRadius * Real.sqrt r2 * 0.95
  ⟨Real.cos angle * r, Real.sin angle * r, 1, cfg.foodRadius⟩

-- game.ts: registration, respawn, food top-up, persistence, and the tick.

/-- `respawnSnake(snake)` from game.ts, with the spawn draw passed in. -/
def respawnSnake (cfg : Config) (sp : Spawn) (s : Snake) : Snake :=
  { s with
      headX := sp.x
      headY := sp.y
      angle := sp.angle
      speed := cfg.snakeSpeed
      trail := buildInitialTrail cfg sp.x sp.y sp.angle
      segmentCount := cfg.startingSegments
      alive := true
      kills := 0
      diedAt := none
      deathReason := none
      respawnAt := none
      lastAIError := none }

/-- The `while (food.length < Math.min(target, cap)) push(spawnFood())` loop
of `ensureMinFood`; `gen k` is the food produced by the (k+1)-st call of
`spawnFood()` within this loop. -/
def topUp (goal : ℕ) (gen : ℕ → Food) (k : ℕ) (food : List Food) : List Food :=
  if food.length < goal then topUp goal gen (k + 1) (food ++ [gen k]) else food
termination_by goal - food.length
decreasing_by simp; omega

/-- `ensureMinFood()` from game.ts. -/
def ensureMinFood (cfg : Config) (gen : ℕ → Food) (gs : GameState) : GameState :=
  { gs with food := topUp (min (cfg.minFood + gs.snakes.length * 20) cfg.maxFood) gen 0 gs.food }

/-- `registerSnake(name, aiFunction)` from game.ts.  `sp` is the spawn draw,
`gen` the food draws of `ensureMinFood`, `newId` the `generateId()` result,
`now` the `Date.now()` timestamp. -/
def registerSnake (cfg : Config) (sp : Spawn) (gen : ℕ → Food) (newId : String)
    (now : ℕ) (name aiFn : String) (gs : GameState) : GameState :=
  let sub : Submission := ⟨gs.tick, (aiFn.splitOn "\n").length, now⟩
  if (gs.snakes.find? fun s => s.participantName = name).isSome then
    -- update-and-respawn path (no food top-up); names are unique so the
    -- single `find` of the code is the map over matching names below
    { gs with snakes := gs.snakes.map fun s =>
        if s.participantName = name then
          respawnSnake cfg sp { s with aiFunction := aiFn, submissions := s.submissions ++ [sub] }
        else s }
  else
    let snake : Snake :=
      { id := newId
        participantName := name
        color := (cfg.colors.getD (gs.snakes.length % cfg.colors.length) "")
        alive := false
        headX := 0
        headY := 0
        angle := 0
        speed := cfg.snakeSpeed
        trail := []
        segmentCount := cfg.startingSegments
        kills := 0
        totalKills := 0
        deaths := 0
        bestLength := 0
        submissions := [sub]
        aiFunction := aiFn }
    ensureMinFood cfg gen
      { gs with snakes := gs.snakes ++ [respawnSnake cfg sp snake] }

/-- The snake projection of `getStateForPersistence()`. -/
structure PersistedSnake where
  id : String
  participantName : String
  color : String
  aiFunction : String
  submissions : List Submission
  totalKills : ℕ
  deaths : ℕ
  bestLength : ℕ

/-- The payload of `getStateForPersistence()`. -/
structure PersistedState where
  tick : ℕ
  status : Status
  snakes : List PersistedSnake
  food : List Food

/-- `getStateForPersistence()` from game.ts. -/
def getStateForPersistence (gs : GameState) : PersistedState where
  tick := gs.tick
  status := gs.status
  snakes := gs.snakes.map fun s =>
    ⟨s.id, s.participantName, s.color, s.aiFunction, s.submissions,
     s.totalKills, s.deaths, s.bestLength⟩
  food := gs.food

/-- `loadState(saved)` from game.ts: set tick, force status `waiting`, load
food verbatim, push a fresh runtime snake per saved snake and respawn it,
then top up food.  `spawnFor i` is the spawn draw used for the i-th snake. -/
def loadState (cfg : Config) (spawnFor : ℕ → Spawn) (gen : ℕ → Food)
    (saved : PersistedState) (gs : GameState) : GameState :=
  let newSnakes := saved.snakes.mapIdx fun i ss =>
    respawnSnake cfg (spawnFor i)
      { id := ss.id
        participantName := ss.participantName
        color := ss.color
        alive := false
        headX := 0
        headY := 0
        angle := 0
        speed := cfg.snakeSpeed
        trail := []
        segmentCount := cfg.startingSegments
        kills := 0
        totalKills := ss.totalKills
        deaths := ss.deaths
        bestLength := ss.bestLength
        submissions := ss.submissions
        aiFunction := ss.aiFunction }
  ensureMinFood cfg gen
    { gs with
        tick := saved.tick
        status := Status.waiting
        food := saved.food
        snakes := gs.snakes ++ newSnakes }

/-- `startGame()` from game.ts (without the scheduling side effects). -/
def startGame (cfg : Config) (spawnFor : ℕ → Spawn) (gen : ℕ → Food)
    (gs : GameState) : GameState :=
  if gs.status = Status.running then gs
  else
    ensureMinFood cfg gen
      { gs with
          status := Status.running
          arenaRadius := cfg.arenaRadius
          snakes := gs.snakes.mapIdx fun i s =>
            if s.alive then s else respawnSnake cfg (spawnFor i) s }

/-- `loadState` applied to a freshly persisted payload and a fresh state:
the round trip of claim C2. -/
def roundTrip (cfg : Config) (spawnFor : ℕ → Spawn) (gen : ℕ → Food)
    (gs : GameState) : GameState :=
  loadState cfg spawnFor gen (getStateForPersistence gs) (createInitialState cfg)

-- The tick pipeline (`executeTick` of game.ts), one step per definition.

/-- The result type of one AI invocation (runner.ts `AIResult`). -/
structure AIResult where
  targetAngle : Option ℝ
  error : Option String

/-- The random draws a tick consumes. -/
structure Oracle where
  spawnRand : ℕ → Spawn
  foodRand : ℕ → Food
  jitterRand : String → ℕ → ℝ × ℝ

/-- `gameState.tick++`. -/
def tickStart (gs : GameState) : GameState := { gs with tick := gs.tick + 1 }

/-- `!snake.alive && snake.respawnAt && gameState.tick >= snake.respawnAt`
(the middle conjunct is JavaScript truthiness: `respawnAt` set and nonzero). -/
def respawnDue (tick : ℕ) (s : Snake) : Prop :=
  s.alive = false ∧ ∃ r, s.respawnAt = some r ∧ r ≠ 0 ∧ r ≤ tick

/-- Step 1 of the tick: the respawn sweep (respawn-on-death mode only). -/
def respawnSweep (cfg : Config) (spawnFor : ℕ → Spawn) (gs : GameState) : GameState :=
  if cfg.respawnOnDeath then
    { gs with snakes := gs.snakes.mapIdx fun i s =>
        if respawnDue gs.tick s then respawnSnake cfg (spawnFor i) s else s }
  else gs

/-- The state after the tick counter increment and the respawn sweep: the
pre-AI, pre-turn state of the tick. -/
def tickMid (cfg : Config) (spawnFor : ℕ → Spawn) (gs : GameState) : GameState :=
  respawnSweep cfg spawnFor (tickStart gs)

/-- `gameState.snakes.filter(s => s.alive)`. -/
def aliveSnakes (gs : GameState) : List Snake := gs.snakes.filter (·.alive)

/-- The step-3 update of one snake: record `lastAIError` and turn toward
the target angle (a `null` target leaves the heading unchanged). -/
def turnSnake (cfg : Config) (ai : String → Option AIResult) (s : Snake) : Snake :=
  if s.alive then
    match ai s.id with
    | none => s
    | some r =>
        let s' := { s with lastAIError := r.error }
        match r.targetAngle with
        | none => s'
        | some t =>
            { s' with angle := turnToward s.angle (normalizeAngle t) cfg.maxTurnRate }
  else s

/-- Step 3: record `lastAIError` and turn toward the target angle. -/
def turnStep (cfg : Config) (ai : String → Option AIResult) (gs : GameState) : GameState :=
  { gs with snakes := gs.snakes.map (turnSnake cfg ai) }

/-- The step-4 update of one snake: move the head, prepend it, prune. -/
def moveSnake (cfg : Config) (s : Snake) : Snake :=
  if s.alive then
    let hx := s.headX + Real.cos s.angle * s.speed
    let hy := s.headY + Real.sin s.angle * s.speed
    pruneTrail cfg { s with headX := hx, headY := hy, trail := ⟨hx, hy⟩ :: s.trail }
  else s

/-- Step 4: move heads, prepend the new head to the trail, prune. -/
def moveStep (cfg : Config) (gs : GameState) : GameState :=
  { gs with snakes := gs.snakes.map (moveSnake cfg) }

/-- Step 5: the per-tick segment cache, keyed by snake id. -/
def segCache (cfg : Config) (gs : GameState) : List (String × List Position) :=
  (aliveSnakes gs).map fun s => (s.id, getSegmentPositions cfg s)

/-- `segmentCache.get(id)`, with `[]` when absent (the code's `?? []`). -/
def cacheGet (cache : List (String × List Position)) (id : String) : List Position :=
  match cache.find? fun p => p.1 = id with
  | some p => p.2
  | none => []

/-- `(config.snakeRadius + config.foodRadius) ** 2`. -/
def eatThresholdSq (cfg : Config) : ℝ := (cfg.snakeRadius + cfg.foodRadius) ^ 2

/-- One food consumption: grow `segmentCount` by the food's value and raise
`bestLength` to the new count when it exceeds it. -/
def eatOne (f : Food) (s : Snake) : Snake :=
  if s.bestLength < s.segmentCount + f.value then
    { s with segmentCount := s.segmentCount + f.value,
             bestLength := s.segmentCount + f.value }
  else { s with segmentCount := s.segmentCount + f.value }

/-- The inner food loop of step 6 for one snake: scan the indexed food list,
skipping already-eaten indices, eating everything within the eat radius. -/
def eatFoods (cfg : Config) : List (ℕ × Food) → Snake → List ℕ → Snake × List ℕ
  | [], s, eaten => (s, eaten)
  | (i, f) :: rest, s, eaten =>
      if i ∈ eaten then eatFoods cfg rest s eaten
      else if distSq s.headX s.headY f.x f.y < eatThresholdSq cfg then
        eatFoods cfg rest (eatOne f s) (i :: eaten)
      else eatFoods cfg rest s eaten

/-- The outer snake loop of step 6, threading the eaten-index set. -/
def eatGo (cfg : Config) (foodIdx : List (ℕ × Food)) :
    List Snake → List ℕ → List Snake × List ℕ
  | [], eaten => ([], eaten)
  | s :: rest, eaten =>
      if s.alive then
        let p := eatFoods cfg foodIdx s eaten
        let q := eatGo cfg foodIdx rest p.2
        (p.1 :: q.1, q.2)
      else
        let q := eatGo cfg foodIdx rest eaten
        (s :: q.1, q.2)

/-- Step 6: food eating, then one stable rebuild of the food list. -/
def eatStep (cfg : Config) (gs : GameState) : GameState :=
  let p := eatGo cfg gs.food.enum gs.snakes []
  { gs with
      snakes := p.1
      food :=
        if p.2 = [] then gs.food
        else (gs.food.enum.filter fun q => q.1 ∉ p.2).map (·.2) }

/-- `(config.snakeRadius * 2) ** 2`. -/
def collideThreshSq (cfg : Config) : ℝ := (cfg.snakeRadius * 2) ^ 2

/-- Head of `s` against the cached segments of another snake, skipping the
cached head at index 0. -/
def hitsBody (cfg : Config) (segs : List Position) (s : Snake) : Prop :=
  ∃ p ∈ segs.tail, distSq s.headX s.headY p.x p.y < collideThreshSq cfg

/-- The first opponent (in alive order) whose cached body the head of `s`
hits — the `for (const other of aliveSnakes)` loop with its `break`s. -/
def bodyKiller (cfg : Config) (cache : List (String × List Position))
    (alive : List Snake) (s : Snake) : Option Snake :=
  alive.find? fun o => decide (o.id ≠ s.id ∧ hitsBody cfg (cacheGet cache o.id) s)

/-- The first collision pass of step 7: boundary, then head-vs-other-body.
Returns the deaths `(id, deathReason)` in detection order and the
`killedBy` entries `(victim, killer)`. -/
def bodyPass (cfg : Config) (cache : List (String × List Position))
    (aliveAll : List Snake) : List Snake → List (String × String) × List (String × String)
  | [] => ([], [])
  | s :: rest =>
      let p := bodyPass cfg cache aliveAll rest
      if ¬ isInBounds cfg s.headX s.headY then ((s.id, "boundary") :: p.1, p.2)
      else
        match bodyKiller cfg cache aliveAll s with
        | some o => ((s.id, "snake:" ++ o.participantName) :: p.1, (s.id, o.id) :: p.2)
        | none => p

/-- Inner loop of the head-to-head pass: `a` against each later snake,
skipping pairs in which either is already dead this tick. -/
def headOnInner (cfg : Config) (a : Snake) :
    List Snake → List String → List (String × String) × List String
  | [], dead => ([], dead)
  | b :: rest, dead =>
      if a.id ∈ dead ∨ b.id ∈ dead then headOnInner cfg a rest dead
      else if distSq a.headX a.headY b.headX b.headY < collideThreshSq cfg then
        let p := headOnInner cfg a rest (dead ++ [a.id, b.id])
        ((a.id, "headon:" ++ b.participantName) :: (b.id, "headon:" ++ a.participantName) :: p.1,
         p.2)
      else headOnInner cfg a rest dead

/-- Outer loop of the head-to-head pass over ordered pairs `i < j`. -/
def headOnOuter (cfg : Config) :
    List Snake → List String → List (String × String) × List String
  | [], dead => ([], dead)
  | a :: rest, dead =>
      let p := headOnInner cfg a rest dead
      let q := headOnOuter cfg rest p.2
      (p.1 ++ q.1, q.2)

/-- Step 7 in full: the deaths of this tick `(id, deathReason)` in
`deadThisTick` insertion order, and the `killedBy` map as an ordered list. -/
def collide (cfg : Config) (cache : List (String × List Position))
    (alive : List Snake) : List (String × String) × List (String × String) :=
  let p := bodyPass cfg cache alive alive
  let q := headOnOuter cfg alive (p.1.map (·.1))
  (p.1 ++ q.1, p.2)

/-- The per-snake mutation of step 8 (including the `deathReason` already
assigned during detection and the trail clearing). -/
def applyDeath (cfg : Config) (tick : ℕ) (reason : String) (s : Snake) : Snake :=
  { s with
      alive := false
      deaths := s.deaths + 1
      diedAt := some tick
      respawnAt :=
        if cfg.respawnOnDeath then
          some (tick + (cfg.respawnDelayMs + cfg.tickRateMs - 1) / cfg.tickRateMs)
        else s.respawnAt
      deathReason := some reason
      trail := [] }

/-- The corpse-food loop of step 8: `⌊segments.length / 2⌋` pieces, evenly
indexed through the cached segments, jittered, appended while below
`maxFood`.  `jr i` gives the two `Math.random()` draws of piece `i`. -/
def corpseGo (cfg : Config) (jr : ℕ → ℝ × ℝ) (segs : List Position)
    (foodCount : ℕ) (i : ℕ) (food : List Food) : List Food :=
  if i < foodCount ∧ food.length < cfg.maxFood then
    let seg := segs.getD (i * segs.length / foodCount) ⟨0, 0⟩
    corpseGo cfg jr segs foodCount (i + 1)
      (food ++ [⟨seg.x + ((jr i).1 - 0.5) * 10, seg.y + ((jr i).2 - 0.5) * 10,
                 2, cfg.foodRadius * 1.5⟩])
  else food
termination_by foodCount - i
decreasing_by omega

/-- Step 8: process the deaths in `deadThisTick` order. -/
def deathFold (cfg : Config) (tick : ℕ) (jr : String → ℕ → ℝ × ℝ)
    (cache : List (String × List Position)) :
    List (String × String) → GameState → GameState
  | [], gs => gs
  | (i, reason) :: rest, gs =>
      let segs := cacheGet cache i
      deathFold cfg tick jr cache rest
        { gs with
            snakes := gs.snakes.map fun s => if s.id = i then applyDeath cfg tick reason s else s
            food := corpseGo cfg (jr i) segs (segs.length / 2) 0 gs.food }

/-- Step 9: award kills, revoking credit when the killer died this tick. -/
def killFold (deadIds : List String) :
    List (String × String) → List Snake → List Snake
  | [], snakes => snakes
  | (_, k) :: rest, snakes =>
      if k ∈ deadIds then killFold deadIds rest snakes
      else killFold deadIds rest
        (snakes.map fun s =>
          if s.id = k then { s with kills := s.kills + 1, totalKills := s.totalKills + 1 }
          else s)

/-- Step 11: the tournament-mode win check. -/
def winStep (cfg : Config) (gs : GameState) : GameState :=
  if cfg.respawnOnDeath then gs
  else
    if (gs.snakes.filter (·.alive)).length ≤ 1 ∧ 1 < gs.snakes.length then
      { gs with
          winnerId := match gs.snakes.filter (·.alive) with | [a] => some a.id | _ => gs.winnerId
          status := Status.finished }
    else gs

/-- `executeTick()` from game.ts, with the AI fan-out results passed in as
`ai` (one `AIResult` per snake id, `none` for a missing map entry) and the
random draws as `orc`. -/
def executeTick (cfg : Config) (orc : Oracle) (ai : String → Option AIResult)
    (gs : GameState) : GameState :=
  if gs.status ≠ Status.running then gs
  else
    let mid := tickMid cfg orc.spawnRand gs
    if aliveSnakes mid = [] then mid
    else
      let g3 := moveStep cfg (turnStep cfg ai mid)
      let cache := segCache cfg g3
      let g4 := eatStep cfg g3
      let p := collide cfg cache (aliveSnakes g4)
      let g5 := deathFold cfg mid.tick orc.jitterRand cache p.1 g4
      let g6 := { g5 with snakes := killFold (p.1.map (·.1)) p.2 g5.snakes }
      winStep cfg (ensureMinFood cfg orc.foodRand g6)

/-- The state after steps 1-4 of a tick (increment, respawn sweep, AI turn,
movement): the post-move state whose heads and cached segments the
collision pass inspects. -/
def tickMoved (cfg : Config) (orc : Oracle) (ai : String → Option AIResult)
    (gs : GameState) : GameState :=
  moveStep cfg (turnStep cfg ai (tickMid cfg orc.spawnRand gs))

/-- The segment cache of the tick (built post-move, pre-eating). -/
def tickCache (cfg : Config) (orc : Oracle) (ai : String → Option AIResult)
    (gs : GameState) : List (String × List Position) :=
  segCache cfg (tickMoved cfg orc ai gs)

/-- The state after step 6 (food eating) of a tick. -/
def tickEaten (cfg : Config) (orc : Oracle) (ai : String → Option AIResult)
    (gs : GameState) : GameState :=
  eatStep cfg (tickMoved cfg orc ai gs)

/-- The deaths `(id, deathReason)` detected by step 7 of a tick. -/
def tickDeaths (cfg : Config) (orc : Oracle) (ai : String → Option AIResult)
    (gs : GameState) : List (String × String) :=
  (collide cfg (tickCache cfg orc ai gs) (aliveSnakes (tickEaten cfg orc ai gs))).1

/-- The `killedBy` entries `(victim, killer)` recorded by step 7 of a tick. -/
def tickKilledBy (cfg : Config) (orc : Oracle) (ai : String → Option AIResult)
    (gs : GameState) : List (String × String) :=
  (collide cfg (tickCache cfg orc ai gs) (aliveSnakes (tickEaten cfg orc ai gs))).2

/-- The sequential application of `applyDeath` for every death entry whose id
matches the snake — what `deathFold` does to one snake. -/
def applyDeathsList (cfg : Config) (tick : ℕ) (ds : List (String × String)) (s : Snake) : Snake :=
  ds.foldl (fun t p => applyDeath cfg tick p.2 t) s

-- Erasure functions: each tick step leaves everything outside its erased
-- fields unchanged, which the `..._strip` lemmas below state as one equation.

/-- Erase the fields the turn step may change (`angle`, `lastAIError`). -/
def stripTurn (s : Snake) : Snake := { s with angle := 0, lastAIError := none }

/-- Erase the fields the move step may change (head and trail). -/
def stripMove (s : Snake) : Snake := { s with headX := 0, headY := 0, trail := [] }

/-- Erase the fields the eating step may change. -/
def stripGrowth (s : Snake) : Snake := { s with segmentCount := 0, bestLength := 0 }

/-- Erase the fields death processing may change. -/
def stripDeath (s : Snake) : Snake :=
  { s with alive := false, deaths := 0, diedAt := none, respawnAt := none,
           deathReason := none, trail := [] }

/-- Erase the fields the kill-award step may change. -/
def stripKills (s : Snake) : Snake := { s with kills := 0, totalKills := 0 }

/-- Add `n` to a snake's `kills` and `totalKills`. -/
def addKills (n : ℕ) (s : Snake) : Snake :=
  { s with kills := s.kills + n, totalKills := s.totalKills + n }

/-- How many kill credits step 9 pays to `id`: one per `killedBy` entry
naming it as the killer, none at all when `id` itself died this tick. -/
def creditCount (kb : List (String × String)) (deadIds : List String) (id : String) : ℕ :=
  if id ∈ deadIds then 0 else (kb.filter fun p => p.2 = id).length

-- Concrete states used to witness the tick-level claims.

/-- A minimal idle snake sitting at the origin. -/
def wSnake : Snake :=
  { id := "a", participantName := "a", color := "c", alive := true,
    headX := 0, headY := 0, angle := 0, speed := 0, trail := [⟨0, 0⟩],
    segmentCount := 1, kills := 0, totalKills := 0, deaths := 0, bestLength := 0,
    submissions := [], aiFunction := "" }

/-- A running one-snake state. -/
def wState : GameState :=
  { tick := 0, status := Status.running, arenaRadius := 2000,
    snakes := [wSnake], food := [] }

/-- A fixed random oracle. -/
def wOracle : Oracle := ⟨fun _ => ⟨0, 0, 0⟩, fun _ => ⟨0, 0, 1, 6⟩, fun _ _ => (0, 0)⟩

/-- The all-null AI results. -/
def wAI : String → Option AIResult := fun _ => none

-- Default elements (used by `List.getD`); the default snake is not alive.

instance : Inhabited Position := ⟨⟨0, 0⟩⟩

instance : Inhabited Food := ⟨⟨0, 0, 0, 0⟩⟩

instance : Inhabited Snake :=
  ⟨{ id := "", participantName := "", color := "", alive := false,
     headX := 0, headY := 0, angle := 0, speed := 0, trail := [],
     segmentCount := 0, kills := 0, totalKills := 0, deaths := 0,
     bestLength := 0, submissions := [], aiFunction := "" }⟩

instance : Inhabited PersistedSnake := ⟨⟨"", "", "", "", [], 0, 0, 0⟩⟩

-- The polyline arc-length parametrization (the specification's notion of a
-- point "`s` units of arc length along the trail").

/-- Linear interpolation from `p` toward `q`. -/
def lerp (p q : Position) (t : ℝ) : Position :=
  ⟨p.x + t * (q.x - p.x), p.y + t * (q.y - p.y)⟩

/-- The point at arc length `s` along a polyline, linearly interpolating
between vertices; `none` when the polyline is shorter than `s`. -/
def pointAtArc : List Position → ℝ → Option Position
  | [], _ => none
  | [p], s => if s = 0 then some p else none
  | p :: q :: rest, s =>
      let L := dist p.x p.y q.x q.y
      if s ≤ L then some (lerp p q (s / L))
      else pointAtArc (q :: rest) (s - L)

-- Declarative eating predicates (used to state claim C10).

/-- A head at `(hx, hy)` is within eating range of the food `f`. -/
def inRangeXY (cfg : Config) (hx hy : ℝ) (f : Food) : Prop :=
  distSq hx hy f.x f.y < eatThresholdSq cfg

/-- Some alive snake of the list is within eating range of `f`. -/
def someoneEats (cfg : Config) (snakes : List Snake) (f : Food) : Prop :=
  ∃ s ∈ snakes, s.alive = true ∧ inRangeXY cfg s.headX s.headY f

/-- The snake at position `j` of the list claims the food `f`: it is alive,
within range, and no alive snake earlier in the list is within range. -/
def claimsFood (cfg : Config) (snakes : List Snake) (j : ℕ) (f : Food) : Prop :=
  (snakes.getD j default).alive = true ∧
  inRangeXY cfg (snakes.getD j default).headX (snakes.getD j default).headY f ∧
  ∀ j' < j, (snakes.getD j' default).alive = true →
    ¬ inRangeXY cfg (snakes.getD j' default).headX (snakes.getD j' default).headY f

-- ai-worker.ts: the return-value coercion of `runOne`.

/-- A JavaScript number: finite, `NaN`, or a signed infinity. -/
inductive JSNum where
  | fin (v : ℝ)
  | nan
  | posInf
  | negInf

/-- JavaScript's `isFinite`. -/
def JSNum.isFinite : JSNum → Bool
  | .fin _ => true
  | _ => false

/-- The universe of values distinguished by `runOne` in ai-worker.ts: a
number, a string, a boolean, `null`, `undefined`, or an object whose `x`/`y`
fields are recorded when they are numbers along with the object's
`JSON.stringify` rendering. -/
inductive JSValue where
  | num (n : JSNum)
  | str (s : String)
  | bool (b : Bool)
  | nullV
  | undef
  | obj (x y : Option JSNum) (json : String)

/-- `value - r` for a JavaScript number and a finite real. -/
def jsSubReal (a : JSNum) (r : ℝ) : JSNum :=
  match a with
  | .fin v => .fin (v - r)
  | .nan => .nan
  | .posInf => .posInf
  | .negInf => .negInf

/-- JavaScript's `Math.atan2` on JavaScript numbers. -/
def jsAtan2 (y x : JSNum) : JSNum :=
  match y, x with
  | .nan, _ => .nan
  | _, .nan => .nan
  | .fin a, .fin b => .fin (atan2 a b)
  | .posInf, .posInf => .fin (π / 4)
  | .posInf, .negInf => .fin (3 * π / 4)
  | .negInf, .posInf => .fin (-(π / 4))
  | .negInf, .negInf => .fin (-(3 * π / 4))
  | .posInf, .fin _ => .fin (π / 2)
  | .negInf, .fin _ => .fin (-(π / 2))
  | .fin a, .posInf => .fin 0
  | .fin a, .negInf => .fin (if 0 ≤ a then π else -π)

/-- The `got` rendering of an invalid return value: `"null"` for `null`,
`JSON.stringify(...).slice(0, 50)` for objects, `String(result)` (the
`disp` parameter, JavaScript's string coercion) otherwise. -/
def gotOf (disp : JSValue → String) : JSValue → String
  | .nullV => "null"
  | .obj _ _ json => json.take 50
  | v => disp v

/-- The full invalid-return error message of ai-worker.ts. -/
def invalidMsg (got : String) : String :=
  "Invalid return: " ++ got ++ ". Return a number (angle) or \x7bx, y\x7d (target point)."

/-- The return-value coercion of `runOne` in ai-worker.ts (the non-throwing
path): a finite number passes through, an object with numeric `x` and `y`
is converted via `atan2` from the snake's head, anything else produces a
`null` angle and the invalid-return error. -/
def runOne (disp : JSValue → String) (youX youY : ℝ) :
    JSValue → Option JSNum × Option String
  | .num n => if n.isFinite then (some n, none) else (none, some (invalidMsg (gotOf disp (.num n))))
  | .obj (some x) (some y) json =>
      (some (jsAtan2 (jsSubReal y youY) (jsSubReal x youX)), none)
  | v => (none, some (invalidMsg (gotOf disp v)))

-- Basic facts about the wrapping loops.

lemma wrapHigh_of_le (d : ℝ) (h : d ≤ π) : wrapHigh d = d := by
  rw [wrapHigh]
  simp [not_lt.mpr h]

lemma wrapHigh_of_gt (d : ℝ) (h : π < d) : wrapHigh d = wrapHigh (d - 2 * π) := by
  rw [wrapHigh]
  simp [h]

lemma wrapLow_of_ge (d : ℝ) (h : -π ≤ d) : wrapLow d = d := by
  rw [wrapLow]
  simp [not_lt.mpr h]

lemma wrapLow_of_lt (d : ℝ) (h : d < -π) : wrapLow d = wrapLow (d + 2 * π) := by
  rw [wrapLow]
  simp [h]

lemma wrapHigh_le (d : ℝ) : wrapHigh d ≤ π := by
  induction d using wrapHigh.induct with
  | case1 d h ih => rwa [wrapHigh_of_gt d h]
  | case2 d h => rw [wrapHigh_of_le d (not_lt.mp h)]; exact not_lt.mp h

lemma wrapLow_ge (d : ℝ) : -π ≤ wrapLow d := by
  induction d using wrapLow.induct with
  | case1 d h ih => rwa [wrapLow_of_lt d h]
  | case2 d h => rw [wrapLow_of_ge d (not_lt.mp h)]; exact not_lt.mp h

lemma wrapLow_le (d : ℝ) (h : d ≤ π) : wrapLow d ≤ π := by
  induction d using wrapLow.induct with
  | case1 d hlt ih =>
      rw [wrapLow_of_lt d hlt]
      have hπ : (0:ℝ) < π := pi_pos
      exact ih (by linarith)
  | case2 d hge => rwa [wrapLow_of_ge d (not_lt.mp hge)]

lemma wrapHigh_sub (d : ℝ) : ∃ k : ℤ, wrapHigh d = d + 2 * π * k := by
  induction d using wrapHigh.induct with
  | case1 d h ih =>
      obtain ⟨k, hk⟩ := ih
      exact ⟨k - 1, by rw [wrapHigh_of_gt d h, hk]; push_cast; ring⟩
  | case2 d h => exact ⟨0, by rw [wrapHigh_of_le d (not_lt.mp h)]; push_cast; ring⟩

lemma wrapLow_sub (d : ℝ) : ∃ k : ℤ, wrapLow d = d + 2 * π * k := by
  induction d using wrapLow.induct with
  | case1 d h ih =>
      obtain ⟨k, hk⟩ := ih
      exact ⟨k + 1, by rw [wrapLow_of_lt d h, hk]; push_cast; ring⟩
  | case2 d h => exact ⟨0, by rw [wrapLow_of_ge d (not_lt.mp h)]; push_cast; ring⟩

/-- `angleDiff` lands in the closed interval `[-π, π]`. -/
lemma angleDiff_mem (a b : ℝ) : -π ≤ angleDiff a b ∧ angleDiff a b ≤ π :=
  ⟨wrapLow_ge _, wrapLow_le _ (wrapHigh_le _)⟩

/-- `angleDiff a b` is congruent to `b - a` modulo `2π`. -/
lemma angleDiff_sub (a b : ℝ) : ∃ k : ℤ, angleDiff a b = (b - a) + 2 * π * k := by
  obtain ⟨k₁, h₁⟩ := wrapHigh_sub (b - a)
  obtain ⟨k₂, h₂⟩ := wrapLow_sub (wrapHigh (b - a))
  exact ⟨k₁ + k₂, by rw [angleDiff, h₂, h₁]; push_cast; ring⟩

/-- Among all representatives of a residue class mod `2π`, the one in
`[-π, π]` has the least absolute value. -/
lemma abs_le_of_repr {x y : ℝ} (hx₁ : -π ≤ x) (hx₂ : x ≤ π)
    (h : ∃ k : ℤ, y = x + 2 * π * k) : |x| ≤ |y| := by
  obtain ⟨k, rfl⟩ := h
  have hπ : (0:ℝ) < π := pi_pos
  have habs : |x| ≤ π := abs_le.mpr ⟨hx₁, hx₂⟩
  rcases lt_trichotomy k 0 with hk | hk | hk
  · have hk1 : (k:ℝ) ≤ -1 := by exact_mod_cast Int.le_sub_one_of_lt hk
    have : x + 2 * π * k ≤ -π := by nlinarith
    calc |x| ≤ π := habs
    _ ≤ |x + 2 * π * k| := by rw [abs_of_nonpos (by linarith)]; linarith
  · simp [hk]
  · have hk1 : (1:ℝ) ≤ (k:ℝ) := by exact_mod_cast hk
    have : π ≤ x + 2 * π * k := by nlinarith
    calc |x| ≤ π := habs
    _ ≤ |x + 2 * π * k| := by rw [abs_of_nonneg (by linarith)]; linarith

lemma normalizeAngle_sub (a : ℝ) : ∃ k : ℤ, normalizeAngle a = a + 2 * π * k := by
  unfold normalizeAngle jsMod
  by_cases h : a - 2 * π * (rtrunc (a / (2 * π)) : ℝ) < 0
  · exact ⟨1 - rtrunc (a / (2 * π)), by simp only [h, if_true]; push_cast; ring⟩
  · exact ⟨-rtrunc (a / (2 * π)), by simp only [h, if_false]; push_cast; ring⟩

/-- The turn governor: the result of `turnToward` is within `maxRate`
(in shortest-arc distance) of the current heading. -/
lemma abs_angleDiff_turnToward (current target maxRate : ℝ)
    (h0 : 0 ≤ maxRate) : |angleDiff current (turnToward current target maxRate)| ≤ maxRate := by
  unfold turnToward
  set diff := angleDiff current target with hdiff
  by_cases hle : |diff| ≤ maxRate
  · simp only [hle, if_true]
    -- result = normalizeAngle target ≡ target (mod 2π)
    obtain ⟨k₁, hk₁⟩ := angleDiff_sub current (normalizeAngle target)
    obtain ⟨k₂, hk₂⟩ := normalizeAngle_sub target
    obtain ⟨k₃, hk₃⟩ := angleDiff_sub current target
    have hmem := angleDiff_mem current (normalizeAngle target)
    have : |angleDiff current (normalizeAngle target)| ≤ |diff| := by
      refine abs_le_of_repr hmem.1 hmem.2 ⟨k₃ - k₂ - k₁, ?_⟩
      rw [hdiff, hk₃, hk₁, hk₂]
      push_cast
      ring
    linarith
  · simp only [hle, if_false]
    obtain ⟨k₁, hk₁⟩ := angleDiff_sub current (normalizeAngle (current + Real.sign diff * maxRate))
    obtain ⟨k₂, hk₂⟩ := normalizeAngle_sub (current + Real.sign diff * maxRate)
    have hmem := angleDiff_mem current (normalizeAngle (current + Real.sign diff * maxRate))
    have hstep : |angleDiff current (normalizeAngle (current + Real.sign diff * maxRate))|
        ≤ |Real.sign diff * maxRate| := by
      refine abs_le_of_repr hmem.1 hmem.2 ⟨-k₂ - k₁, ?_⟩
      rw [hk₁, hk₂]
      push_cast
      ring
    have hsign : |Real.sign diff * maxRate| ≤ maxRate := by
      rw [abs_mul]
      have h1 : |Real.sign diff| ≤ 1 := by
        rcases lt_trichotomy diff 0 with h | h | h
        · rw [Real.sign_of_neg h]; norm_num
        · rw [h, Real.sign_zero]; norm_num
        · rw [Real.sign_of_pos h]; norm_num
      calc |Real.sign diff| * |maxRate| ≤ 1 * |maxRate| :=
            mul_le_mul_of_nonneg_right h1 (abs_nonneg _)
      _ = maxRate := by rw [one_mul, abs_of_nonneg h0]
    linarith

lemma Position.eq_of_xy {p q : Position} (hx : p.x = q.x) (hy : p.y = q.y) : p = q := by
  cases p; cases q; cases hx; cases hy; rfl

lemma dist_nonneg' (x1 y1 x2 y2 : ℝ) : 0 ≤ dist x1 y1 x2 y2 := Real.sqrt_nonneg _

lemma distSq_nonneg' (x1 y1 x2 y2 : ℝ) : 0 ≤ distSq x1 y1 x2 y2 :=
  add_nonneg (mul_self_nonneg _) (mul_self_nonneg _)

lemma eq_of_dist_eq_zero {x1 y1 x2 y2 : ℝ} (h : dist x1 y1 x2 y2 = 0) :
    x2 = x1 ∧ y2 = y1 := by
  have h2 : distSq x1 y1 x2 y2 = 0 := by
    have h' : distSq x1 y1 x2 y2 ≤ 0 := Real.sqrt_eq_zero'.mp h
    exact le_antisymm h' (distSq_nonneg' _ _ _ _)
  have hx : (x2 - x1) * (x2 - x1) = 0 := by
    have := mul_self_nonneg (x2 - x1)
    have := mul_self_nonneg (y2 - y1)
    unfold distSq at h2
    linarith
  have hy : (y2 - y1) * (y2 - y1) = 0 := by
    have := mul_self_nonneg (x2 - x1)
    have := mul_self_nonneg (y2 - y1)
    unfold distSq at h2
    linarith
  constructor
  · have := mul_self_eq_zero.mp hx; linarith
  · have := mul_self_eq_zero.mp hy; linarith

lemma lerp_zero (p q : Position) : lerp p q 0 = p := by
  refine Position.eq_of_xy ?_ ?_ <;> simp [lerp]

lemma lerp_one (p q : Position) : lerp p q 1 = q := by
  refine Position.eq_of_xy ?_ ?_ <;> simp [lerp]

lemma pointAtArc_cons_le {p q : Position} {rest : List Position} {s : ℝ}
    (h : s ≤ dist p.x p.y q.x q.y) :
    pointAtArc (p :: q :: rest) s = some (lerp p q (s / dist p.x p.y q.x q.y)) := by
  rw [pointAtArc]
  simp [h]

lemma pointAtArc_cons_gt {p q : Position} {rest : List Position} {s : ℝ}
    (h : ¬ s ≤ dist p.x p.y q.x q.y) :
    pointAtArc (p :: q :: rest) s = pointAtArc (q :: rest) (s - dist p.x p.y q.x q.y) := by
  rw [pointAtArc]
  simp [h]

lemma pointAtArc_zero (p : Position) (l : List Position) :
    pointAtArc (p :: l) 0 = some p := by
  cases l with
  | nil => simp [pointAtArc]
  | cons q rest =>
      rw [pointAtArc_cons_le (dist_nonneg' _ _ _ _)]
      rw [zero_div, lerp_zero]

lemma pointAtArc_shift (p q : Position) (rest : List Position) (s : ℝ)
    (h : dist p.x p.y q.x q.y ≤ s) :
    pointAtArc (p :: q :: rest) s = pointAtArc (q :: rest) (s - dist p.x p.y q.x q.y) := by
  by_cases hs : s ≤ dist p.x p.y q.x q.y
  · have heq : s = dist p.x p.y q.x q.y := le_antisymm hs h
    rw [pointAtArc_cons_le hs, heq, sub_self, pointAtArc_zero]
    by_cases hz : dist p.x p.y q.x q.y = 0
    · obtain ⟨hx, hy⟩ := eq_of_dist_eq_zero hz
      rw [hz, div_zero, lerp_zero]
      exact congrArg some (Position.eq_of_xy hx.symm hy.symm)
    · rw [div_self hz, lerp_one]
  · exact pointAtArc_cons_gt hs

-- Equation lemmas for the `getSegmentPositions` loop.

lemma segGo_zero (spacing : ℝ) (prev : Position) (l : List Position) (a : ℝ) :
    segGo spacing 0 prev l a = [] := by
  rw [segGo]

lemma segGo_nil (spacing : ℝ) (b : ℕ) (prev : Position) (a : ℝ) :
    segGo spacing b prev [] a = [] := by
  cases b <;> rw [segGo]

lemma segGo_cons_emit {spacing : ℝ} (b : ℕ) (prev cur : Position)
    (rest : List Position) (distAccum : ℝ)
    (h : spacing ≤ distAccum + dist prev.x prev.y cur.x cur.y)
    (hd : 0 < dist prev.x prev.y cur.x cur.y) :
    segGo spacing (b + 1) prev (cur :: rest) distAccum =
      (⟨cur.x + (distAccum + dist prev.x prev.y cur.x cur.y - spacing) /
            dist prev.x prev.y cur.x cur.y * (prev.x - cur.x),
        cur.y + (distAccum + dist prev.x prev.y cur.x cur.y - spacing) /
            dist prev.x prev.y cur.x cur.y * (prev.y - cur.y)⟩ : Position) ::
        segGo spacing b cur rest
          (distAccum + dist prev.x prev.y cur.x cur.y - spacing) := by
  rw [segGo]
  simp only [h, if_true, hd]

lemma segGo_cons_emit_degenerate {spacing : ℝ} (b : ℕ) (prev cur : Position)
    (rest : List Position) (distAccum : ℝ)
    (h : spacing ≤ distAccum + dist prev.x prev.y cur.x cur.y)
    (hd : ¬ 0 < dist prev.x prev.y cur.x cur.y) :
    segGo spacing (b + 1) prev (cur :: rest) distAccum =
      cur :: segGo spacing b cur rest
        (distAccum + dist prev.x prev.y cur.x cur.y - spacing) := by
  rw [segGo]
  simp only [h, if_true, hd, if_false]

lemma segGo_cons_skip {spacing : ℝ} (b : ℕ) (prev cur : Position)
    (rest : List Position) (distAccum : ℝ)
    (h : ¬ spacing ≤ distAccum + dist prev.x prev.y cur.x cur.y) :
    segGo spacing (b + 1) prev (cur :: rest) distAccum =
      segGo spacing (b + 1) cur rest (distAccum + dist prev.x prev.y cur.x cur.y) := by
  rw [segGo]
  simp only [h, if_false]

lemma segGo_length (spacing : ℝ) :
    ∀ (rest : List Position) (budget : ℕ) (prev : Position) (distAccum : ℝ),
      (segGo spacing budget prev rest distAccum).length ≤ budget := by
  intro rest
  induction rest with
  | nil => intro budget prev a; rw [segGo_nil]; simp
  | cons cur rest ih =>
      intro budget prev a
      cases budget with
      | zero => rw [segGo_zero]; simp
      | succ b =>
          by_cases h : spacing ≤ a + dist prev.x prev.y cur.x cur.y
          · by_cases hd : 0 < dist prev.x prev.y cur.x cur.y
            · rw [segGo_cons_emit b prev cur rest a h hd]
              simpa using Nat.succ_le_succ (ih b cur _)
            · rw [segGo_cons_emit_degenerate b prev cur rest a h hd]
              simpa using Nat.succ_le_succ (ih b cur _)
          · rw [segGo_cons_skip b prev cur rest a h]
            exact ih (b + 1) cur _

/-- The loop invariant of `getSegmentPositions`: with at most `spacing`
between consecutive trail points, each emitted position is the point at arc
length `(j+1)·spacing - distAccum` along the remaining polyline. -/
lemma segGo_arc (spacing : ℝ) (hsp : 0 < spacing) :
    ∀ (rest : List Position) (budget : ℕ) (prev : Position) (distAccum : ℝ),
      0 ≤ distAccum → distAccum ≤ spacing →
      List.Chain' (fun p q => dist p.x p.y q.x q.y ≤ spacing) (prev :: rest) →
      ∀ (j : ℕ) (x : Position),
        (segGo spacing budget prev rest distAccum)[j]? = some x →
        pointAtArc (prev :: rest) (((j : ℕ) + 1) * spacing - distAccum) = some x := by
  intro rest
  induction rest with
  | nil =>
      intro budget prev a _ _ _ j x hx
      rw [segGo_nil] at hx
      simp at hx
  | cons cur rest ih =>
      intro budget prev a ha0 ha1 hchain j x hx
      have hd0 : 0 ≤ dist prev.x prev.y cur.x cur.y := dist_nonneg' _ _ _ _
      have hdle : dist prev.x prev.y cur.x cur.y ≤ spacing := hchain.rel_head
      have hchain' : List.Chain' (fun p q => dist p.x p.y q.x q.y ≤ spacing) (cur :: rest) :=
        hchain.tail
      cases budget with
      | zero => rw [segGo_zero] at hx; simp at hx
      | succ b =>
          set d := dist prev.x prev.y cur.x cur.y with hdd
          by_cases h : spacing ≤ a + d
          · -- an emission on this edge
            have ho0 : 0 ≤ a + d - spacing := by linarith
            have ho1 : a + d - spacing ≤ spacing := by linarith
            by_cases hd : 0 < d
            · rw [segGo_cons_emit b prev cur rest a h hd] at hx
              cases j with
              | zero =>
                  simp only [List.getElem?_cons_zero, Option.some_inj] at hx
                  have hs1 : ((0 : ℕ) + 1) * spacing - a = spacing - a := by ring
                  have hsle : spacing - a ≤ d := by linarith
                  rw [hs1, pointAtArc_cons_le hsle, ← hx]
                  refine congrArg some (Position.eq_of_xy ?_ ?_) <;>
                    · simp only [lerp]
                      field_simp
                      ring
              | succ j =>
                  simp only [List.getElem?_cons_succ] at hx
                  have hstep := ih b cur (a + d - spacing) ho0 ho1 hchain' j x hx
                  have harith : ((j : ℕ) + 1 + 1) * spacing - a =
                      ((j : ℕ) + 1) * spacing - (a + d - spacing) + d := by ring
                  have hge : d ≤ ((j : ℕ) + 1 + 1) * spacing - a := by
                    have : (0 : ℝ) ≤ (j : ℕ) := Nat.cast_nonneg j
                    nlinarith
                  rw [show (((j : ℕ) + 1 : ℕ) : ℝ) = ((j : ℕ) + 1 : ℝ) by push_cast; ring]
                  rw [pointAtArc_shift prev cur rest _ hge, ← hdd]
                  rw [show ((j : ℕ) + 1 + 1) * spacing - a - d =
                      ((j : ℕ) + 1) * spacing - (a + d - spacing) by ring]
                  exact hstep
            · -- degenerate zero-length edge: prev = cur
              rw [segGo_cons_emit_degenerate b prev cur rest a h hd] at hx
              have hdz : d = 0 := le_antisymm (not_lt.mp hd) hd0
              obtain ⟨hx2, hy2⟩ := eq_of_dist_eq_zero (hdd ▸ hdz)
              have hpq : prev = cur := Position.eq_of_xy hx2.symm hy2.symm
              cases j with
              | zero =>
                  simp only [List.getElem?_cons_zero, Option.some_inj] at hx
                  have hs0 : a = spacing := by
                    have : spacing ≤ a := by rw [hdz] at h; linarith
                    linarith
                  have hs1 : ((0 : ℕ) + 1) * spacing - a = 0 := by rw [hs0]; ring
                  rw [hs1, pointAtArc_zero, hpq, hx]
              | succ j =>
                  simp only [List.getElem?_cons_succ] at hx
                  have hstep := ih b cur (a + d - spacing) ho0 ho1 hchain' j x hx
                  have hge : d ≤ ((j : ℕ) + 1 + 1) * spacing - a := by
                    have : (0 : ℝ) ≤ (j : ℕ) := Nat.cast_nonneg j
                    nlinarith
                  rw [show (((j : ℕ) + 1 : ℕ) : ℝ) = ((j : ℕ) + 1 : ℝ) by push_cast; ring]
                  rw [pointAtArc_shift prev cur rest _ hge, ← hdd]
                  rw [show ((j : ℕ) + 1 + 1) * spacing - a - d =
                      ((j : ℕ) + 1) * spacing - (a + d - spacing) by ring]
                  exact hstep
          · -- no emission: accumulate and continue
            rw [segGo_cons_skip b prev cur rest a h] at hx
            have hacc0 : 0 ≤ a + d := by linarith
            have hacc1 : a + d ≤ spacing := le_of_not_le h
            have hstep := ih (b + 1) cur (a + d) hacc0 hacc1 hchain' j x hx
            have hge : d ≤ ((j : ℕ) + 1) * spacing - a := by
              have : (0 : ℝ) ≤ (j : ℕ) := Nat.cast_nonneg j
              nlinarith [not_le.mp h]
            rw [pointAtArc_shift prev cur rest _ hge, ← hdd]
            rw [show ((j : ℕ) + 1) * spacing - a - d = ((j : ℕ) + 1) * spacing - (a + d) by ring]
            exact hstep

-- Food top-up and list-indexing helpers.

lemma topUp_of_ge {goal : ℕ} {gen : ℕ → Food} {k : ℕ} {food : List Food}
    (h : goal ≤ food.length) : topUp goal gen k food = food := by
  rw [topUp]
  simp [Nat.not_lt.mpr h]

lemma topUp_length (goal : ℕ) (gen : ℕ → Food) (k : ℕ) (food : List Food) :
    (topUp goal gen k food).length = max goal food.length := by
  induction k, food using topUp.induct goal gen with
  | case1 k food hlt ih =>
      rw [topUp, if_pos hlt]
      rw [ih]
      simp only [List.length_append, List.length_cons, List.length_nil]
      omega
  | case2 k food hge =>
      rw [topUp, if_neg hge]
      omega

lemma getD_map_of_lt {α β : Type} (l : List α) (g : α → β) (i : ℕ)
    (d : β) (d' : α) (h : i < l.length) :
    (l.map g).getD i d = g (l.getD i d') := by
  have h2 : i < (l.map g).length := by rw [List.length_map]; exact h
  rw [List.getD_eq_getElem _ _ h2, List.getD_eq_getElem _ _ h, List.getElem_map]

lemma getD_mapIdx_of_lt {α β : Type} (l : List α) (f : ℕ → α → β) (i : ℕ)
    (d : β) (d' : α) (h : i < l.length) :
    (l.mapIdx f).getD i d = f i (l.getD i d') := by
  have h2 : i < (l.mapIdx f).length := by rw [List.length_mapIdx]; exact h
  rw [List.getD_eq_getElem _ _ h2, List.getD_eq_getElem _ _ h]
  have := List.get_mapIdx l f i h
  simpa [List.get_eq_getElem] using this

lemma mapIdx_map_cancel {α β : Type} (l : List α) (f : ℕ → α → β) (g : β → α)
    (h : ∀ i a, g (f i a) = a) : (l.mapIdx f).map g = l := by
  refine List.ext_getElem (by simp) ?_
  intro i h1 h2
  rw [List.getElem_map]
  have h3 : i < l.length := by simpa using h2
  have := List.get_mapIdx l f i h3
  rw [List.get_eq_getElem, List.get_eq_getElem] at this
  rw [this, h]

lemma PersistedState.eq_of_fields {a b : PersistedState} (h1 : a.tick = b.tick)
    (h2 : a.status = b.status) (h3 : a.snakes = b.snakes) (h4 : a.food = b.food) :
    a = b := by
  cases a; cases b
  cases h1; cases h2; cases h3; cases h4
  rfl

-- Frame lemmas: each tick step only writes its own fields.

lemma stripTurn_turnSnake (cfg : Config) (ai : String → Option AIResult) (s : Snake) :
    stripTurn (turnSnake cfg ai s) = stripTurn s := by
  unfold turnSnake
  split
  · split
    · rfl
    · split
      · rfl
      · rfl
  · rfl

lemma stripMove_pruneTrail (cfg : Config) (s : Snake) :
    stripMove (pruneTrail cfg s) = stripMove s := by
  unfold pruneTrail
  split
  · rfl
  · rfl

lemma stripMove_moveSnake (cfg : Config) (s : Snake) :
    stripMove (moveSnake cfg s) = stripMove s := by
  unfold moveSnake
  split
  · rw [stripMove_pruneTrail]; rfl
  · rfl

lemma stripGrowth_eatOne (f : Food) (s : Snake) : stripGrowth (eatOne f s) = stripGrowth s := by
  unfold eatOne
  split
  · rfl
  · rfl

lemma stripGrowth_eatFoods (cfg : Config) :
    ∀ (l : List (ℕ × Food)) (s : Snake) (e : List ℕ),
      stripGrowth (eatFoods cfg l s e).1 = stripGrowth s := by
  intro l
  induction l with
  | nil => intro s e; rfl
  | cons p rest ih =>
      intro s e
      obtain ⟨i, f⟩ := p
      rw [eatFoods]
      split
      · exact ih s e
      · split
        · rw [ih, stripGrowth_eatOne]
        · exact ih s e

lemma stripDeath_applyDeath (cfg : Config) (t : ℕ) (r : String) (s : Snake) :
    stripDeath (applyDeath cfg t r s) = stripDeath s := rfl

lemma stripDeath_applyDeathsList (cfg : Config) (t : ℕ) :
    ∀ (ds : List (String × String)) (s : Snake),
      stripDeath (applyDeathsList cfg t ds s) = stripDeath s := by
  intro ds
  induction ds with
  | nil => intro s; rfl
  | cons p rest ih =>
      intro s
      unfold applyDeathsList at *
      rw [List.foldl_cons, ih, stripDeath_applyDeath]

lemma applyDeathsList_nil (cfg : Config) (t : ℕ) (s : Snake) :
    applyDeathsList cfg t [] s = s := rfl

lemma applyDeathsList_alive (cfg : Config) (t : ℕ) :
    ∀ (ds : List (String × String)) (s : Snake) (p : String × String),
      (applyDeathsList cfg t (p :: ds) s).alive = false ∧
      (applyDeathsList cfg t (p :: ds) s).deathReason = some ((p :: ds).getLast (by simp)).2 := by
  intro ds
  induction ds with
  | nil => intro s p; exact ⟨rfl, rfl⟩
  | cons q rest ih =>
      intro s p
      unfold applyDeathsList at *
      rw [List.foldl_cons]
      refine ⟨(ih _ q).1, ?_⟩
      rw [(ih _ q).2]
      rfl

-- Step-level list lemmas.

lemma turnStep_snakes_strip (cfg : Config) (ai : String → Option AIResult) (gs : GameState) :
    (turnStep cfg ai gs).snakes.map stripTurn = gs.snakes.map stripTurn := by
  show (gs.snakes.map (turnSnake cfg ai)).map stripTurn = _
  rw [List.map_map]
  exact List.map_congr_left fun s _ => stripTurn_turnSnake cfg ai s

lemma moveStep_snakes_strip (cfg : Config) (gs : GameState) :
    (moveStep cfg gs).snakes.map stripMove = gs.snakes.map stripMove := by
  show (gs.snakes.map (moveSnake cfg)).map stripMove = _
  rw [List.map_map]
  exact List.map_congr_left fun s _ => stripMove_moveSnake cfg s

lemma turnStep_snakes_length (cfg : Config) (ai : String → Option AIResult) (gs : GameState) :
    (turnStep cfg ai gs).snakes.length = gs.snakes.length := List.length_map _ _

lemma moveStep_snakes_length (cfg : Config) (gs : GameState) :
    (moveStep cfg gs).snakes.length = gs.snakes.length := List.length_map _ _

lemma eatGo_fst_length (cfg : Config) (fi : List (ℕ × Food)) :
    ∀ (snakes : List Snake) (e : List ℕ),
      (eatGo cfg fi snakes e).1.length = snakes.length := by
  intro snakes
  induction snakes with
  | nil => intro e; rfl
  | cons s rest ih =>
      intro e
      rw [eatGo]
      split
      · simp only [List.length_cons, ih]
      · simp only [List.length_cons, ih]

lemma eatGo_fst_strip (cfg : Config) (fi : List (ℕ × Food)) :
    ∀ (snakes : List Snake) (e : List ℕ),
      (eatGo cfg fi snakes e).1.map stripGrowth = snakes.map stripGrowth := by
  intro snakes
  induction snakes with
  | nil => intro e; rfl
  | cons s rest ih =>
      intro e
      rw [eatGo]
      split
      · simp only [List.map_cons, ih, stripGrowth_eatFoods]
      · simp only [List.map_cons, ih]

lemma eatStep_snakes_length (cfg : Config) (gs : GameState) :
    (eatStep cfg gs).snakes.length = gs.snakes.length := eatGo_fst_length _ _ _ _

lemma eatStep_snakes_strip (cfg : Config) (gs : GameState) :
    (eatStep cfg gs).snakes.map stripGrowth = gs.snakes.map stripGrowth :=
  eatGo_fst_strip _ _ _ _

lemma deathFold_snakes (cfg : Config) (t : ℕ) (jr : String → ℕ → ℝ × ℝ)
    (cache : List (String × List Position)) :
    ∀ (ds : List (String × String)) (gs : GameState),
      (deathFold cfg t jr cache ds gs).snakes =
        gs.snakes.map fun s => applyDeathsList cfg t (ds.filter fun p => p.1 = s.id) s := by
  intro ds
  induction ds with
  | nil =>
      intro gs
      show gs.snakes = _
      have heq : (gs.snakes.map fun s =>
          applyDeathsList cfg t (List.filter (fun p => decide (p.1 = s.id)) []) s) =
          gs.snakes.map id :=
        List.map_congr_left fun s _ => by simp [applyDeathsList]
      rw [heq, List.map_id]
  | cons p rest ih =>
      intro gs
      obtain ⟨i, r⟩ := p
      rw [deathFold, ih, List.map_map]
      refine List.map_congr_left fun s _ => ?_
      simp only [Function.comp]
      have hid : (if s.id = i then applyDeath cfg t r s else s).id = s.id := by
        split <;> rfl
      simp only [hid]
      by_cases h : s.id = i
      · rw [if_pos h, List.filter_cons]
        have hd : (decide ((i, r).1 = s.id)) = true := by
          simp only [decide_eq_true_eq]
          exact h.symm
        rw [hd]
        simp only [if_true]
        unfold applyDeathsList
        rw [List.foldl_cons]
      · rw [if_neg h, List.filter_cons]
        have hd : (decide ((i, r).1 = s.id)) = false := by
          simp only [decide_eq_false_iff_not]
          exact fun hh => h hh.symm
        rw [hd]
        simp only [Bool.false_eq_true, if_false]

lemma deathFold_snakes_length (cfg : Config) (t : ℕ) (jr : String → ℕ → ℝ × ℝ)
    (cache : List (String × List Position)) (ds : List (String × String)) (gs : GameState) :
    (deathFold cfg t jr cache ds gs).snakes.length = gs.snakes.length := by
  rw [deathFold_snakes, List.length_map]

lemma deathFold_snakes_strip (cfg : Config) (t : ℕ) (jr : String → ℕ → ℝ × ℝ)
    (cache : List (String × List Position)) (ds : List (String × String)) (gs : GameState) :
    (deathFold cfg t jr cache ds gs).snakes.map stripDeath = gs.snakes.map stripDeath := by
  rw [deathFold_snakes, List.map_map]
  exact List.map_congr_left fun s _ => stripDeath_applyDeathsList cfg t _ s

lemma killFold_eq (deadIds : List String) :
    ∀ (kb : List (String × String)) (snakes : List Snake),
      killFold deadIds kb snakes =
        snakes.map fun s => addKills (creditCount kb deadIds s.id) s := by
  intro kb
  induction kb with
  | nil =>
      intro snakes
      show snakes = _
      have heq : (snakes.map fun s => addKills (creditCount [] deadIds s.id) s) =
          snakes.map id :=
        List.map_congr_left fun s _ => by
          unfold creditCount addKills
          split <;> simp
      rw [heq, List.map_id]
  | cons p rest ih =>
      intro snakes
      obtain ⟨v, k⟩ := p
      rw [killFold]
      by_cases h : k ∈ deadIds
      · rw [if_pos h, ih]
        refine List.map_congr_left fun s _ => ?_
        unfold creditCount
        by_cases hs : s.id ∈ deadIds
        · rw [if_pos hs, if_pos hs]
        · rw [if_neg hs, if_neg hs, List.filter_cons]
          have hd : (decide ((v, k).2 = s.id)) = false := by
            simp only [decide_eq_false_iff_not]
            intro hh
            exact hs (hh ▸ h)
          rw [hd]
          simp only [Bool.false_eq_true, if_false]
      · rw [if_neg h, ih, List.map_map]
        refine List.map_congr_left fun s _ => ?_
        simp only [Function.comp]
        by_cases hs : s.id = k
        · rw [if_pos hs]
          have hbump : ({ s with kills := s.kills + 1, totalKills := s.totalKills + 1 } : Snake) =
              addKills 1 s := rfl
          rw [hbump]
          have hid : (addKills 1 s).id = s.id := rfl
          rw [hid]
          have haa : addKills (creditCount rest deadIds s.id) (addKills 1 s) =
              addKills (1 + creditCount rest deadIds s.id) s := by
            unfold addKills
            rw [Nat.add_assoc, Nat.add_assoc]
          rw [haa]
          unfold creditCount
          have hnd : s.id ∉ deadIds := fun hmem => h (hs ▸ hmem)
          rw [if_neg hnd, if_neg hnd, List.filter_cons]
          have hd : (decide ((v, k).2 = s.id)) = true := by
            simp only [decide_eq_true_eq]
            exact hs.symm
          rw [hd]
          simp only [if_true, List.length_cons]
          rw [Nat.add_comm 1 _]
        · rw [if_neg hs]
          unfold creditCount
          by_cases hd : s.id ∈ deadIds
          · rw [if_pos hd, if_pos hd]
          · rw [if_neg hd, if_neg hd, List.filter_cons]
            have hdd : (decide ((v, k).2 = s.id)) = false := by
              simp only [decide_eq_false_iff_not]
              exact fun hh => hs hh.symm
            rw [hdd]
            simp only [Bool.false_eq_true, if_false]

lemma stripKills_addKills (n : ℕ) (s : Snake) : stripKills (addKills n s) = stripKills s := rfl

lemma killFold_strip (deadIds : List String) (kb : List (String × String)) (snakes : List Snake) :
    (killFold deadIds kb snakes).map stripKills = snakes.map stripKills := by
  rw [killFold_eq, List.map_map]
  exact List.map_congr_left fun s _ => stripKills_addKills _ s

lemma killFold_length (deadIds : List String) (kb : List (String × String)) (snakes : List Snake) :
    (killFold deadIds kb snakes).length = snakes.length := by
  rw [killFold_eq, List.length_map]

-- Transporting per-index facts through a strip equation.

lemma strip_getD {f : Snake → Snake} {l₁ l₂ : List Snake}
    (h : l₁.map f = l₂.map f) (hlen : l₁.length = l₂.length) (i : ℕ) (hi : i < l₂.length) :
    f (l₁.getD i default) = f (l₂.getD i default) := by
  have h1 : i < l₁.length := by omega
  have := congrArg (fun l => l.getD i (f default)) h
  simp only at this
  rwa [getD_map_of_lt l₁ f i (f default) default h1,
    getD_map_of_lt l₂ f i (f default) default hi] at this

-- Food-length lemmas.

lemma corpseGo_length_le (cfg : Config) (jr : ℕ → ℝ × ℝ) (segs : List Position) (n : ℕ) :
    ∀ (i : ℕ) (food : List Food), food.length ≤ cfg.maxFood →
      (corpseGo cfg jr segs n i food).length ≤ cfg.maxFood := by
  intro i food
  induction i, food using corpseGo.induct cfg jr segs n with
  | case1 i food hcond seg ih =>
      intro _
      rw [corpseGo, if_pos hcond]
      exact ih (by simp only [List.length_append, List.length_cons, List.length_nil]; omega)
  | case2 i food hcond =>
      intro h
      rw [corpseGo, if_neg hcond]
      exact h

lemma deathFold_food_le (cfg : Config) (t : ℕ) (jr : String → ℕ → ℝ × ℝ)
    (cache : List (String × List Position)) :
    ∀ (ds : List (String × String)) (gs : GameState), gs.food.length ≤ cfg.maxFood →
      (deathFold cfg t jr cache ds gs).food.length ≤ cfg.maxFood := by
  intro ds
  induction ds with
  | nil => intro gs h; exact h
  | cons p rest ih =>
      intro gs h
      obtain ⟨i, r⟩ := p
      rw [deathFold]
      exact ih _ (corpseGo_length_le cfg _ _ _ 0 gs.food h)

lemma eatStep_food_le (cfg : Config) (gs : GameState) :
    (eatStep cfg gs).food.length ≤ gs.food.length := by
  show (if (eatGo cfg gs.food.enum gs.snakes []).2 = [] then gs.food
      else (gs.food.enum.filter fun q =>
        q.1 ∉ (eatGo cfg gs.food.enum gs.snakes []).2).map (·.2)).length ≤ gs.food.length
  split
  · exact le_rfl
  · rw [List.length_map]
    calc (gs.food.enum.filter _).length ≤ gs.food.enum.length := List.length_filter_le _ _
    _ = gs.food.length := List.enum_length

lemma ensureMinFood_food_length (cfg : Config) (gen : ℕ → Food) (gs : GameState) :
    (ensureMinFood cfg gen gs).food.length =
      max (min (cfg.minFood + gs.snakes.length * 20) cfg.maxFood) gs.food.length :=
  topUp_length _ _ _ _

lemma ensureMinFood_snakes (cfg : Config) (gen : ℕ → Food) (gs : GameState) :
    (ensureMinFood cfg gen gs).snakes = gs.snakes := rfl

-- A death entry's key appears exactly once when the keys are distinct.

lemma filter_key_eq_single :
    ∀ (ds : List (String × String)) (v r : String), (v, r) ∈ ds →
      ((ds.map (·.1)).Nodup) → ds.filter (fun p => p.1 = v) = [(v, r)] := by
  intro ds
  induction ds with
  | nil => intro v r h; cases h
  | cons a rest ih =>
      intro v r hmem hnd
      obtain ⟨k, s⟩ := a
      rw [List.map_cons] at hnd
      have hnd1 : k ∉ rest.map (·.1) := (List.nodup_cons.mp hnd).1
      have hnd2 : (rest.map (·.1)).Nodup := (List.nodup_cons.mp hnd).2
      rcases List.mem_cons.mp hmem with hh | ht
      · cases hh
        rw [List.filter_cons]
        have hnil : rest.filter (fun p => p.1 = v) = [] := by
          rw [List.filter_eq_nil_iff]
          intro p hp
          simp only [decide_eq_true_eq]
          intro hpv
          exact hnd1 (hpv ▸ List.mem_map_of_mem (·.1) hp)
        rw [hnil]
        simp
      · have hkv : ¬ (k = v) := by
          intro hkv
          exact hnd1 (hkv ▸ (List.mem_map_of_mem (·.1) ht))
        rw [List.filter_cons]
        have hd : (decide ((k, s).1 = v)) = false := by
          simp only [decide_eq_false_iff_not]
          exact hkv
        rw [hd]
        simp only [Bool.false_eq_true, if_false]
        exact ih v r ht hnd2

-- The first collision pass (boundary and head-vs-body).

lemma bodyPass_keys_sublist (cfg : Config) (cache : List (String × List Position))
    (aliveAll : List Snake) :
    ∀ l : List Snake,
      List.Sublist ((bodyPass cfg cache aliveAll l).1.map (·.1)) (l.map (·.id)) := by
  intro l
  induction l with
  | nil => simp [bodyPass]
  | cons s rest ih =>
      rw [bodyPass]
      split
      · exact List.Sublist.cons₂ _ ih
      · split
        · exact List.Sublist.cons₂ _ ih
        · exact ih.cons _

lemma bodyPass_kb_keys_sublist (cfg : Config) (cache : List (String × List Position))
    (aliveAll : List Snake) :
    ∀ l : List Snake,
      List.Sublist ((bodyPass cfg cache aliveAll l).2.map (·.1)) (l.map (·.id)) := by
  intro l
  induction l with
  | nil => simp [bodyPass]
  | cons s rest ih =>
      rw [bodyPass]
      split
      · exact ih.cons _
      · split
        · exact List.Sublist.cons₂ _ ih
        · exact ih.cons _

lemma bodyPass_mem_boundary (cfg : Config) (cache : List (String × List Position))
    (aliveAll : List Snake) :
    ∀ (l : List Snake) (s : Snake), s ∈ l → ¬ isInBounds cfg s.headX s.headY →
      (s.id, "boundary") ∈ (bodyPass cfg cache aliveAll l).1 := by
  intro l
  induction l with
  | nil => intro s h; cases h
  | cons a rest ih =>
      intro s hmem hout
      rcases List.mem_cons.mp hmem with hh | ht
      · cases hh
        rw [bodyPass, if_pos hout]
        exact List.mem_cons_self _ _
      · rw [bodyPass]
        split
        · exact List.mem_cons_of_mem _ (ih s ht hout)
        · split
          · exact List.mem_cons_of_mem _ (ih s ht hout)
          · exact ih s ht hout

lemma bodyPass_cons_out {cfg : Config} {cache : List (String × List Position)}
    {aliveAll : List Snake} {s : Snake} (rest : List Snake)
    (h : ¬ isInBounds cfg s.headX s.headY) :
    bodyPass cfg cache aliveAll (s :: rest) =
      ((s.id, "boundary") :: (bodyPass cfg cache aliveAll rest).1,
       (bodyPass cfg cache aliveAll rest).2) := by
  rw [bodyPass, if_pos h]

lemma bodyPass_cons_kill {cfg : Config} {cache : List (String × List Position)}
    {aliveAll : List Snake} {s o : Snake} (rest : List Snake)
    (hin : isInBounds cfg s.headX s.headY)
    (heq : bodyKiller cfg cache aliveAll s = some o) :
    bodyPass cfg cache aliveAll (s :: rest) =
      ((s.id, "snake:" ++ o.participantName) :: (bodyPass cfg cache aliveAll rest).1,
       (s.id, o.id) :: (bodyPass cfg cache aliveAll rest).2) := by
  rw [bodyPass, if_neg (not_not_intro hin), heq]

lemma bodyPass_cons_none {cfg : Config} {cache : List (String × List Position)}
    {aliveAll : List Snake} {s : Snake} (rest : List Snake)
    (hin : isInBounds cfg s.headX s.headY)
    (heq : bodyKiller cfg cache aliveAll s = none) :
    bodyPass cfg cache aliveAll (s :: rest) = bodyPass cfg cache aliveAll rest := by
  rw [bodyPass, if_neg (not_not_intro hin), heq]

lemma bodyPass_fst_mono (cfg : Config) (cache : List (String × List Position))
    (aliveAll : List Snake) (a : Snake) (rest : List Snake) (x : String × String)
    (h : x ∈ (bodyPass cfg cache aliveAll rest).1) :
    x ∈ (bodyPass cfg cache aliveAll (a :: rest)).1 := by
  by_cases hin : isInBounds cfg a.headX a.headY
  · cases heq : bodyKiller cfg cache aliveAll a with
    | none => rw [bodyPass_cons_none rest hin heq]; exact h
    | some o => rw [bodyPass_cons_kill rest hin heq]; exact List.mem_cons_of_mem _ h
  · rw [bodyPass_cons_out rest hin]
    exact List.mem_cons_of_mem _ h

lemma bodyPass_kb_mem (cfg : Config) (cache : List (String × List Position))
    (aliveAll : List Snake) :
    ∀ (l : List Snake) (v k : String), (v, k) ∈ (bodyPass cfg cache aliveAll l).2 →
      ∃ s ∈ l, s.id = v ∧ isInBounds cfg s.headX s.headY ∧
        ∃ o, bodyKiller cfg cache aliveAll s = some o ∧ o.id = k ∧
          (v, "snake:" ++ o.participantName) ∈ (bodyPass cfg cache aliveAll l).1 := by
  intro l
  induction l with
  | nil => intro v k h; simp [bodyPass] at h
  | cons a rest ih =>
      intro v k hmem
      by_cases hin : isInBounds cfg a.headX a.headY
      · cases heq : bodyKiller cfg cache aliveAll a with
        | none =>
            rw [bodyPass_cons_none rest hin heq] at hmem
            obtain ⟨s, hs, h1, h2, o, h3, h4, h5⟩ := ih v k hmem
            exact ⟨s, List.mem_cons_of_mem _ hs, h1, h2, o, h3, h4,
              bodyPass_fst_mono cfg cache aliveAll a rest _ h5⟩
        | some o =>
            rw [bodyPass_cons_kill rest hin heq] at hmem
            rcases List.mem_cons.mp hmem with hh | ht
            · have hv : v = a.id := congrArg Prod.fst hh
              have hk : k = o.id := congrArg Prod.snd hh
              refine ⟨a, List.mem_cons_self _ _, hv.symm, hin, o, heq, hk.symm, ?_⟩
              rw [bodyPass_cons_kill rest hin heq, hv]
              exact List.mem_cons_self _ _
            · obtain ⟨s, hs, h1, h2, o', h3, h4, h5⟩ := ih v k ht
              exact ⟨s, List.mem_cons_of_mem _ hs, h1, h2, o', h3, h4,
                bodyPass_fst_mono cfg cache aliveAll a rest _ h5⟩
      · rw [bodyPass_cons_out rest hin] at hmem
        obtain ⟨s, hs, h1, h2, o, h3, h4, h5⟩ := ih v k hmem
        exact ⟨s, List.mem_cons_of_mem _ hs, h1, h2, o, h3, h4,
          bodyPass_fst_mono cfg cache aliveAll a rest _ h5⟩

-- The head-to-head pass.

lemma headOnInner_cons_skip {cfg : Config} {a b : Snake} {rest : List Snake}
    {dead : List String} (h : a.id ∈ dead ∨ b.id ∈ dead) :
    headOnInner cfg a (b :: rest) dead = headOnInner cfg a rest dead := by
  rw [headOnInner, if_pos h]

lemma headOnInner_cons_fire {cfg : Config} {a b : Snake} {rest : List Snake}
    {dead : List String} (h : ¬ (a.id ∈ dead ∨ b.id ∈ dead))
    (hd : distSq a.headX a.headY b.headX b.headY < collideThreshSq cfg) :
    headOnInner cfg a (b :: rest) dead =
      ((a.id, "headon:" ++ b.participantName) ::
         (b.id, "headon:" ++ a.participantName) ::
         (headOnInner cfg a rest (dead ++ [a.id, b.id])).1,
       (headOnInner cfg a rest (dead ++ [a.id, b.id])).2) := by
  rw [headOnInner, if_neg h, if_pos hd]

lemma headOnInner_cons_far {cfg : Config} {a b : Snake} {rest : List Snake}
    {dead : List String} (h : ¬ (a.id ∈ dead ∨ b.id ∈ dead))
    (hd : ¬ distSq a.headX a.headY b.headX b.headY < collideThreshSq cfg) :
    headOnInner cfg a (b :: rest) dead = headOnInner cfg a rest dead := by
  rw [headOnInner, if_neg h, if_neg hd]

lemma headOnInner_spec (cfg : Config) (a : Snake) :
    ∀ (rest : List Snake) (dead : List String),
      (headOnInner cfg a rest dead).2 =
        dead ++ (headOnInner cfg a rest dead).1.map (·.1) ∧
      ∀ x ∈ (headOnInner cfg a rest dead).1.map (·.1), x ∉ dead := by
  intro rest
  induction rest with
  | nil =>
      intro dead
      constructor
      · rw [headOnInner]; simp
      · rw [headOnInner]; simp
  | cons b rest ih =>
      intro dead
      by_cases h : a.id ∈ dead ∨ b.id ∈ dead
      · rw [headOnInner_cons_skip h]; exact ih dead
      · by_cases hd : distSq a.headX a.headY b.headX b.headY < collideThreshSq cfg
        · rw [headOnInner_cons_fire h hd]
          push_neg at h
          obtain ⟨hna, hnb⟩ := h
          obtain ⟨ih1, ih2⟩ := ih (dead ++ [a.id, b.id])
          constructor
          · simp only [List.map_cons]
            rw [ih1, List.append_assoc]
            rfl
          · intro x hx
            simp only [List.map_cons, List.mem_cons] at hx
            rcases hx with rfl | rfl | hx
            · exact hna
            · exact hnb
            · intro hdead
              exact ih2 x hx (List.mem_append_left _ hdead)
        · rw [headOnInner_cons_far h hd]; exact ih dead

lemma headOnInner_dead (cfg : Config) (a : Snake) :
    ∀ (rest : List Snake) (dead : List String), a.id ∈ dead →
      headOnInner cfg a rest dead = ([], dead) := by
  intro rest
  induction rest with
  | nil => intro dead _; rw [headOnInner]
  | cons b rest ih =>
      intro dead h
      rw [headOnInner_cons_skip (Or.inl h)]
      exact ih dead h

lemma headOnInner_keys_nodup (cfg : Config) (a : Snake) :
    ∀ (rest : List Snake) (dead : List String), a.id ∉ rest.map (·.id) →
      ((headOnInner cfg a rest dead).1.map (·.1)).Nodup := by
  intro rest
  induction rest with
  | nil => intro dead _; rw [headOnInner]; simp
  | cons b rest ih =>
      intro dead hna
      rw [List.map_cons] at hna
      have hna1 : a.id ≠ b.id := fun hh => hna (List.mem_cons.mpr (Or.inl hh))
      have hna2 : a.id ∉ rest.map (·.id) := fun hh => hna (List.mem_cons_of_mem _ hh)
      by_cases h : a.id ∈ dead ∨ b.id ∈ dead
      · rw [headOnInner_cons_skip h]; exact ih dead hna2
      · by_cases hd : distSq a.headX a.headY b.headX b.headY < collideThreshSq cfg
        · rw [headOnInner_cons_fire h hd]
          have hq : headOnInner cfg a rest (dead ++ [a.id, b.id]) =
              ([], dead ++ [a.id, b.id]) :=
            headOnInner_dead cfg a rest _ (by simp)
          rw [hq]
          simp only [List.map_cons, List.map_nil]
          exact List.nodup_cons.mpr ⟨by simp [hna1], by simp⟩
        · rw [headOnInner_cons_far h hd]; exact ih dead hna2

lemma headOnOuter_spec (cfg : Config) :
    ∀ (l : List Snake) (dead : List String),
      (headOnOuter cfg l dead).2 = dead ++ (headOnOuter cfg l dead).1.map (·.1) ∧
      ∀ x ∈ (headOnOuter cfg l dead).1.map (·.1), x ∉ dead := by
  intro l
  induction l with
  | nil =>
      intro dead
      constructor
      · rw [headOnOuter]; simp
      · rw [headOnOuter]; simp
  | cons a rest ih =>
      intro dead
      rw [headOnOuter]
      obtain ⟨hp1, hp2⟩ := headOnInner_spec cfg a rest dead
      obtain ⟨hq1, hq2⟩ := ih (headOnInner cfg a rest dead).2
      constructor
      · simp only [List.map_append]
        rw [hq1, hp1, List.append_assoc]
      · intro x hx
        simp only [List.map_append, List.mem_append] at hx
        rcases hx with hx | hx
        · exact hp2 x hx
        · intro hdead
          exact hq2 x hx (by rw [hp1]; exact List.mem_append_left _ hdead)

lemma headOnOuter_keys_nodup (cfg : Config) :
    ∀ (l : List Snake) (dead : List String), ((l.map (·.id)).Nodup) →
      ((headOnOuter cfg l dead).1.map (·.1)).Nodup := by
  intro l
  induction l with
  | nil => intro dead _; rw [headOnOuter]; simp
  | cons a rest ih =>
      intro dead hnd
      rw [List.map_cons, List.nodup_cons] at hnd
      rw [headOnOuter]
      simp only [List.map_append]
      refine List.Nodup.append (headOnInner_keys_nodup cfg a rest dead hnd.1)
        (ih _ hnd.2) ?_
      intro x hxp hxq
      obtain ⟨hp1, _⟩ := headOnInner_spec cfg a rest dead
      obtain ⟨_, hq2⟩ := headOnOuter_spec cfg rest (headOnInner cfg a rest dead).2
      exact hq2 x hxq (by rw [hp1]; exact List.mem_append_right _ hxp)

lemma headOnInner_mem (cfg : Config) (a : Snake) :
    ∀ (rest : List Snake) (dead : List String) (v r : String),
      (v, r) ∈ (headOnInner cfg a rest dead).1 →
      ∃ b ∈ rest, distSq a.headX a.headY b.headX b.headY < collideThreshSq cfg ∧
        ((v = a.id ∧ r = "headon:" ++ b.participantName) ∨
         (v = b.id ∧ r = "headon:" ++ a.participantName)) ∧
        (a.id, "headon:" ++ b.participantName) ∈ (headOnInner cfg a rest dead).1 ∧
        (b.id, "headon:" ++ a.participantName) ∈ (headOnInner cfg a rest dead).1 := by
  intro rest
  induction rest with
  | nil => intro dead v r h; rw [headOnInner] at h; cases h
  | cons b rest ih =>
      intro dead v r hmem
      by_cases h : a.id ∈ dead ∨ b.id ∈ dead
      · rw [headOnInner_cons_skip h] at hmem ⊢
        obtain ⟨b', hb', rest'⟩ := ih dead v r hmem
        exact ⟨b', List.mem_cons_of_mem _ hb', rest'⟩
      · by_cases hd : distSq a.headX a.headY b.headX b.headY < collideThreshSq cfg
        · rw [headOnInner_cons_fire h hd] at hmem ⊢
          rcases List.mem_cons.mp hmem with hh | hmem2
          · have hv : v = a.id := congrArg Prod.fst hh
            have hr : r = "headon:" ++ b.participantName := congrArg Prod.snd hh
            exact ⟨b, List.mem_cons_self _ _, hd, Or.inl ⟨hv, hr⟩,
              List.mem_cons_self _ _, List.mem_cons_of_mem _ (List.mem_cons_self _ _)⟩
          rcases List.mem_cons.mp hmem2 with hh | hmem3
          · have hv : v = b.id := congrArg Prod.fst hh
            have hr : r = "headon:" ++ a.participantName := congrArg Prod.snd hh
            exact ⟨b, List.mem_cons_self _ _, hd, Or.inr ⟨hv, hr⟩,
              List.mem_cons_self _ _, List.mem_cons_of_mem _ (List.mem_cons_self _ _)⟩
          · obtain ⟨b', hb', hd', hform, hm1, hm2⟩ := ih _ v r hmem3
            exact ⟨b', List.mem_cons_of_mem _ hb', hd', hform,
              List.mem_cons_of_mem _ (List.mem_cons_of_mem _ hm1),
              List.mem_cons_of_mem _ (List.mem_cons_of_mem _ hm2)⟩
        · rw [headOnInner_cons_far h hd] at hmem ⊢
          obtain ⟨b', hb', rest'⟩ := ih dead v r hmem
          exact ⟨b', List.mem_cons_of_mem _ hb', rest'⟩

lemma headOnOuter_mem (cfg : Config) :
    ∀ (l : List Snake) (dead : List String) (v r : String),
      (v, r) ∈ (headOnOuter cfg l dead).1 →
      ∃ a ∈ l, ∃ b ∈ l,
        distSq a.headX a.headY b.headX b.headY < collideThreshSq cfg ∧
        ((v = a.id ∧ r = "headon:" ++ b.participantName) ∨
         (v = b.id ∧ r = "headon:" ++ a.participantName)) ∧
        (a.id, "headon:" ++ b.participantName) ∈ (headOnOuter cfg l dead).1 ∧
        (b.id, "headon:" ++ a.participantName) ∈ (headOnOuter cfg l dead).1 := by
  intro l
  induction l with
  | nil => intro dead v r h; rw [headOnOuter] at h; cases h
  | cons a rest ih =>
      intro dead v r hmem
      rw [headOnOuter] at hmem ⊢
      rcases List.mem_append.mp hmem with hp | hq
      · obtain ⟨b, hb, hd, hform, hm1, hm2⟩ := headOnInner_mem cfg a rest dead v r hp
        exact ⟨a, List.mem_cons_self _ _, b, List.mem_cons_of_mem _ hb, hd, hform,
          List.mem_append_left _ hm1, List.mem_append_left _ hm2⟩
      · obtain ⟨a', ha', b', hb', hd, hform, hm1, hm2⟩ := ih _ v r hq
        exact ⟨a', List.mem_cons_of_mem _ ha', b', List.mem_cons_of_mem _ hb', hd, hform,
          List.mem_append_right _ hm1, List.mem_append_right _ hm2⟩

-- Step 7 in full.

lemma collide_fst (cfg : Config) (cache : List (String × List Position)) (alive : List Snake) :
    (collide cfg cache alive).1 =
      (bodyPass cfg cache alive alive).1 ++
        (headOnOuter cfg alive ((bodyPass cfg cache alive alive).1.map (·.1))).1 := rfl

lemma collide_snd (cfg : Config) (cache : List (String × List Position)) (alive : List Snake) :
    (collide cfg cache alive).2 = (bodyPass cfg cache alive alive).2 := rfl

lemma collide_keys_nodup (cfg : Config) (cache : List (String × List Position))
    (alive : List Snake) (halive : (alive.map (·.id)).Nodup) :
    (((collide cfg cache alive).1).map (·.1)).Nodup := by
  rw [collide_fst, List.map_append]
  refine List.Nodup.append
    (halive.sublist (bodyPass_keys_sublist cfg cache alive alive))
    (headOnOuter_keys_nodup cfg alive _ halive) ?_
  intro x hxp hxq
  obtain ⟨_, hq2⟩ := headOnOuter_spec cfg alive ((bodyPass cfg cache alive alive).1.map (·.1))
  exact hq2 x hxq hxp

-- Unfolding `executeTick` along its three paths.

lemma executeTick_not_running (cfg : Config) (orc : Oracle) (ai : String → Option AIResult)
    (gs : GameState) (h : gs.status ≠ Status.running) :
    executeTick cfg orc ai gs = gs := by
  rw [executeTick, if_pos h]

lemma executeTick_no_alive (cfg : Config) (orc : Oracle) (ai : String → Option AIResult)
    (gs : GameState) (h : ¬ gs.status ≠ Status.running)
    (h2 : aliveSnakes (tickMid cfg orc.spawnRand gs) = []) :
    executeTick cfg orc ai gs = tickMid cfg orc.spawnRand gs := by
  simp only [executeTick]
  rw [if_neg h, if_pos h2]

lemma executeTick_main (cfg : Config) (orc : Oracle) (ai : String → Option AIResult)
    (gs : GameState) (h : ¬ gs.status ≠ Status.running)
    (h2 : ¬ aliveSnakes (tickMid cfg orc.spawnRand gs) = []) :
    executeTick cfg orc ai gs =
      winStep cfg (ensureMinFood cfg orc.foodRand
        { deathFold cfg (tickMid cfg orc.spawnRand gs).tick orc.jitterRand
            (tickCache cfg orc ai gs) (tickDeaths cfg orc ai gs)
            (tickEaten cfg orc ai gs) with
          snakes := killFold ((tickDeaths cfg orc ai gs).map (·.1))
            (tickKilledBy cfg orc ai gs)
            (deathFold cfg (tickMid cfg orc.spawnRand gs).tick orc.jitterRand
              (tickCache cfg orc ai gs) (tickDeaths cfg orc ai gs)
              (tickEaten cfg orc ai gs)).snakes }) := by
  simp only [executeTick]
  rw [if_neg h, if_neg h2]
  rfl

lemma winStep_snakes (cfg : Config) (gs : GameState) : (winStep cfg gs).snakes = gs.snakes := by
  unfold winStep
  split
  · rfl
  · split
    · rfl
    · rfl

lemma winStep_food (cfg : Config) (gs : GameState) : (winStep cfg gs).food = gs.food := by
  unfold winStep
  split
  · rfl
  · split
    · rfl
    · rfl

-- Lengths and id preservation across the pipeline.

lemma mapIdx_map_comm {α β γ : Type} (l : List α) (f : ℕ → α → β) (g : β → γ) (g' : α → γ)
    (h : ∀ i a, g (f i a) = g' a) : (l.mapIdx f).map g = l.map g' := by
  refine List.ext_getElem (by simp) ?_
  intro i h1 h2
  rw [List.getElem_map, List.getElem_map]
  have h3 : i < l.length := by simpa using h2
  have := List.get_mapIdx l f i h3
  rw [List.get_eq_getElem, List.get_eq_getElem] at this
  rw [this, h]

lemma respawnSweep_snakes_length (cfg : Config) (sp : ℕ → Spawn) (gs : GameState) :
    (respawnSweep cfg sp gs).snakes.length = gs.snakes.length := by
  unfold respawnSweep
  split
  · exact List.length_mapIdx
  · rfl

lemma tickMid_snakes_length (cfg : Config) (sp : ℕ → Spawn) (gs : GameState) :
    (tickMid cfg sp gs).snakes.length = gs.snakes.length :=
  respawnSweep_snakes_length cfg sp (tickStart gs)

lemma respawnSweep_ids (cfg : Config) (sp : ℕ → Spawn) (gs : GameState) :
    (respawnSweep cfg sp gs).snakes.map (·.id) = gs.snakes.map (·.id) := by
  unfold respawnSweep
  split
  · exact mapIdx_map_comm _ _ _ _ fun i a => by
      split
      · rfl
      · rfl
  · rfl

lemma map_id_of_strip {f : Snake → Snake} (hf : ∀ s, (f s).id = s.id) {l1 l2 : List Snake}
    (h : l1.map f = l2.map f) : l1.map (·.id) = l2.map (·.id) := by
  have e1 : l1.map (·.id) = (l1.map f).map (·.id) := by
    rw [List.map_map]
    exact List.map_congr_left fun s _ => (hf s).symm
  rw [e1, h, List.map_map]
  exact List.map_congr_left fun s _ => hf s

lemma stripKills_angle (s : Snake) : (stripKills s).angle = s.angle := rfl

lemma stripDeath_angle (s : Snake) : (stripDeath s).angle = s.angle := rfl

lemma stripGrowth_angle (s : Snake) : (stripGrowth s).angle = s.angle := rfl

lemma stripMove_angle (s : Snake) : (stripMove s).angle = s.angle := rfl

lemma angleDiff_self (a : ℝ) : angleDiff a a = 0 := by
  have hπ : (0:ℝ) < π := pi_pos
  unfold angleDiff
  rw [sub_self, wrapHigh_of_le 0 (by linarith), wrapLow_of_ge 0 (by linarith)]

lemma angleDiff_self' (a : ℝ) (c : ℝ) (h : 0 ≤ c) : |angleDiff a a| ≤ c := by
  rw [angleDiff_self]
  simpa using h

/-- The turn applied to one snake moves its heading by at most `maxTurnRate`
in shortest-arc distance. -/
lemma turnSnake_angle_bound (cfg : Config) (ai : String → Option AIResult) (s : Snake)
    (h0 : 0 ≤ cfg.maxTurnRate) :
    |angleDiff s.angle (turnSnake cfg ai s).angle| ≤ cfg.maxTurnRate := by
  unfold turnSnake
  split
  · cases hai : ai s.id with
    | none =>
        simp only [hai]
        exact angleDiff_self' s.angle _ h0
    | some r =>
        cases ht : r.targetAngle with
        | none =>
            simp only [hai, ht]
            exact angleDiff_self' s.angle _ h0
        | some t =>
            simp only [hai, ht]
            exact abs_angleDiff_turnToward _ _ _ h0
  · exact angleDiff_self' s.angle _ h0


lemma executeTick_snakes_main (cfg : Config) (orc : Oracle) (ai : String → Option AIResult)
    (gs : GameState) (h : ¬ gs.status ≠ Status.running)
    (h2 : ¬ aliveSnakes (tickMid cfg orc.spawnRand gs) = []) :
    (executeTick cfg orc ai gs).snakes =
      killFold ((tickDeaths cfg orc ai gs).map (·.1)) (tickKilledBy cfg orc ai gs)
        (deathFold cfg (tickMid cfg orc.spawnRand gs).tick orc.jitterRand
          (tickCache cfg orc ai gs) (tickDeaths cfg orc ai gs)
          (tickEaten cfg orc ai gs)).snakes := by
  rw [executeTick_main cfg orc ai gs h h2, winStep_snakes, ensureMinFood_snakes]

-- Claim theorems.

/-- C3, counterexample: `angleDiff(π, 0)` evaluates to `-π`, which is not in
the half-open interval `(-π, π]` the claim states. -/
theorem c3_counterexample :
    angleDiff π 0 = -π ∧ angleDiff π 0 ∉ Set.Ioc (-π) π := by
  have hπ : (0:ℝ) < π := pi_pos
  have h : angleDiff π 0 = -π := by
    unfold angleDiff
    rw [zero_sub, wrapHigh_of_le (-π) (by linarith), wrapLow_of_ge (-π) le_rfl]
  refine ⟨h, ?_⟩
  rw [h, Set.mem_Ioc]
  simp

/-- C3 (amended): for all real angles, `angleDiff(from, to)` lies in the
closed interval `[-π, π]`, is congruent to `to - from` modulo `2π`, and has
the least absolute value among all such representatives (it is a signed
shortest-arc difference); the left endpoint `-π` is attained, so the
interval is `[-π, π]` rather than the claimed `(-π, π]`. -/
theorem c3_angleDiff_shortest_arc (a b : ℝ) :
    (-π ≤ angleDiff a b ∧ angleDiff a b ≤ π) ∧
    (∃ k : ℤ, angleDiff a b = (b - a) + 2 * π * k) ∧
    (∀ y : ℝ, (∃ k : ℤ, y = (b - a) + 2 * π * k) → |angleDiff a b| ≤ |y|) := by
  refine ⟨angleDiff_mem a b, angleDiff_sub a b, ?_⟩
  rintro y ⟨k, rfl⟩
  obtain ⟨k₀, hk₀⟩ := angleDiff_sub a b
  have hmem := angleDiff_mem a b
  exact abs_le_of_repr hmem.1 hmem.2 ⟨k - k₀, by rw [hk₀]; push_cast; ring⟩

/-- C9: `respawnSnake` — for any snake and any outcome of the spawn draws —
preserves `id`, `participantName`, `color`, `aiFunction`, `totalKills`,
`deaths`, `bestLength` and `submissions`, sets `alive`, zeroes `kills`, sets
`segmentCount` to `startingSegments`, rebuilds the trail from the spawn, and
clears `diedAt`, `deathReason`, `respawnAt` and `lastAIError`. -/
theorem c9_respawn_frame (cfg : Config) (r1 r2 r3 : ℝ) (s : Snake) :
    let sp := spawnSnakePosition cfg r1 r2 r3
    let t := respawnSnake cfg sp s
    t.id = s.id ∧ t.participantName = s.participantName ∧ t.color = s.color ∧
    t.aiFunction = s.aiFunction ∧ t.totalKills = s.totalKills ∧
    t.deaths = s.deaths ∧ t.bestLength = s.bestLength ∧
    t.submissions = s.submissions ∧
    t.alive = true ∧ t.kills = 0 ∧ t.segmentCount = cfg.startingSegments ∧
    t.trail = buildInitialTrail cfg sp.x sp.y sp.angle ∧
    t.diedAt = none ∧ t.deathReason = none ∧ t.respawnAt = none ∧
    t.lastAIError = none :=
  ⟨rfl, rfl, rfl, rfl, rfl, rfl, rfl, rfl, rfl, rfl, rfl, rfl, rfl, rfl, rfl, rfl⟩

/-- C1: the turn governor — for every snake still alive at the end of a
tick, the shortest-arc distance between its heading before the tick's turn
step (the post-respawn state `tickMid`) and its heading at the end of the
tick is at most `maxTurnRate` (for `0 < maxTurnRate ≤ π`); the heading is
set once by `turnToward` (or left unchanged on a null steering result) and
never touched by the later steps of the tick. -/
theorem c1_turn_governor (cfg : Config) (orc : Oracle) (ai : String → Option AIResult)
    (gs : GameState) (h0 : 0 < cfg.maxTurnRate) (hpi : cfg.maxTurnRate ≤ π)
    (hrun : gs.status = Status.running) :
    ∀ i : ℕ,
      ((executeTick cfg orc ai gs).snakes.getD i default).alive = true →
      |angleDiff ((tickMid cfg orc.spawnRand gs).snakes.getD i default).angle
          ((executeTick cfg orc ai gs).snakes.getD i default).angle| ≤ cfg.maxTurnRate := by
  intro i _
  have h0' : (0:ℝ) ≤ cfg.maxTurnRate := le_of_lt h0
  have hne : ¬ gs.status ≠ Status.running := not_not_intro hrun
  by_cases hempty : aliveSnakes (tickMid cfg orc.spawnRand gs) = []
  · rw [executeTick_no_alive cfg orc ai gs hne hempty]
    exact angleDiff_self' _ _ h0'
  · rw [executeTick_snakes_main cfg orc ai gs hne hempty]
    have hmid : tickMid cfg orc.spawnRand gs = tickMid cfg orc.spawnRand gs := rfl
    have he : tickEaten cfg orc ai gs =
        eatStep cfg (moveStep cfg (turnStep cfg ai (tickMid cfg orc.spawnRand gs))) := rfl
    -- lengths at every stage
    have lenMid : (tickMid cfg orc.spawnRand gs).snakes.length = gs.snakes.length :=
      tickMid_snakes_length cfg orc.spawnRand gs
    have len2 : (turnStep cfg ai (tickMid cfg orc.spawnRand gs)).snakes.length =
        (tickMid cfg orc.spawnRand gs).snakes.length := turnStep_snakes_length _ _ _
    have len3 : (moveStep cfg (turnStep cfg ai (tickMid cfg orc.spawnRand gs))).snakes.length =
        (turnStep cfg ai (tickMid cfg orc.spawnRand gs)).snakes.length :=
      moveStep_snakes_length _ _
    have len4 : (tickEaten cfg orc ai gs).snakes.length =
        (moveStep cfg (turnStep cfg ai (tickMid cfg orc.spawnRand gs))).snakes.length := by
      rw [he]
      exact eatStep_snakes_length _ _
    have len5 : (deathFold cfg (tickMid cfg orc.spawnRand gs).tick orc.jitterRand
        (tickCache cfg orc ai gs) (tickDeaths cfg orc ai gs)
        (tickEaten cfg orc ai gs)).snakes.length =
        (tickEaten cfg orc ai gs).snakes.length := deathFold_snakes_length _ _ _ _ _ _
    by_cases hi : i < (tickMid cfg orc.spawnRand gs).snakes.length
    · -- the angle survives every step after the turn
      have h5 : stripKills ((killFold ((tickDeaths cfg orc ai gs).map (·.1))
          (tickKilledBy cfg orc ai gs)
          (deathFold cfg (tickMid cfg orc.spawnRand gs).tick orc.jitterRand
            (tickCache cfg orc ai gs) (tickDeaths cfg orc ai gs)
            (tickEaten cfg orc ai gs)).snakes).getD i default) =
          stripKills ((deathFold cfg (tickMid cfg orc.spawnRand gs).tick orc.jitterRand
            (tickCache cfg orc ai gs) (tickDeaths cfg orc ai gs)
            (tickEaten cfg orc ai gs)).snakes.getD i default) :=
        strip_getD (killFold_strip _ _ _) (killFold_length _ _ _) i (by omega)
      have a5 : ((killFold ((tickDeaths cfg orc ai gs).map (·.1))
          (tickKilledBy cfg orc ai gs)
          (deathFold cfg (tickMid cfg orc.spawnRand gs).tick orc.jitterRand
            (tickCache cfg orc ai gs) (tickDeaths cfg orc ai gs)
            (tickEaten cfg orc ai gs)).snakes).getD i default).angle =
          ((deathFold cfg (tickMid cfg orc.spawnRand gs).tick orc.jitterRand
            (tickCache cfg orc ai gs) (tickDeaths cfg orc ai gs)
            (tickEaten cfg orc ai gs)).snakes.getD i default).angle := by
        have := congrArg Snake.angle h5
        rwa [stripKills_angle, stripKills_angle] at this
      have h4 : stripDeath ((deathFold cfg (tickMid cfg orc.spawnRand gs).tick orc.jitterRand
          (tickCache cfg orc ai gs) (tickDeaths cfg orc ai gs)
          (tickEaten cfg orc ai gs)).snakes.getD i default) =
          stripDeath ((tickEaten cfg orc ai gs).snakes.getD i default) :=
        strip_getD (deathFold_snakes_strip _ _ _ _ _ _) (deathFold_snakes_length _ _ _ _ _ _)
          i (by omega)
      have a4 : ((deathFold cfg (tickMid cfg orc.spawnRand gs).tick orc.jitterRand
          (tickCache cfg orc ai gs) (tickDeaths cfg orc ai gs)
          (tickEaten cfg orc ai gs)).snakes.getD i default).angle =
          ((tickEaten cfg orc ai gs).snakes.getD i default).angle := by
        have := congrArg Snake.angle h4
        rwa [stripDeath_angle, stripDeath_angle] at this
      have h3 : stripGrowth ((tickEaten cfg orc ai gs).snakes.getD i default) =
          stripGrowth ((moveStep cfg (turnStep cfg ai
            (tickMid cfg orc.spawnRand gs))).snakes.getD i default) := by
        rw [he]
        exact strip_getD (eatStep_snakes_strip _ _) (eatStep_snakes_length _ _) i (by omega)
      have a3 : ((tickEaten cfg orc ai gs).snakes.getD i default).angle =
          ((moveStep cfg (turnStep cfg ai
            (tickMid cfg orc.spawnRand gs))).snakes.getD i default).angle := by
        have := congrArg Snake.angle h3
        rwa [stripGrowth_angle, stripGrowth_angle] at this
      have h2 : stripMove ((moveStep cfg (turnStep cfg ai
          (tickMid cfg orc.spawnRand gs))).snakes.getD i default) =
          stripMove ((turnStep cfg ai (tickMid cfg orc.spawnRand gs)).snakes.getD i default) :=
        strip_getD (moveStep_snakes_strip _ _) (moveStep_snakes_length _ _) i (by omega)
      have a2 : ((moveStep cfg (turnStep cfg ai
          (tickMid cfg orc.spawnRand gs))).snakes.getD i default).angle =
          ((turnStep cfg ai (tickMid cfg orc.spawnRand gs)).snakes.getD i default).angle := by
        have := congrArg Snake.angle h2
        rwa [stripMove_angle, stripMove_angle] at this
      have hturn : (turnStep cfg ai (tickMid cfg orc.spawnRand gs)).snakes =
          (tickMid cfg orc.spawnRand gs).snakes.map (turnSnake cfg ai) := rfl
      have hgd : (turnStep cfg ai (tickMid cfg orc.spawnRand gs)).snakes.getD i default =
          turnSnake cfg ai ((tickMid cfg orc.spawnRand gs).snakes.getD i default) := by
        rw [hturn]
        exact getD_map_of_lt _ _ i default default hi
      rw [a5, a4, a3, a2, hgd]
      exact turnSnake_angle_bound cfg ai _ h0'
    · -- out of range: both sides are the default snake
      have hout1 : (tickMid cfg orc.spawnRand gs).snakes.getD i default = default :=
        List.getD_eq_default _ _ (by omega)
      have hout2 : (killFold ((tickDeaths cfg orc ai gs).map (·.1))
          (tickKilledBy cfg orc ai gs)
          (deathFold cfg (tickMid cfg orc.spawnRand gs).tick orc.jitterRand
            (tickCache cfg orc ai gs) (tickDeaths cfg orc ai gs)
            (tickEaten cfg orc ai gs)).snakes).getD i default = default := by
        refine List.getD_eq_default _ _ ?_
        rw [killFold_length, len5, len4, len3, len2]
        omega
      rw [hout1, hout2]
      exact angleDiff_self' _ _ h0'

-- Concrete evaluation of one tick on the fixture state `wState`: the single
-- idle snake stays alive and the tick produces no deaths and no kill entries.

lemma wMid_snakes : (tickMid defaultConfig wOracle.spawnRand wState).snakes = [wSnake] := by
  show (respawnSweep defaultConfig wOracle.spawnRand (tickStart wState)).snakes = [wSnake]
  unfold respawnSweep
  rw [if_pos (show defaultConfig.respawnOnDeath = true from rfl)]
  show List.mapIdx (fun i s =>
      if respawnDue (tickStart wState).tick s then
        respawnSnake defaultConfig (wOracle.spawnRand i) s
      else s) [wSnake] = [wSnake]
  simp only [List.mapIdx_cons, List.mapIdx_nil]
  rw [if_neg (fun h => Bool.noConfusion h.1)]

lemma wMid_alive : aliveSnakes (tickMid defaultConfig wOracle.spawnRand wState) = [wSnake] := by
  unfold aliveSnakes
  rw [wMid_snakes]
  rfl

lemma wMoved_snakes : (tickMoved defaultConfig wOracle wAI wState).snakes
    = [moveSnake defaultConfig wSnake] := by
  show ((tickMid defaultConfig wOracle.spawnRand wState).snakes.map
      (turnSnake defaultConfig wAI)).map (moveSnake defaultConfig)
    = [moveSnake defaultConfig wSnake]
  rw [wMid_snakes]
  rfl

lemma wEaten_snakes : (tickEaten defaultConfig wOracle wAI wState).snakes
    = [moveSnake defaultConfig wSnake] := by
  show (eatGo defaultConfig (tickMoved defaultConfig wOracle wAI wState).food.enum
      (tickMoved defaultConfig wOracle wAI wState).snakes []).1
    = [moveSnake defaultConfig wSnake]
  rw [wMoved_snakes]
  rfl

lemma wEaten_alive : aliveSnakes (tickEaten defaultConfig wOracle wAI wState)
    = [moveSnake defaultConfig wSnake] := by
  unfold aliveSnakes
  rw [wEaten_snakes]
  rfl

lemma wMoved_headX : (moveSnake defaultConfig wSnake).headX = 0 := by
  show (0:ℝ) + Real.cos 0 * 0 = 0
  ring

lemma wMoved_headY : (moveSnake defaultConfig wSnake).headY = 0 := by
  show (0:ℝ) + Real.sin 0 * 0 = 0
  ring

lemma wMoved_inBounds :
    isInBounds defaultConfig (moveSnake defaultConfig wSnake).headX
      (moveSnake defaultConfig wSnake).headY := by
  unfold isInBounds
  rw [wMoved_headX, wMoved_headY]
  norm_num [defaultConfig]

lemma wMoved_bodyKiller :
    bodyKiller defaultConfig (tickCache defaultConfig wOracle wAI wState)
      [moveSnake defaultConfig wSnake] (moveSnake defaultConfig wSnake) = none := by
  unfold bodyKiller
  rw [List.find?_eq_none]
  intro x hx
  rw [List.mem_singleton] at hx
  subst hx
  rw [decide_eq_true_eq]
  exact fun h => h.1 rfl

lemma wTick_collide :
    collide defaultConfig (tickCache defaultConfig wOracle wAI wState)
      (aliveSnakes (tickEaten defaultConfig wOracle wAI wState)) = ([], []) := by
  rw [wEaten_alive]
  have hbody : bodyPass defaultConfig (tickCache defaultConfig wOracle wAI wState)
      [moveSnake defaultConfig wSnake] [moveSnake defaultConfig wSnake] = ([], []) := by
    rw [bodyPass_cons_none [] wMoved_inBounds wMoved_bodyKiller]
    rfl
  refine Prod.ext ?_ ?_
  · rw [collide_fst, hbody]
    rfl
  · rw [collide_snd, hbody]

lemma wTick_deaths : tickDeaths defaultConfig wOracle wAI wState = [] := by
  unfold tickDeaths
  rw [wTick_collide]

lemma wTick_kb : tickKilledBy defaultConfig wOracle wAI wState = [] := by
  unfold tickKilledBy
  rw [wTick_collide]

lemma wTick_alive :
    ((executeTick defaultConfig wOracle wAI wState).snakes.getD 0 default).alive = true := by
  have hne : ¬ wState.status ≠ Status.running := not_not_intro rfl
  have hal : ¬ aliveSnakes (tickMid defaultConfig wOracle.spawnRand wState) = [] := by
    rw [wMid_alive]
    exact List.cons_ne_nil _ _
  rw [executeTick_snakes_main defaultConfig wOracle wAI wState hne hal]
  rw [wTick_deaths, wTick_kb]
  show (((tickEaten defaultConfig wOracle wAI wState).snakes).getD 0 default).alive = true
  rw [wEaten_snakes]
  rfl

/-- C1, witness: a single idle snake at the origin survives a tick of the
running game (proved by concrete evaluation) and its heading moves by at
most the default `maxTurnRate`. -/
theorem c1_witness :
    ((executeTick defaultConfig wOracle wAI wState).snakes.getD 0 default).alive = true ∧
    |angleDiff (((tickMid defaultConfig wOracle.spawnRand wState).snakes.getD 0 default).angle)
        (((executeTick defaultConfig wOracle wAI wState).snakes.getD 0 default).angle)| ≤
      defaultConfig.maxTurnRate :=
  ⟨wTick_alive,
    c1_turn_governor defaultConfig wOracle wAI wState
      (by norm_num [defaultConfig])
      (le_trans (by norm_num [defaultConfig]) (le_of_lt pi_gt_three))
      rfl 0 wTick_alive⟩

/-- C2 (amended): persist → restore → persist reproduces the original
payload except that its `status` field is always `"waiting"` (so the blobs
are byte-equal modulo key ordering exactly when the original status was
`"waiting"`), provided the persisted food count already meets the
post-restore minimum `min(minFood + 20·n, maxFood)` so that the food top-up
run by the restore adds nothing; and immediately after `loadState` every
restored snake is alive with its `totalKills`, `deaths`, `bestLength`,
`submissions` and `aiFunction` equal to the persisted values, and the game
status is `"waiting"`. -/
theorem c2_persistence_roundtrip (cfg : Config) (spawnFor : ℕ → Spawn)
    (gen : ℕ → Food) (gs : GameState)
    (hfood : min (cfg.minFood + gs.snakes.length * 20) cfg.maxFood ≤ gs.food.length) :
    getStateForPersistence (roundTrip cfg spawnFor gen gs) =
      { getStateForPersistence gs with status := Status.waiting } ∧
    (gs.status = Status.waiting →
      getStateForPersistence (roundTrip cfg spawnFor gen gs) = getStateForPersistence gs) ∧
    (roundTrip cfg spawnFor gen gs).status = Status.waiting ∧
    (roundTrip cfg spawnFor gen gs).snakes.length = gs.snakes.length ∧
    (∀ i, i < (roundTrip cfg spawnFor gen gs).snakes.length →
      ((roundTrip cfg spawnFor gen gs).snakes.getD i default).alive = true ∧
      ((roundTrip cfg spawnFor gen gs).snakes.getD i default).totalKills =
        (gs.snakes.getD i default).totalKills ∧
      ((roundTrip cfg spawnFor gen gs).snakes.getD i default).deaths =
        (gs.snakes.getD i default).deaths ∧
      ((roundTrip cfg spawnFor gen gs).snakes.getD i default).bestLength =
        (gs.snakes.getD i default).bestLength ∧
      ((roundTrip cfg spawnFor gen gs).snakes.getD i default).submissions =
        (gs.snakes.getD i default).submissions ∧
      ((roundTrip cfg spawnFor gen gs).snakes.getD i default).aiFunction =
        (gs.snakes.getD i default).aiFunction) := by
  have hsnakes : (roundTrip cfg spawnFor gen gs).snakes =
      (gs.snakes.map fun s =>
        (⟨s.id, s.participantName, s.color, s.aiFunction, s.submissions,
          s.totalKills, s.deaths, s.bestLength⟩ : PersistedSnake)).mapIdx
        fun i ss =>
          respawnSnake cfg (spawnFor i)
            { id := ss.id
              participantName := ss.participantName
              color := ss.color
              alive := false
              headX := 0
              headY := 0
              angle := 0
              speed := cfg.snakeSpeed
              trail := []
              segmentCount := cfg.startingSegments
              kills := 0
              totalKills := ss.totalKills
              deaths := ss.deaths
              bestLength := ss.bestLength
              submissions := ss.submissions
              aiFunction := ss.aiFunction } := by
    simp [roundTrip, loadState, ensureMinFood, createInitialState, getStateForPersistence]
  have hlen : (roundTrip cfg spawnFor gen gs).snakes.length = gs.snakes.length := by
    rw [hsnakes, List.length_mapIdx, List.length_map]
  have hstatus : (roundTrip cfg spawnFor gen gs).status = Status.waiting := rfl
  have htick : (roundTrip cfg spawnFor gen gs).tick = gs.tick := rfl
  have hfood' : (roundTrip cfg spawnFor gen gs).food = gs.food := by
    show topUp _ gen 0 _ = gs.food
    have hgoal :
        min (cfg.minFood +
            ((createInitialState cfg).snakes ++
              ((getStateForPersistence gs).snakes.mapIdx fun i ss =>
                respawnSnake cfg (spawnFor i)
                  { id := ss.id
                    participantName := ss.participantName
                    color := ss.color
                    alive := false
                    headX := 0
                    headY := 0
                    angle := 0
                    speed := cfg.snakeSpeed
                    trail := []
                    segmentCount := cfg.startingSegments
                    kills := 0
                    totalKills := ss.totalKills
                    deaths := ss.deaths
                    bestLength := ss.bestLength
                    submissions := ss.submissions
                    aiFunction := ss.aiFunction })).length * 20) cfg.maxFood ≤
          gs.food.length := by
      simpa [createInitialState, List.length_mapIdx, getStateForPersistence] using hfood
    exact topUp_of_ge hgoal
  have hpersist : getStateForPersistence (roundTrip cfg spawnFor gen gs) =
      { getStateForPersistence gs with status := Status.waiting } := by
    refine PersistedState.eq_of_fields ?_ ?_ ?_ ?_
    · exact htick
    · exact rfl
    · show (roundTrip cfg spawnFor gen gs).snakes.map _ = gs.snakes.map _
      rw [hsnakes]
      exact mapIdx_map_cancel _ _ _ fun i a => rfl
    · exact hfood'
  refine ⟨hpersist, ?_, hstatus, hlen, ?_⟩
  · intro hw
    rw [hpersist]
    refine PersistedState.eq_of_fields rfl ?_ rfl rfl
    exact hw.symm
  · intro i hi
    have hilt : i < (gs.snakes.map fun s =>
        (⟨s.id, s.participantName, s.color, s.aiFunction, s.submissions,
          s.totalKills, s.deaths, s.bestLength⟩ : PersistedSnake)).length := by
      rw [List.length_map]
      omega
    have hgd : (roundTrip cfg spawnFor gen gs).snakes.getD i default =
        respawnSnake cfg (spawnFor i)
          { id := ((gs.snakes.map fun s =>
              (⟨s.id, s.participantName, s.color, s.aiFunction, s.submissions,
                s.totalKills, s.deaths, s.bestLength⟩ : PersistedSnake)).getD i default).id
            participantName := ((gs.snakes.map fun s =>
              (⟨s.id, s.participantName, s.color, s.aiFunction, s.submissions,
                s.totalKills, s.deaths, s.bestLength⟩ : PersistedSnake)).getD i default).participantName
            color := ((gs.snakes.map fun s =>
              (⟨s.id, s.participantName, s.color, s.aiFunction, s.submissions,
                s.totalKills, s.deaths, s.bestLength⟩ : PersistedSnake)).getD i default).color
            alive := false
            headX := 0
            headY := 0
            angle := 0
            speed := cfg.snakeSpeed
            trail := []
            segmentCount := cfg.startingSegments
            kills := 0
            totalKills := ((gs.snakes.map fun s =>
              (⟨s.id, s.participantName, s.color, s.aiFunction, s.submissions,
                s.totalKills, s.deaths, s.bestLength⟩ : PersistedSnake)).getD i default).totalKills
            deaths := ((gs.snakes.map fun s =>
              (⟨s.id, s.participantName, s.color, s.aiFunction, s.submissions,
                s.totalKills, s.deaths, s.bestLength⟩ : PersistedSnake)).getD i default).deaths
            bestLength := ((gs.snakes.map fun s =>
              (⟨s.id, s.participantName, s.color, s.aiFunction, s.submissions,
                s.totalKills, s.deaths, s.bestLength⟩ : PersistedSnake)).getD i default).bestLength
            submissions := ((gs.snakes.map fun s =>
              (⟨s.id, s.participantName, s.color, s.aiFunction, s.submissions,
                s.totalKills, s.deaths, s.bestLength⟩ : PersistedSnake)).getD i default).submissions
            aiFunction := ((gs.snakes.map fun s =>
              (⟨s.id, s.participantName, s.color, s.aiFunction, s.submissions,
                s.totalKills, s.deaths, s.bestLength⟩ : PersistedSnake)).getD i default).aiFunction } := by
      rw [hsnakes]
      exact getD_mapIdx_of_lt _ _ i default default hilt
    have hproj : (gs.snakes.map fun s =>
        (⟨s.id, s.participantName, s.color, s.aiFunction, s.submissions,
          s.totalKills, s.deaths, s.bestLength⟩ : PersistedSnake)).getD i default =
        ⟨(gs.snakes.getD i default).id, (gs.snakes.getD i default).participantName,
         (gs.snakes.getD i default).color, (gs.snakes.getD i default).aiFunction,
         (gs.snakes.getD i default).submissions, (gs.snakes.getD i default).totalKills,
         (gs.snakes.getD i default).deaths, (gs.snakes.getD i default).bestLength⟩ := by
      exact getD_map_of_lt _ _ i default default (by omega : i < gs.snakes.length)
    rw [hgd, hproj]
    exact ⟨rfl, rfl, rfl, rfl, rfl, rfl⟩

/-- C2, counterexample: a freshly started (running) game persists a payload
with `status = "running"`; after restore the next persist always writes
`status = "waiting"`, so the two payloads are not equal. -/
theorem c2_counterexample :
    (getStateForPersistence
      (startGame defaultConfig (fun _ => ⟨0, 0, 0⟩) (fun _ => ⟨0, 0, 1, 6⟩)
        (createInitialState defaultConfig))).status = Status.running ∧
    (getStateForPersistence
      (roundTrip defaultConfig (fun _ => ⟨0, 0, 0⟩) (fun _ => ⟨0, 0, 1, 6⟩)
        (startGame defaultConfig (fun _ => ⟨0, 0, 0⟩) (fun _ => ⟨0, 0, 1, 6⟩)
          (createInitialState defaultConfig)))).status = Status.waiting ∧
    getStateForPersistence
      (roundTrip defaultConfig (fun _ => ⟨0, 0, 0⟩) (fun _ => ⟨0, 0, 1, 6⟩)
        (startGame defaultConfig (fun _ => ⟨0, 0, 0⟩) (fun _ => ⟨0, 0, 1, 6⟩)
          (createInitialState defaultConfig))) ≠
      getStateForPersistence
        (startGame defaultConfig (fun _ => ⟨0, 0, 0⟩) (fun _ => ⟨0, 0, 1, 6⟩)
          (createInitialState defaultConfig)) := by
  have hrun : (startGame defaultConfig (fun _ => ⟨0, 0, 0⟩) (fun _ => ⟨0, 0, 1, 6⟩)
      (createInitialState defaultConfig)).status = Status.running := by
    rw [startGame, if_neg (by decide : ¬ (createInitialState defaultConfig).status = Status.running)]
    rfl
  refine ⟨hrun, rfl, ?_⟩
  intro h
  have := congrArg PersistedState.status h
  rw [show (getStateForPersistence
      (roundTrip defaultConfig (fun _ => ⟨0, 0, 0⟩) (fun _ => ⟨0, 0, 1, 6⟩)
        (startGame defaultConfig (fun _ => ⟨0, 0, 0⟩) (fun _ => ⟨0, 0, 1, 6⟩)
          (createInitialState defaultConfig)))).status = Status.waiting from rfl] at this
  rw [show (getStateForPersistence
      (startGame defaultConfig (fun _ => ⟨0, 0, 0⟩) (fun _ => ⟨0, 0, 1, 6⟩)
        (createInitialState defaultConfig))).status =
      (startGame defaultConfig (fun _ => ⟨0, 0, 0⟩) (fun _ => ⟨0, 0, 1, 6⟩)
        (createInitialState defaultConfig)).status from rfl, hrun] at this
  exact absurd this (by decide)

/-- C2, witness: the amended round-trip theorem instantiated at a
configuration with no food minimum and the fresh empty state. -/
theorem c2_witness :
    getStateForPersistence
      (roundTrip { defaultConfig with minFood := 0, maxFood := 0 }
        (fun _ => ⟨0, 0, 0⟩) (fun _ => ⟨0, 0, 1, 6⟩)
        (createInitialState { defaultConfig with minFood := 0, maxFood := 0 })) =
      { getStateForPersistence
          (createInitialState { defaultConfig with minFood := 0, maxFood := 0 }) with
          status := Status.waiting } ∧
    ((createInitialState { defaultConfig with minFood := 0, maxFood := 0 }).status =
        Status.waiting →
      getStateForPersistence
        (roundTrip { defaultConfig with minFood := 0, maxFood := 0 }
          (fun _ => ⟨0, 0, 0⟩) (fun _ => ⟨0, 0, 1, 6⟩)
          (createInitialState { defaultConfig with minFood := 0, maxFood := 0 })) =
        getStateForPersistence
          (createInitialState { defaultConfig with minFood := 0, maxFood := 0 })) ∧
    (roundTrip { defaultConfig with minFood := 0, maxFood := 0 }
        (fun _ => ⟨0, 0, 0⟩) (fun _ => ⟨0, 0, 1, 6⟩)
        (createInitialState { defaultConfig with minFood := 0, maxFood := 0 })).status =
      Status.waiting ∧
    (roundTrip { defaultConfig with minFood := 0, maxFood := 0 }
        (fun _ => ⟨0, 0, 0⟩) (fun _ => ⟨0, 0, 1, 6⟩)
        (createInitialState { defaultConfig with minFood := 0, maxFood := 0 })).snakes.length =
      (createInitialState { defaultConfig with minFood := 0, maxFood := 0 }).snakes.length ∧
    (∀ i, i < (roundTrip { defaultConfig with minFood := 0, maxFood := 0 }
        (fun _ => ⟨0, 0, 0⟩) (fun _ => ⟨0, 0, 1, 6⟩)
        (createInitialState { defaultConfig with minFood := 0, maxFood := 0 })).snakes.length →
      ((roundTrip { defaultConfig with minFood := 0, maxFood := 0 }
          (fun _ => ⟨0, 0, 0⟩) (fun _ => ⟨0, 0, 1, 6⟩)
          (createInitialState { defaultConfig with minFood := 0, maxFood := 0 })).snakes.getD i
            default).alive = true ∧
      ((roundTrip { defaultConfig with minFood := 0, maxFood := 0 }
          (fun _ => ⟨0, 0, 0⟩) (fun _ => ⟨0, 0, 1, 6⟩)
          (createInitialState { defaultConfig with minFood := 0, maxFood := 0 })).snakes.getD i
            default).totalKills =
        ((createInitialState { defaultConfig with minFood := 0, maxFood := 0 }).snakes.getD i
            default).totalKills ∧
      ((roundTrip { defaultConfig with minFood := 0, maxFood := 0 }
          (fun _ => ⟨0, 0, 0⟩) (fun _ => ⟨0, 0, 1, 6⟩)
          (createInitialState { defaultConfig with minFood := 0, maxFood := 0 })).snakes.getD i
            default).deaths =
        ((createInitialState { defaultConfig with minFood := 0, maxFood := 0 }).snakes.getD i
            default).deaths ∧
      ((roundTrip { defaultConfig with minFood := 0, maxFood := 0 }
          (fun _ => ⟨0, 0, 0⟩) (fun _ => ⟨0, 0, 1, 6⟩)
          (createInitialState { defaultConfig with minFood := 0, maxFood := 0 })).snakes.getD i
            default).bestLength =
        ((createInitialState { defaultConfig with minFood := 0, maxFood := 0 }).snakes.getD i
            default).bestLength ∧
      ((roundTrip { defaultConfig with minFood := 0, maxFood := 0 }
          (fun _ => ⟨0, 0, 0⟩) (fun _ => ⟨0, 0, 1, 6⟩)
          (createInitialState { defaultConfig with minFood := 0, maxFood := 0 })).snakes.getD i
            default).submissions =
        ((createInitialState { defaultConfig with minFood := 0, maxFood := 0 }).snakes.getD i
            default).submissions ∧
      ((roundTrip { defaultConfig with minFood := 0, maxFood := 0 }
          (fun _ => ⟨0, 0, 0⟩) (fun _ => ⟨0, 0, 1, 6⟩)
          (createInitialState { defaultConfig with minFood := 0, maxFood := 0 })).snakes.getD i
            default).aiFunction =
        ((createInitialState { defaultConfig with minFood := 0, maxFood := 0 }).snakes.getD i
            default).aiFunction) :=
  c2_persistence_roundtrip { defaultConfig with minFood := 0, maxFood := 0 }
    (fun _ => ⟨0, 0, 0⟩) (fun _ => ⟨0, 0, 1, 6⟩)
    (createInitialState { defaultConfig with minFood := 0, maxFood := 0 })
    (by simp [createInitialState])

/-- C4 (amended): for a non-empty trail whose consecutive points are at most
`segmentSpacing` apart (as the game maintains: trail points are written
`speed` or `segmentSpacing/2` apart) and positive spacing,
`getSegmentPositions` returns at most `segmentCount` positions, the first
being `trail[0]`, and the `j`-th being the point exactly `j · segmentSpacing`
units of arc length along the trail polyline — so each returned position is
exactly `segmentSpacing` units of arc beyond the previous one. -/
theorem c4_segment_positions (cfg : Config) (s : Snake)
    (h1 : s.trail ≠ []) (h2 : 1 ≤ s.segmentCount)
    (hsp : 0 < cfg.segmentSpacing)
    (hchain : List.Chain' (fun p q => dist p.x p.y q.x q.y ≤ cfg.segmentSpacing) s.trail) :
    (getSegmentPositions cfg s).length ≤ s.segmentCount ∧
    (getSegmentPositions cfg s).head? = s.trail.head? ∧
    ∀ (j : ℕ) (x : Position), (getSegmentPositions cfg s)[j]? = some x →
      pointAtArc s.trail ((j : ℝ) * cfg.segmentSpacing) = some x := by
  obtain ⟨h, rest, hT⟩ : ∃ h rest, s.trail = h :: rest := by
    cases hT : s.trail with
    | nil => exact absurd hT h1
    | cons h rest => exact ⟨h, rest, rfl⟩
  have hget : getSegmentPositions cfg s =
      h :: segGo cfg.segmentSpacing (s.segmentCount - 1) h rest 0 := by
    unfold getSegmentPositions
    rw [hT]
  refine ⟨?_, ?_, ?_⟩
  · rw [hget]
    have := segGo_length cfg.segmentSpacing rest (s.segmentCount - 1) h 0
    simp only [List.length_cons]
    omega
  · rw [hget, hT]
    simp
  · intro j x hx
    rw [hget] at hx
    cases j with
    | zero =>
        simp only [List.getElem?_cons_zero, Option.some_inj] at hx
        rw [hT, Nat.cast_zero, zero_mul, pointAtArc_zero, hx]
    | succ j =>
        simp only [List.getElem?_cons_succ] at hx
        have := segGo_arc cfg.segmentSpacing hsp rest (s.segmentCount - 1) h 0
          le_rfl (le_of_lt hsp) (hT ▸ hchain) j x hx
        rw [hT]
        rw [show ((j + 1 : ℕ) : ℝ) * cfg.segmentSpacing =
            ((j : ℕ) + 1) * cfg.segmentSpacing - 0 by push_cast; ring]
        exact this

/-- C4, counterexample: with the default spacing 20 and the trail
`[(0,0), (100,0), (100,100)]` (edges longer than the spacing), the third
returned position is `(100, -60)` — an extrapolation off the polyline —
while the point at arc length `2 × 20` along the trail is `(40, 0)`. -/
theorem c4_counterexample :
    (getSegmentPositions defaultConfig
        { (default : Snake) with
            trail := [⟨0, 0⟩, ⟨100, 0⟩, ⟨100, 100⟩], segmentCount := 10 })[2]? =
      some ⟨100, -60⟩ ∧
    pointAtArc [⟨0, 0⟩, ⟨100, 0⟩, ⟨100, 100⟩] ((2 : ℝ) * defaultConfig.segmentSpacing) =
      some ⟨40, 0⟩ ∧
    (⟨100, -60⟩ : Position) ≠ ⟨40, 0⟩ := by
  have hd1 : dist 0 0 100 0 = 100 := by
    unfold dist distSq
    rw [show ((100:ℝ) - 0) * ((100:ℝ) - 0) + ((0:ℝ) - 0) * ((0:ℝ) - 0) = 100 ^ 2 by norm_num]
    rw [Real.sqrt_sq (by norm_num : (0:ℝ) ≤ 100)]
  have hd2 : dist 100 0 100 100 = 100 := by
    unfold dist distSq
    rw [show ((100:ℝ) - 100) * ((100:ℝ) - 100) + ((100:ℝ) - 0) * ((100:ℝ) - 0) = 100 ^ 2 by
      norm_num]
    rw [Real.sqrt_sq (by norm_num : (0:ℝ) ≤ 100)]
  have hstep1 : segGo (20:ℝ) 9 ⟨0, 0⟩ [⟨100, 0⟩, ⟨100, 100⟩] 0 =
      (⟨20, 0⟩ : Position) :: segGo (20:ℝ) 8 ⟨100, 0⟩ [⟨100, 100⟩] 80 := by
    rw [show (9:ℕ) = 8 + 1 from rfl]
    rw [segGo_cons_emit 8 ⟨0, 0⟩ ⟨100, 0⟩ [⟨100, 100⟩] 0
      (show (20:ℝ) ≤ 0 + dist 0 0 100 0 by rw [hd1]; norm_num)
      (show (0:ℝ) < dist 0 0 100 0 by rw [hd1]; norm_num)]
    rw [show dist (⟨0,0⟩ : Position).x (⟨0,0⟩ : Position).y
        (⟨100,0⟩ : Position).x (⟨100,0⟩ : Position).y = dist 0 0 100 0 from rfl, hd1]
    norm_num
  have hstep2 : segGo (20:ℝ) 8 ⟨100, 0⟩ [⟨100, 100⟩] 80 =
      (⟨100, -60⟩ : Position) :: segGo (20:ℝ) 7 ⟨100, 100⟩ [] 160 := by
    rw [show (8:ℕ) = 7 + 1 from rfl]
    rw [segGo_cons_emit 7 ⟨100, 0⟩ ⟨100, 100⟩ [] 80
      (show (20:ℝ) ≤ 80 + dist 100 0 100 100 by rw [hd2]; norm_num)
      (show (0:ℝ) < dist 100 0 100 100 by rw [hd2]; norm_num)]
    rw [show dist (⟨100,0⟩ : Position).x (⟨100,0⟩ : Position).y
        (⟨100,100⟩ : Position).x (⟨100,100⟩ : Position).y = dist 100 0 100 100 from rfl, hd2]
    norm_num
  have hseg : getSegmentPositions defaultConfig
      { (default : Snake) with
          trail := [⟨0, 0⟩, ⟨100, 0⟩, ⟨100, 100⟩], segmentCount := 10 } =
      [⟨0, 0⟩, ⟨20, 0⟩, ⟨100, -60⟩] := by
    show (⟨0,0⟩ : Position) :: segGo (20:ℝ) 9 ⟨0, 0⟩ [⟨100, 0⟩, ⟨100, 100⟩] 0 =
      [⟨0, 0⟩, ⟨20, 0⟩, ⟨100, -60⟩]
    rw [hstep1, hstep2, segGo_nil]
  refine ⟨?_, ?_, ?_⟩
  · rw [hseg]; rfl
  · rw [show ((2 : ℝ) * defaultConfig.segmentSpacing) = 40 by
      rw [show defaultConfig.segmentSpacing = (20:ℝ) from rfl]; norm_num]
    rw [pointAtArc_cons_le
      (show (40:ℝ) ≤ dist (⟨0,0⟩ : Position).x (⟨0,0⟩ : Position).y
        (⟨100,0⟩ : Position).x (⟨100,0⟩ : Position).y by
          rw [show dist (⟨0,0⟩ : Position).x (⟨0,0⟩ : Position).y
            (⟨100,0⟩ : Position).x (⟨100,0⟩ : Position).y = dist 0 0 100 0 from rfl, hd1]
          norm_num)]
    rw [show dist (⟨0,0⟩ : Position).x (⟨0,0⟩ : Position).y
        (⟨100,0⟩ : Position).x (⟨100,0⟩ : Position).y = dist 0 0 100 0 from rfl, hd1]
    refine congrArg some (Position.eq_of_xy ?_ ?_) <;> · simp only [lerp]; norm_num
  · intro hcontra
    have : (100 : ℝ) = 40 := congrArg Position.x hcontra
    norm_num at this

/-- C4, witness: the amended theorem instantiated at the default
configuration and a single-point trail. -/
theorem c4_witness :
    (getSegmentPositions defaultConfig
        { (default : Snake) with trail := [⟨0, 0⟩], segmentCount := 1 }).length ≤ 1 ∧
    (getSegmentPositions defaultConfig
        { (default : Snake) with trail := [⟨0, 0⟩], segmentCount := 1 }).head? =
      ([⟨0, 0⟩] : List Position).head? ∧
    ∀ (j : ℕ) (x : Position),
      (getSegmentPositions defaultConfig
        { (default : Snake) with trail := [⟨0, 0⟩], segmentCount := 1 })[j]? = some x →
      pointAtArc [⟨0, 0⟩] ((j : ℝ) * defaultConfig.segmentSpacing) = some x :=
  c4_segment_positions defaultConfig
    { (default : Snake) with trail := [⟨0, 0⟩], segmentCount := 1 }
    (by simp) le_rfl (by norm_num [defaultConfig]) (by simp)

/-- C8 (amended): the worker's return-value coercion — a finite number
passes through with no error; an object with numeric `x` and `y` becomes
`atan2(y - head.y, x - head.x)` with no error; anything else yields a null
angle and an error of the form `"Invalid return: <rendering>. Return a
number (angle) or \x7bx, y\x7d (target point)."` (not the bare string
`"Invalid return"` the claim states). -/
theorem c8_return_coercion (disp : JSValue → String) (yx yy : ℝ) :
    (∀ v : ℝ, runOne disp yx yy (.num (.fin v)) = (some (.fin v), none)) ∧
    (∀ (x y : JSNum) (json : String),
        runOne disp yx yy (.obj (some x) (some y) json) =
          (some (jsAtan2 (jsSubReal y yy) (jsSubReal x yx)), none)) ∧
    (∀ v : JSValue, (∀ r : ℝ, v ≠ .num (.fin r)) →
        (∀ x y json, v ≠ .obj (some x) (some y) json) →
        (runOne disp yx yy v).1 = none ∧
        ∃ got, (runOne disp yx yy v).2 = some (invalidMsg got)) := by
  refine ⟨fun v => rfl, fun x y json => rfl, fun v h1 h2 => ?_⟩
  cases v with
  | num n =>
      cases n with
      | fin r => exact absurd rfl (h1 r)
      | nan => exact ⟨rfl, _, rfl⟩
      | posInf => exact ⟨rfl, _, rfl⟩
      | negInf => exact ⟨rfl, _, rfl⟩
  | str s => exact ⟨rfl, _, rfl⟩
  | bool b => exact ⟨rfl, _, rfl⟩
  | nullV => exact ⟨rfl, _, rfl⟩
  | undef => exact ⟨rfl, _, rfl⟩
  | obj x y json =>
      cases x with
      | none => cases y <;> exact ⟨rfl, _, rfl⟩
      | some xv =>
          cases y with
          | none => exact ⟨rfl, _, rfl⟩
          | some yv => exact absurd rfl (h2 xv yv json)

/-- C8, counterexample: at the return value `null` the worker's error string
is the full sentence `"Invalid return: null. Return a number (angle) or
\x7bx, y\x7d (target point)."`, not the string `"Invalid return"`. -/
theorem c8_counterexample :
    (runOne (fun _ => "") 0 0 JSValue.nullV).2 = some (invalidMsg "null") ∧
    invalidMsg "null" ≠ "Invalid return" := by
  refine ⟨rfl, ?_⟩
  decide

-- Field-projection lemmas for the per-snake update functions.

lemma stripGrowth_alive (s : Snake) : (stripGrowth s).alive = s.alive := rfl

lemma stripGrowth_headX (s : Snake) : (stripGrowth s).headX = s.headX := rfl

lemma stripGrowth_headY (s : Snake) : (stripGrowth s).headY = s.headY := rfl

lemma stripGrowth_id (s : Snake) : (stripGrowth s).id = s.id := rfl

lemma stripMove_alive (s : Snake) : (stripMove s).alive = s.alive := rfl

lemma stripTurn_alive (s : Snake) : (stripTurn s).alive = s.alive := rfl

lemma stripDeath_id (s : Snake) : (stripDeath s).id = s.id := rfl

lemma addKills_alive (n : ℕ) (s : Snake) : (addKills n s).alive = s.alive := rfl

lemma addKills_deathReason (n : ℕ) (s : Snake) :
    (addKills n s).deathReason = s.deathReason := rfl

lemma addKills_headX (n : ℕ) (s : Snake) : (addKills n s).headX = s.headX := rfl

lemma addKills_headY (n : ℕ) (s : Snake) : (addKills n s).headY = s.headY := rfl

lemma applyDeathsList_id (cfg : Config) (t : ℕ) (ds : List (String × String)) (s : Snake) :
    (applyDeathsList cfg t ds s).id = s.id := by
  have h := congrArg Snake.id (stripDeath_applyDeathsList cfg t ds s)
  rwa [stripDeath_id, stripDeath_id] at h

-- Ids and lengths are preserved through the turn, move and eat steps.

lemma tickMoved_ids (cfg : Config) (orc : Oracle) (ai : String → Option AIResult)
    (gs : GameState) :
    (tickMoved cfg orc ai gs).snakes.map (·.id) = gs.snakes.map (·.id) := by
  have h3 : (tickMoved cfg orc ai gs).snakes.map (·.id)
      = (turnStep cfg ai (tickMid cfg orc.spawnRand gs)).snakes.map (·.id) :=
    map_id_of_strip (f := stripMove) (fun s => rfl)
      (moveStep_snakes_strip cfg (turnStep cfg ai (tickMid cfg orc.spawnRand gs)))
  have h2 : (turnStep cfg ai (tickMid cfg orc.spawnRand gs)).snakes.map (·.id)
      = (tickMid cfg orc.spawnRand gs).snakes.map (·.id) :=
    map_id_of_strip (f := stripTurn) (fun s => rfl)
      (turnStep_snakes_strip cfg ai (tickMid cfg orc.spawnRand gs))
  have h1 : (tickMid cfg orc.spawnRand gs).snakes.map (·.id) = gs.snakes.map (·.id) :=
    respawnSweep_ids cfg orc.spawnRand (tickStart gs)
  rw [h3, h2, h1]

lemma tickEaten_ids (cfg : Config) (orc : Oracle) (ai : String → Option AIResult)
    (gs : GameState) :
    (tickEaten cfg orc ai gs).snakes.map (·.id) = gs.snakes.map (·.id) := by
  have h4 : (tickEaten cfg orc ai gs).snakes.map (·.id)
      = (tickMoved cfg orc ai gs).snakes.map (·.id) :=
    map_id_of_strip (f := stripGrowth) (fun s => rfl)
      (eatStep_snakes_strip cfg (tickMoved cfg orc ai gs))
  rw [h4, tickMoved_ids]

lemma tickMoved_snakes_length (cfg : Config) (orc : Oracle) (ai : String → Option AIResult)
    (gs : GameState) :
    (tickMoved cfg orc ai gs).snakes.length = gs.snakes.length := by
  have h1 : (tickMoved cfg orc ai gs).snakes.length
      = (turnStep cfg ai (tickMid cfg orc.spawnRand gs)).snakes.length :=
    moveStep_snakes_length cfg _
  rw [h1, turnStep_snakes_length, tickMid_snakes_length]

lemma tickEaten_snakes_length (cfg : Config) (orc : Oracle) (ai : String → Option AIResult)
    (gs : GameState) :
    (tickEaten cfg orc ai gs).snakes.length = gs.snakes.length := by
  have h1 : (tickEaten cfg orc ai gs).snakes.length
      = (tickMoved cfg orc ai gs).snakes.length := eatStep_snakes_length cfg _
  rw [h1, tickMoved_snakes_length]

lemma executeTick_snakes_length_main (cfg : Config) (orc : Oracle)
    (ai : String → Option AIResult) (gs : GameState)
    (h : ¬ gs.status ≠ Status.running)
    (h2 : ¬ aliveSnakes (tickMid cfg orc.spawnRand gs) = []) :
    (executeTick cfg orc ai gs).snakes.length = (tickEaten cfg orc ai gs).snakes.length := by
  rw [executeTick_snakes_main cfg orc ai gs h h2, killFold_length, deathFold_snakes_length]

lemma aliveSnakes_ids_nodup (gs : GameState) (h : (gs.snakes.map (·.id)).Nodup) :
    ((aliveSnakes gs).map (·.id)).Nodup :=
  h.sublist (List.Sublist.map _ (List.filter_sublist gs.snakes))

lemma no_alive_getD (gs : GameState) (hempty : aliveSnakes gs = []) (i : ℕ)
    (halive : (gs.snakes.getD i default).alive = true) : False := by
  by_cases hi : i < gs.snakes.length
  · have hmem : gs.snakes.getD i default ∈ gs.snakes := by
      rw [List.getD_eq_getElem _ _ hi]
      exact List.getElem_mem _
    have hmem2 : gs.snakes.getD i default ∈ aliveSnakes gs :=
      List.mem_filter.mpr ⟨hmem, halive⟩
    rw [hempty] at hmem2
    cases hmem2
  · rw [List.getD_eq_default _ _ (by omega)] at halive
    exact Bool.noConfusion halive

lemma tickMoved_alive_getD (cfg : Config) (orc : Oracle) (ai : String → Option AIResult)
    (gs : GameState) (i : ℕ)
    (h : ((tickMoved cfg orc ai gs).snakes.getD i default).alive = true) :
    ((tickMid cfg orc.spawnRand gs).snakes.getD i default).alive = true := by
  by_cases hi : i < (tickMid cfg orc.spawnRand gs).snakes.length
  · have hlen2 : i < (turnStep cfg ai (tickMid cfg orc.spawnRand gs)).snakes.length := by
      rw [turnStep_snakes_length]
      exact hi
    have h1 := strip_getD
      (moveStep_snakes_strip cfg (turnStep cfg ai (tickMid cfg orc.spawnRand gs)))
      (moveStep_snakes_length cfg _) i hlen2
    have h2 := strip_getD (turnStep_snakes_strip cfg ai (tickMid cfg orc.spawnRand gs))
      (turnStep_snakes_length cfg ai _) i hi
    have e1 := congrArg Snake.alive h1
    rw [stripMove_alive, stripMove_alive] at e1
    have e2 := congrArg Snake.alive h2
    rw [stripTurn_alive, stripTurn_alive] at e2
    rw [← e2, ← e1]
    exact h
  · exfalso
    have hlen : (tickMoved cfg orc ai gs).snakes.length ≤ i := by
      have he : (tickMoved cfg orc ai gs).snakes.length
          = (tickMid cfg orc.spawnRand gs).snakes.length := by
        rw [tickMoved_snakes_length, tickMid_snakes_length]
      omega
    rw [List.getD_eq_default _ _ hlen] at h
    exact Bool.noConfusion h

lemma tickEaten_getD_strip (cfg : Config) (orc : Oracle) (ai : String → Option AIResult)
    (gs : GameState) (i : ℕ) (hi : i < (tickMoved cfg orc ai gs).snakes.length) :
    stripGrowth ((tickEaten cfg orc ai gs).snakes.getD i default) =
      stripGrowth ((tickMoved cfg orc ai gs).snakes.getD i default) :=
  strip_getD (eatStep_snakes_strip cfg (tickMoved cfg orc ai gs))
    (eatStep_snakes_length cfg (tickMoved cfg orc ai gs)) i hi

lemma executeTick_getD (cfg : Config) (orc : Oracle) (ai : String → Option AIResult)
    (gs : GameState) (h : ¬ gs.status ≠ Status.running)
    (h2 : ¬ aliveSnakes (tickMid cfg orc.spawnRand gs) = []) (i : ℕ)
    (hi : i < (tickEaten cfg orc ai gs).snakes.length) :
    (executeTick cfg orc ai gs).snakes.getD i default =
      addKills
        (creditCount (tickKilledBy cfg orc ai gs) ((tickDeaths cfg orc ai gs).map (·.1))
          (((tickEaten cfg orc ai gs).snakes.getD i default).id))
        (applyDeathsList cfg (tickMid cfg orc.spawnRand gs).tick
          ((tickDeaths cfg orc ai gs).filter
            (fun p => p.1 = ((tickEaten cfg orc ai gs).snakes.getD i default).id))
          ((tickEaten cfg orc ai gs).snakes.getD i default)) := by
  rw [executeTick_snakes_main cfg orc ai gs h h2, killFold_eq, deathFold_snakes,
    List.map_map]
  rw [getD_map_of_lt _ _ i default default hi]
  simp only [Function.comp_apply]
  rw [applyDeathsList_id]

/-- C7: at the end of every tick of a running game with distinct snake ids,
every snake still alive has its head strictly inside the arena disk; and any
snake alive after the move whose post-move head lies outside the disk is dead
at the end of that tick with `deathReason` `"boundary"`. -/
theorem c7_boundary (cfg : Config) (orc : Oracle) (ai : String → Option AIResult)
    (gs : GameState) (hrun : gs.status = Status.running)
    (hnodup : (gs.snakes.map (·.id)).Nodup) :
    ∀ i : ℕ,
      (((executeTick cfg orc ai gs).snakes.getD i default).alive = true →
        isInBounds cfg ((executeTick cfg orc ai gs).snakes.getD i default).headX
          ((executeTick cfg orc ai gs).snakes.getD i default).headY) ∧
      (((tickMoved cfg orc ai gs).snakes.getD i default).alive = true →
        ¬ isInBounds cfg ((tickMoved cfg orc ai gs).snakes.getD i default).headX
            ((tickMoved cfg orc ai gs).snakes.getD i default).headY →
        ((executeTick cfg orc ai gs).snakes.getD i default).alive = false ∧
        ((executeTick cfg orc ai gs).snakes.getD i default).deathReason = some "boundary") := by
  have hne : ¬ gs.status ≠ Status.running := not_not_intro hrun
  intro i
  by_cases hempty : aliveSnakes (tickMid cfg orc.spawnRand gs) = []
  · constructor
    · intro halive
      exfalso
      rw [executeTick_no_alive cfg orc ai gs hne hempty] at halive
      exact no_alive_getD _ hempty i halive
    · intro halive3 _
      exact absurd (tickMoved_alive_getD cfg orc ai gs i halive3)
        (fun h => no_alive_getD _ hempty i h)
  · constructor
    · intro halive
      by_cases hi : i < (tickEaten cfg orc ai gs).snakes.length
      · have hgd := executeTick_getD cfg orc ai gs hne hempty i hi
        set s0 := (tickEaten cfg orc ai gs).snakes.getD i default with hs0
        rcases hds : (tickDeaths cfg orc ai gs).filter (fun p => p.1 = s0.id)
          with _ | ⟨p, rest⟩
        · rw [hgd, hds, applyDeathsList_nil] at halive ⊢
          rw [addKills_alive] at halive
          rw [addKills_headX, addKills_headY]
          by_contra hout
          have hmem0 : s0 ∈ (tickEaten cfg orc ai gs).snakes := by
            rw [hs0, List.getD_eq_getElem _ _ hi]
            exact List.getElem_mem _
          have hmemA : s0 ∈ aliveSnakes (tickEaten cfg orc ai gs) :=
            List.mem_filter.mpr ⟨hmem0, halive⟩
          have hmem_d : (s0.id, "boundary") ∈ tickDeaths cfg orc ai gs := by
            show (s0.id, "boundary") ∈ (collide cfg (tickCache cfg orc ai gs)
              (aliveSnakes (tickEaten cfg orc ai gs))).1
            rw [collide_fst]
            exact List.mem_append_left _
              (bodyPass_mem_boundary cfg _ _ _ s0 hmemA hout)
          have hmemf : (s0.id, "boundary") ∈
              (tickDeaths cfg orc ai gs).filter (fun p => p.1 = s0.id) :=
            List.mem_filter.mpr ⟨hmem_d, by simp⟩
          rw [hds] at hmemf
          cases hmemf
        · exfalso
          rw [hgd, hds] at halive
          rw [addKills_alive] at halive
          rw [(applyDeathsList_alive cfg _ rest s0 p).1] at halive
          exact Bool.noConfusion halive
      · exfalso
        have hd : (executeTick cfg orc ai gs).snakes.getD i default = default :=
          List.getD_eq_default _ _
            (by rw [executeTick_snakes_length_main cfg orc ai gs hne hempty]; omega)
        rw [hd] at halive
        exact Bool.noConfusion halive
    · intro halive3 hout3
      have hi3 : i < (tickMoved cfg orc ai gs).snakes.length := by
        by_contra h
        rw [List.getD_eq_default _ _ (by omega)] at halive3
        exact Bool.noConfusion halive3
      have hi4 : i < (tickEaten cfg orc ai gs).snakes.length := by
        have he : (tickEaten cfg orc ai gs).snakes.length
            = (tickMoved cfg orc ai gs).snakes.length := eatStep_snakes_length cfg _
        omega
      have hstrip := tickEaten_getD_strip cfg orc ai gs i hi3
      have halive4 : ((tickEaten cfg orc ai gs).snakes.getD i default).alive = true := by
        have e := congrArg Snake.alive hstrip
        rw [stripGrowth_alive, stripGrowth_alive] at e
        rw [e]
        exact halive3
      have hout4 : ¬ isInBounds cfg
          ((tickEaten cfg orc ai gs).snakes.getD i default).headX
          ((tickEaten cfg orc ai gs).snakes.getD i default).headY := by
        have ex := congrArg Snake.headX hstrip
        rw [stripGrowth_headX, stripGrowth_headX] at ex
        have ey := congrArg Snake.headY hstrip
        rw [stripGrowth_headY, stripGrowth_headY] at ey
        rw [ex, ey]
        exact hout3
      set s0 := (tickEaten cfg orc ai gs).snakes.getD i default with hs0
      have hmem0 : s0 ∈ (tickEaten cfg orc ai gs).snakes := by
        rw [hs0, List.getD_eq_getElem _ _ hi4]
        exact List.getElem_mem _
      have hmemA : s0 ∈ aliveSnakes (tickEaten cfg orc ai gs) :=
        List.mem_filter.mpr ⟨hmem0, halive4⟩
      have hmem_d : (s0.id, "boundary") ∈ tickDeaths cfg orc ai gs := by
        show (s0.id, "boundary") ∈ (collide cfg (tickCache cfg orc ai gs)
          (aliveSnakes (tickEaten cfg orc ai gs))).1
        rw [collide_fst]
        exact List.mem_append_left _ (bodyPass_mem_boundary cfg _ _ _ s0 hmemA hout4)
      have hkeys : ((tickDeaths cfg orc ai gs).map (·.1)).Nodup := by
        show (((collide cfg (tickCache cfg orc ai gs)
          (aliveSnakes (tickEaten cfg orc ai gs))).1).map (·.1)).Nodup
        exact collide_keys_nodup cfg _ _
          (aliveSnakes_ids_nodup _ (by rw [tickEaten_ids]; exact hnodup))
      have hds : (tickDeaths cfg orc ai gs).filter (fun p => p.1 = s0.id)
          = [(s0.id, "boundary")] :=
        filter_key_eq_single _ s0.id "boundary" hmem_d hkeys
      rw [executeTick_getD cfg orc ai gs hne hempty i hi4, ← hs0, hds]
      constructor
      · rw [addKills_alive]
        exact (applyDeathsList_alive cfg _ [] s0 (s0.id, "boundary")).1
      · rw [addKills_deathReason]
        exact (applyDeathsList_alive cfg _ [] s0 (s0.id, "boundary")).2

/-- C7, witness: the boundary property instantiated at the one-snake fixture
state — the snake that survives the tick has its head inside the arena, and
the boundary-death implication holds for it. -/
theorem c7_witness :
    (((executeTick defaultConfig wOracle wAI wState).snakes.getD 0 default).alive = true →
      isInBounds defaultConfig
        ((executeTick defaultConfig wOracle wAI wState).snakes.getD 0 default).headX
        ((executeTick defaultConfig wOracle wAI wState).snakes.getD 0 default).headY) ∧
    (((tickMoved defaultConfig wOracle wAI wState).snakes.getD 0 default).alive = true →
      ¬ isInBounds defaultConfig
          ((tickMoved defaultConfig wOracle wAI wState).snakes.getD 0 default).headX
          ((tickMoved defaultConfig wOracle wAI wState).snakes.getD 0 default).headY →
      ((executeTick defaultConfig wOracle wAI wState).snakes.getD 0 default).alive = false ∧
      ((executeTick defaultConfig wOracle wAI wState).snakes.getD 0 default).deathReason
        = some "boundary") :=
  c7_boundary defaultConfig wOracle wAI wState rfl (by simp [wState, wSnake]) 0

-- Food is untouched before the eating step of a tick.

lemma respawnSweep_food (cfg : Config) (sp : ℕ → Spawn) (gs : GameState) :
    (respawnSweep cfg sp gs).food = gs.food := by
  unfold respawnSweep
  split
  · rfl
  · rfl

lemma tickMid_food (cfg : Config) (sp : ℕ → Spawn) (gs : GameState) :
    (tickMid cfg sp gs).food = gs.food :=
  respawnSweep_food cfg sp (tickStart gs)

lemma tickMoved_food (cfg : Config) (orc : Oracle) (ai : String → Option AIResult)
    (gs : GameState) :
    (tickMoved cfg orc ai gs).food = gs.food := by
  show (tickMid cfg orc.spawnRand gs).food = gs.food
  exact tickMid_food cfg orc.spawnRand gs

-- The food cap and floor across the operations of the game.

lemma executeTick_food_cap (cfg : Config) (orc : Oracle) (ai : String → Option AIResult)
    (gs : GameState) (hcap : gs.food.length ≤ cfg.maxFood) :
    (executeTick cfg orc ai gs).food.length ≤ cfg.maxFood := by
  by_cases h : gs.status ≠ Status.running
  · rw [executeTick_not_running cfg orc ai gs h]
    exact hcap
  · by_cases h2 : aliveSnakes (tickMid cfg orc.spawnRand gs) = []
    · rw [executeTick_no_alive cfg orc ai gs h h2, tickMid_food]
      exact hcap
    · rw [executeTick_main cfg orc ai gs h h2, winStep_food, ensureMinFood_food_length]
      refine max_le (min_le_right _ _) ?_
      show (deathFold cfg (tickMid cfg orc.spawnRand gs).tick orc.jitterRand
          (tickCache cfg orc ai gs) (tickDeaths cfg orc ai gs)
          (tickEaten cfg orc ai gs)).food.length ≤ cfg.maxFood
      refine deathFold_food_le cfg _ _ _ _ _ ?_
      calc (tickEaten cfg orc ai gs).food.length
          ≤ (tickMoved cfg orc ai gs).food.length := eatStep_food_le cfg _
        _ = gs.food.length := by rw [tickMoved_food]
        _ ≤ cfg.maxFood := hcap

lemma executeTick_food_floor (cfg : Config) (orc : Oracle) (ai : String → Option AIResult)
    (gs : GameState) (h : ¬ gs.status ≠ Status.running)
    (h2 : ¬ aliveSnakes (tickMid cfg orc.spawnRand gs) = []) :
    min (cfg.minFood + gs.snakes.length * 20) cfg.maxFood ≤
      (executeTick cfg orc ai gs).food.length := by
  rw [executeTick_main cfg orc ai gs h h2, winStep_food, ensureMinFood_food_length]
  have hlen : ({ deathFold cfg (tickMid cfg orc.spawnRand gs).tick orc.jitterRand
      (tickCache cfg orc ai gs) (tickDeaths cfg orc ai gs)
      (tickEaten cfg orc ai gs) with
      snakes := killFold ((tickDeaths cfg orc ai gs).map (·.1))
        (tickKilledBy cfg orc ai gs)
        (deathFold cfg (tickMid cfg orc.spawnRand gs).tick orc.jitterRand
          (tickCache cfg orc ai gs) (tickDeaths cfg orc ai gs)
          (tickEaten cfg orc ai gs)).snakes } : GameState).snakes.length
      = gs.snakes.length := by
    show (killFold ((tickDeaths cfg orc ai gs).map (·.1)) (tickKilledBy cfg orc ai gs)
      (deathFold cfg (tickMid cfg orc.spawnRand gs).tick orc.jitterRand
        (tickCache cfg orc ai gs) (tickDeaths cfg orc ai gs)
        (tickEaten cfg orc ai gs)).snakes).length = gs.snakes.length
    rw [killFold_length, deathFold_snakes_length, tickEaten_snakes_length]
  rw [hlen]
  exact le_max_left _ _

lemma registerSnake_food_cap (cfg : Config) (sp : Spawn) (gen : ℕ → Food) (newId : String)
    (now : ℕ) (name aiFn : String) (gs : GameState) (hcap : gs.food.length ≤ cfg.maxFood) :
    (registerSnake cfg sp gen newId now name aiFn gs).food.length ≤ cfg.maxFood := by
  simp only [registerSnake]
  split
  · exact hcap
  · rw [ensureMinFood_food_length]
    exact max_le (min_le_right _ _) hcap

lemma loadState_food_cap (cfg : Config) (spawnFor : ℕ → Spawn) (gen : ℕ → Food)
    (saved : PersistedState) (gs : GameState) (hsaved : saved.food.length ≤ cfg.maxFood) :
    (loadState cfg spawnFor gen saved gs).food.length ≤ cfg.maxFood := by
  simp only [loadState]
  rw [ensureMinFood_food_length]
  exact max_le (min_le_right _ _) hsaved

lemma startGame_food_cap (cfg : Config) (spawnFor : ℕ → Spawn) (gen : ℕ → Food)
    (gs : GameState) (hcap : gs.food.length ≤ cfg.maxFood) :
    (startGame cfg spawnFor gen gs).food.length ≤ cfg.maxFood := by
  unfold startGame
  split
  · exact hcap
  · rw [ensureMinFood_food_length]
    exact max_le (min_le_right _ _) hcap

/-- C5: the food-list cap `length(food) ≤ maxFood` is preserved by every
operation — a tick (including its death processing, whose corpse loop stops
at `maxFood`), registration, restore (given a capped payload) and game start
— and at the end of every tick of a running game the food length is at least
`min(minFood + 20·numSnakes, maxFood)`: the floor is (re-)established by the
final top-up on every tick with a living snake, and on a tick with no living
snake the food list is returned unchanged (so the floor carries over from
the state the earlier operations established it in). -/
theorem c5_food_bounds (cfg : Config) (orc : Oracle) (ai : String → Option AIResult)
    (gs : GameState) (sp : Spawn) (gen : ℕ → Food) (spawnFor : ℕ → Spawn)
    (saved : PersistedState) (newId : String) (now : ℕ) (name aiFn : String)
    (hcap : gs.food.length ≤ cfg.maxFood) :
    (executeTick cfg orc ai gs).food.length ≤ cfg.maxFood ∧
    (registerSnake cfg sp gen newId now name aiFn gs).food.length ≤ cfg.maxFood ∧
    (saved.food.length ≤ cfg.maxFood →
      (loadState cfg spawnFor gen saved gs).food.length ≤ cfg.maxFood) ∧
    (startGame cfg spawnFor gen gs).food.length ≤ cfg.maxFood ∧
    (gs.status = Status.running →
      (¬ aliveSnakes (tickMid cfg orc.spawnRand gs) = [] →
        min (cfg.minFood + gs.snakes.length * 20) cfg.maxFood ≤
          (executeTick cfg orc ai gs).food.length) ∧
      (aliveSnakes (tickMid cfg orc.spawnRand gs) = [] →
        (executeTick cfg orc ai gs).food = gs.food)) := by
  refine ⟨executeTick_food_cap cfg orc ai gs hcap,
    registerSnake_food_cap cfg sp gen newId now name aiFn gs hcap,
    fun hsaved => loadState_food_cap cfg spawnFor gen saved gs hsaved,
    startGame_food_cap cfg spawnFor gen gs hcap,
    fun hrun => ⟨fun h2 => executeTick_food_floor cfg orc ai gs (not_not_intro hrun) h2,
      fun h2 => ?_⟩⟩
  rw [executeTick_no_alive cfg orc ai gs (not_not_intro hrun) h2, tickMid_food]

/-- C5, witness: the food bounds instantiated at the one-snake fixture state
with the fixed oracle (empty food list, 0 ≤ maxFood). -/
theorem c5_witness :
    (executeTick defaultConfig wOracle wAI wState).food.length ≤ defaultConfig.maxFood ∧
    (registerSnake defaultConfig (wOracle.spawnRand 0) wOracle.foodRand "b" 0 "n" ""
        wState).food.length ≤ defaultConfig.maxFood ∧
    ((getStateForPersistence wState).food.length ≤ defaultConfig.maxFood →
      (loadState defaultConfig wOracle.spawnRand wOracle.foodRand
          (getStateForPersistence wState) wState).food.length ≤ defaultConfig.maxFood) ∧
    (startGame defaultConfig wOracle.spawnRand wOracle.foodRand wState).food.length
      ≤ defaultConfig.maxFood ∧
    (wState.status = Status.running →
      (¬ aliveSnakes (tickMid defaultConfig wOracle.spawnRand wState) = [] →
        min (defaultConfig.minFood + wState.snakes.length * 20) defaultConfig.maxFood ≤
          (executeTick defaultConfig wOracle wAI wState).food.length) ∧
      (aliveSnakes (tickMid defaultConfig wOracle.spawnRand wState) = [] →
        (executeTick defaultConfig wOracle wAI wState).food = wState.food)) :=
  c5_food_bounds defaultConfig wOracle wAI wState (wOracle.spawnRand 0) wOracle.foodRand
    wOracle.spawnRand (getStateForPersistence wState) "b" 0 "n" "" (Nat.zero_le _)

-- Kill counters through death processing and the kill award.

lemma stripDeath_kills (s : Snake) : (stripDeath s).kills = s.kills := rfl

lemma stripDeath_totalKills (s : Snake) : (stripDeath s).totalKills = s.totalKills := rfl

lemma addKills_kills (n : ℕ) (s : Snake) : (addKills n s).kills = s.kills + n := rfl

lemma addKills_totalKills (n : ℕ) (s : Snake) :
    (addKills n s).totalKills = s.totalKills + n := rfl

lemma applyDeathsList_kills (cfg : Config) (t : ℕ) (ds : List (String × String)) (s : Snake) :
    (applyDeathsList cfg t ds s).kills = s.kills := by
  have h := congrArg Snake.kills (stripDeath_applyDeathsList cfg t ds s)
  rwa [stripDeath_kills, stripDeath_kills] at h

lemma applyDeathsList_totalKills (cfg : Config) (t : ℕ) (ds : List (String × String))
    (s : Snake) :
    (applyDeathsList cfg t ds s).totalKills = s.totalKills := by
  have h := congrArg Snake.totalKills (stripDeath_applyDeathsList cfg t ds s)
  rwa [stripDeath_totalKills, stripDeath_totalKills] at h

lemma bodyKiller_some_prop (cfg : Config) (cache : List (String × List Position))
    (alive : List Snake) (s o : Snake) (h : bodyKiller cfg cache alive s = some o) :
    o.id ≠ s.id ∧ hitsBody cfg (cacheGet cache o.id) s := by
  unfold bodyKiller at h
  have hp := List.find?_some h
  simp only [decide_eq_true_eq] at hp
  exact hp

/-- C6: the kill-credit discipline of a tick.  (1) Each snake's `kills` and
`totalKills` grow by exactly one per `killedBy` entry naming it as the
killer, and by nothing at all when the snake itself died this tick (atomic
revocation).  (2) Every `killedBy` entry comes from a head-versus-other-body
collision: the victim was alive and in bounds after the move, the killer is
the first opponent whose cached non-head segments its head hits within
`2·snakeRadius`, and the victim carries the death entry
`"snake:<killer name>"`.  (3) The head-to-head pass adds no `killedBy`
entries at all, (4) its deaths come in symmetric pairs with `"headon:"`
reasons, and (5) every snake with a death entry this tick is dead at the end
of the tick. -/
theorem c6_kill_credit (cfg : Config) (orc : Oracle) (ai : String → Option AIResult)
    (gs : GameState) (hrun : gs.status = Status.running)
    (hmain : ¬ aliveSnakes (tickMid cfg orc.spawnRand gs) = []) :
    (∀ i, i < (tickEaten cfg orc ai gs).snakes.length →
      ((executeTick cfg orc ai gs).snakes.getD i default).kills
        = ((tickEaten cfg orc ai gs).snakes.getD i default).kills
          + (if ((tickEaten cfg orc ai gs).snakes.getD i default).id
                ∈ (tickDeaths cfg orc ai gs).map (·.1) then 0
             else ((tickKilledBy cfg orc ai gs).filter
               (fun p => p.2 = ((tickEaten cfg orc ai gs).snakes.getD i default).id)).length) ∧
      ((executeTick cfg orc ai gs).snakes.getD i default).totalKills
        = ((tickEaten cfg orc ai gs).snakes.getD i default).totalKills
          + (if ((tickEaten cfg orc ai gs).snakes.getD i default).id
                ∈ (tickDeaths cfg orc ai gs).map (·.1) then 0
             else ((tickKilledBy cfg orc ai gs).filter
               (fun p => p.2 = ((tickEaten cfg orc ai gs).snakes.getD i default).id)).length)) ∧
    (∀ v k, (v, k) ∈ tickKilledBy cfg orc ai gs →
      ∃ s ∈ aliveSnakes (tickEaten cfg orc ai gs), s.id = v ∧
        isInBounds cfg s.headX s.headY ∧
        ∃ o, bodyKiller cfg (tickCache cfg orc ai gs)
            (aliveSnakes (tickEaten cfg orc ai gs)) s = some o ∧
          o.id = k ∧ o.id ≠ s.id ∧
          hitsBody cfg (cacheGet (tickCache cfg orc ai gs) o.id) s ∧
          (v, "snake:" ++ o.participantName) ∈ tickDeaths cfg orc ai gs) ∧
    tickKilledBy cfg orc ai gs
      = (bodyPass cfg (tickCache cfg orc ai gs) (aliveSnakes (tickEaten cfg orc ai gs))
          (aliveSnakes (tickEaten cfg orc ai gs))).2 ∧
    (∀ v r, (v, r) ∈ (headOnOuter cfg (aliveSnakes (tickEaten cfg orc ai gs))
        (((bodyPass cfg (tickCache cfg orc ai gs) (aliveSnakes (tickEaten cfg orc ai gs))
          (aliveSnakes (tickEaten cfg orc ai gs))).1).map (·.1))).1 →
      ∃ a ∈ aliveSnakes (tickEaten cfg orc ai gs),
        ∃ b ∈ aliveSnakes (tickEaten cfg orc ai gs),
        distSq a.headX a.headY b.headX b.headY < collideThreshSq cfg ∧
        ((v = a.id ∧ r = "headon:" ++ b.participantName) ∨
         (v = b.id ∧ r = "headon:" ++ a.participantName)) ∧
        (a.id, "headon:" ++ b.participantName) ∈ tickDeaths cfg orc ai gs ∧
        (b.id, "headon:" ++ a.participantName) ∈ tickDeaths cfg orc ai gs) ∧
    (∀ i, i < (tickEaten cfg orc ai gs).snakes.length →
      ∀ r, (((tickEaten cfg orc ai gs).snakes.getD i default).id, r)
          ∈ tickDeaths cfg orc ai gs →
        ((executeTick cfg orc ai gs).snakes.getD i default).alive = false) := by
  have hne : ¬ gs.status ≠ Status.running := not_not_intro hrun
  refine ⟨?_, ?_, ?_, ?_, ?_⟩
  · intro i hi
    rw [executeTick_getD cfg orc ai gs hne hmain i hi]
    constructor
    · rw [addKills_kills, applyDeathsList_kills]
      rfl
    · rw [addKills_totalKills, applyDeathsList_totalKills]
      rfl
  · intro v k hvk
    have e : tickKilledBy cfg orc ai gs
        = (bodyPass cfg (tickCache cfg orc ai gs) (aliveSnakes (tickEaten cfg orc ai gs))
            (aliveSnakes (tickEaten cfg orc ai gs))).2 := collide_snd cfg _ _
    rw [e] at hvk
    obtain ⟨s, hs, h1, h2, o, h3, h4, h5⟩ :=
      bodyPass_kb_mem cfg (tickCache cfg orc ai gs) (aliveSnakes (tickEaten cfg orc ai gs))
        (aliveSnakes (tickEaten cfg orc ai gs)) v k hvk
    have hp := bodyKiller_some_prop cfg (tickCache cfg orc ai gs)
      (aliveSnakes (tickEaten cfg orc ai gs)) s o h3
    refine ⟨s, hs, h1, h2, o, h3, h4, hp.1, hp.2, ?_⟩
    show (v, "snake:" ++ o.participantName) ∈ (collide cfg (tickCache cfg orc ai gs)
      (aliveSnakes (tickEaten cfg orc ai gs))).1
    rw [collide_fst]
    exact List.mem_append_left _ h5
  · exact collide_snd cfg _ _
  · intro v r hvr
    obtain ⟨a, ha, b, hb, hd, hform, hm1, hm2⟩ :=
      headOnOuter_mem cfg (aliveSnakes (tickEaten cfg orc ai gs)) _ v r hvr
    refine ⟨a, ha, b, hb, hd, hform, ?_, ?_⟩
    · show _ ∈ (collide cfg (tickCache cfg orc ai gs)
        (aliveSnakes (tickEaten cfg orc ai gs))).1
      rw [collide_fst]
      exact List.mem_append_right _ hm1
    · show _ ∈ (collide cfg (tickCache cfg orc ai gs)
        (aliveSnakes (tickEaten cfg orc ai gs))).1
      rw [collide_fst]
      exact List.mem_append_right _ hm2
  · intro i hi r hmem
    rw [executeTick_getD cfg orc ai gs hne hmain i hi, addKills_alive]
    have hmf : (((tickEaten cfg orc ai gs).snakes.getD i default).id, r) ∈
        (tickDeaths cfg orc ai gs).filter
          (fun p => p.1 = ((tickEaten cfg orc ai gs).snakes.getD i default).id) :=
      List.mem_filter.mpr ⟨hmem, by simp⟩
    rcases hds : (tickDeaths cfg orc ai gs).filter
        (fun p => p.1 = ((tickEaten cfg orc ai gs).snakes.getD i default).id)
      with _ | ⟨p, rest⟩
    · rw [hds] at hmf
      cases hmf
    · rw [hds]
      exact (applyDeathsList_alive cfg _ rest _ p).1

/-- C6, witness: the kill-credit discipline instantiated at the one-snake
fixture state (whose tick has a living snake, no deaths and no kills). -/
theorem c6_witness :
    (∀ i, i < (tickEaten defaultConfig wOracle wAI wState).snakes.length →
      ((executeTick defaultConfig wOracle wAI wState).snakes.getD i default).kills
        = ((tickEaten defaultConfig wOracle wAI wState).snakes.getD i default).kills
          + (if ((tickEaten defaultConfig wOracle wAI wState).snakes.getD i default).id
                ∈ (tickDeaths defaultConfig wOracle wAI wState).map (·.1) then 0
             else ((tickKilledBy defaultConfig wOracle wAI wState).filter
               (fun p => p.2 = ((tickEaten defaultConfig wOracle wAI
                 wState).snakes.getD i default).id)).length) ∧
      ((executeTick defaultConfig wOracle wAI wState).snakes.getD i default).totalKills
        = ((tickEaten defaultConfig wOracle wAI wState).snakes.getD i default).totalKills
          + (if ((tickEaten defaultConfig wOracle wAI wState).snakes.getD i default).id
                ∈ (tickDeaths defaultConfig wOracle wAI wState).map (·.1) then 0
             else ((tickKilledBy defaultConfig wOracle wAI wState).filter
               (fun p => p.2 = ((tickEaten defaultConfig wOracle wAI
                 wState).snakes.getD i default).id)).length)) ∧
    (∀ v k, (v, k) ∈ tickKilledBy defaultConfig wOracle wAI wState →
      ∃ s ∈ aliveSnakes (tickEaten defaultConfig wOracle wAI wState), s.id = v ∧
        isInBounds defaultConfig s.headX s.headY ∧
        ∃ o, bodyKiller defaultConfig (tickCache defaultConfig wOracle wAI wState)
            (aliveSnakes (tickEaten defaultConfig wOracle wAI wState)) s = some o ∧
          o.id = k ∧ o.id ≠ s.id ∧
          hitsBody defaultConfig
            (cacheGet (tickCache defaultConfig wOracle wAI wState) o.id) s ∧
          (v, "snake:" ++ o.participantName) ∈ tickDeaths defaultConfig wOracle wAI wState) ∧
    tickKilledBy defaultConfig wOracle wAI wState
      = (bodyPass defaultConfig (tickCache defaultConfig wOracle wAI wState)
          (aliveSnakes (tickEaten defaultConfig wOracle wAI wState))
          (aliveSnakes (tickEaten defaultConfig wOracle wAI wState))).2 ∧
    (∀ v r, (v, r) ∈ (headOnOuter defaultConfig
        (aliveSnakes (tickEaten defaultConfig wOracle wAI wState))
        (((bodyPass defaultConfig (tickCache defaultConfig wOracle wAI wState)
          (aliveSnakes (tickEaten defaultConfig wOracle wAI wState))
          (aliveSnakes (tickEaten defaultConfig wOracle wAI wState))).1).map (·.1))).1 →
      ∃ a ∈ aliveSnakes (tickEaten defaultConfig wOracle wAI wState),
        ∃ b ∈ aliveSnakes (tickEaten defaultConfig wOracle wAI wState),
        distSq a.headX a.headY b.headX b.headY < collideThreshSq defaultConfig ∧
        ((v = a.id ∧ r = "headon:" ++ b.participantName) ∨
         (v = b.id ∧ r = "headon:" ++ a.participantName)) ∧
        (a.id, "headon:" ++ b.participantName)
          ∈ tickDeaths defaultConfig wOracle wAI wState ∧
        (b.id, "headon:" ++ a.participantName)
          ∈ tickDeaths defaultConfig wOracle wAI wState) ∧
    (∀ i, i < (tickEaten defaultConfig wOracle wAI wState).snakes.length →
      ∀ r, (((tickEaten defaultConfig wOracle wAI wState).snakes.getD i default).id, r)
          ∈ tickDeaths defaultConfig wOracle wAI wState →
        ((executeTick defaultConfig wOracle wAI wState).snakes.getD i default).alive
          = false) :=
  c6_kill_credit defaultConfig wOracle wAI wState rfl
    (by rw [wMid_alive]; exact List.cons_ne_nil _ _)

-- The eating step: exclusivity and attribution of food consumption (C10).

lemma eatOne_segmentCount (f : Food) (s : Snake) :
    (eatOne f s).segmentCount = s.segmentCount + f.value := by
  unfold eatOne
  split
  · rfl
  · rfl

lemma eatOne_bestLength (f : Food) (s : Snake) :
    (eatOne f s).bestLength = max s.bestLength (s.segmentCount + f.value) := by
  unfold eatOne
  split
  · rename_i h
    show s.segmentCount + f.value = max s.bestLength (s.segmentCount + f.value)
    omega
  · rename_i h
    show s.bestLength = max s.bestLength (s.segmentCount + f.value)
    omega

lemma eatOne_headX (f : Food) (s : Snake) : (eatOne f s).headX = s.headX := by
  have h := congrArg Snake.headX (stripGrowth_eatOne f s)
  rwa [stripGrowth_headX, stripGrowth_headX] at h

lemma eatOne_headY (f : Food) (s : Snake) : (eatOne f s).headY = s.headY := by
  have h := congrArg Snake.headY (stripGrowth_eatOne f s)
  rwa [stripGrowth_headY, stripGrowth_headY] at h

lemma nodup_keys_eq {α : Type} :
    ∀ (l : List (ℕ × α)), ((l.map (·.1)).Nodup) →
      ∀ q ∈ l, ∀ q' ∈ l, q'.1 = q.1 → q' = q := by
  intro l
  induction l with
  | nil => intro _ q hq; cases hq
  | cons a rest ih =>
      intro hnd q hq q' hq' he
      rw [List.map_cons, List.nodup_cons] at hnd
      rcases List.mem_cons.mp hq with rfl | hq2
      · rcases List.mem_cons.mp hq' with rfl | hq2'
        · rfl
        · exact absurd (show q.1 ∈ rest.map (·.1) by
            rw [← he]; exact List.mem_map_of_mem (·.1) hq2') hnd.1
      · rcases List.mem_cons.mp hq' with rfl | hq2'
        · exact absurd (show q'.1 ∈ rest.map (·.1) by
            rw [he]; exact List.mem_map_of_mem (·.1) hq2) hnd.1
        · exact ih hnd.2 q hq2 q' hq2' he

lemma eatFoods_snd_mem (cfg : Config) :
    ∀ (l : List (ℕ × Food)) (s : Snake) (e : List ℕ) (i' : ℕ),
      i' ∈ (eatFoods cfg l s e).2 ↔ i' ∈ e ∨
        ∃ q ∈ l, q.1 = i' ∧ inRangeXY cfg s.headX s.headY q.2 := by
  intro l
  induction l with
  | nil =>
      intro s e i'
      rw [eatFoods]
      constructor
      · exact fun h => Or.inl h
      · rintro (h | ⟨q, hq, _, _⟩)
        · exact h
        · cases hq
  | cons p rest ih =>
      intro s e i'
      obtain ⟨i, f⟩ := p
      rw [eatFoods]
      split
      · rename_i h1
        rw [ih s e i']
        constructor
        · rintro (he | ⟨q, hq, hq1, hq2⟩)
          · exact Or.inl he
          · exact Or.inr ⟨q, List.mem_cons_of_mem _ hq, hq1, hq2⟩
        · rintro (he | ⟨q, hq, hq1, hq2⟩)
          · exact Or.inl he
          · rcases List.mem_cons.mp hq with rfl | hq'
            · exact Or.inl (by rw [← hq1]; exact h1)
            · exact Or.inr ⟨q, hq', hq1, hq2⟩
      · split
        · rename_i h1 h2
          rw [ih (eatOne f s) (i :: e) i', eatOne_headX, eatOne_headY]
          constructor
          · rintro (he | ⟨q, hq, hq1, hq2⟩)
            · rcases List.mem_cons.mp he with rfl | he'
              · exact Or.inr ⟨(i', f), List.mem_cons_self _ _, rfl, h2⟩
              · exact Or.inl he'
            · exact Or.inr ⟨q, List.mem_cons_of_mem _ hq, hq1, hq2⟩
          · rintro (he | ⟨q, hq, hq1, hq2⟩)
            · exact Or.inl (List.mem_cons_of_mem _ he)
            · rcases List.mem_cons.mp hq with rfl | hq'
              · exact Or.inl (by rw [← hq1]; exact List.mem_cons_self _ _)
              · exact Or.inr ⟨q, hq', hq1, hq2⟩
        · rename_i h1 h2
          rw [ih s e i']
          constructor
          · rintro (he | ⟨q, hq, hq1, hq2⟩)
            · exact Or.inl he
            · exact Or.inr ⟨q, List.mem_cons_of_mem _ hq, hq1, hq2⟩
          · rintro (he | ⟨q, hq, hq1, hq2⟩)
            · exact Or.inl he
            · rcases List.mem_cons.mp hq with rfl | hq'
              · exact absurd hq2 h2
              · exact Or.inr ⟨q, hq', hq1, hq2⟩

lemma eatFoods_segmentCount (cfg : Config) :
    ∀ (l : List (ℕ × Food)) (s : Snake) (e : List ℕ), ((l.map (·.1)).Nodup) →
      (eatFoods cfg l s e).1.segmentCount = s.segmentCount +
        ((l.filter (fun q => q.1 ∉ e ∧ inRangeXY cfg s.headX s.headY q.2)).map
          (fun q => q.2.value)).sum := by
  intro l
  induction l with
  | nil =>
      intro s e _
      rw [eatFoods]
      rfl
  | cons p rest ih =>
      intro s e hnd
      obtain ⟨i, f⟩ := p
      rw [List.map_cons, List.nodup_cons] at hnd
      rw [eatFoods]
      split
      · rename_i h1
        rw [ih s e hnd.2, List.filter_cons]
        have hp : (decide ((i, f).1 ∉ e ∧ inRangeXY cfg s.headX s.headY (i, f).2)) = false := by
          simp only [decide_eq_false_iff_not]
          exact fun hc => hc.1 h1
        rw [hp]
        simp only [Bool.false_eq_true, if_false]
      · split
        · rename_i h1 h2
          rw [ih (eatOne f s) (i :: e) hnd.2, List.filter_cons]
          have hp : (decide ((i, f).1 ∉ e ∧ inRangeXY cfg s.headX s.headY (i, f).2)) = true := by
            simp only [decide_eq_true_eq]
            exact ⟨h1, h2⟩
          rw [hp]
          simp only [if_true, List.map_cons, List.sum_cons]
          rw [eatOne_segmentCount]
          have hfe : rest.filter (fun q =>
              decide (q.1 ∉ i :: e ∧ inRangeXY cfg (eatOne f s).headX (eatOne f s).headY q.2))
              = rest.filter (fun q =>
                decide (q.1 ∉ e ∧ inRangeXY cfg s.headX s.headY q.2)) := by
            refine List.filter_congr ?_
            intro q hq
            have hqi : q.1 ≠ i := fun hh =>
              hnd.1 (by rw [← hh]; exact List.mem_map_of_mem (·.1) hq)
            rw [decide_eq_decide, eatOne_headX, eatOne_headY]
            constructor
            · rintro ⟨hni, hr⟩
              exact ⟨fun hh => hni (List.mem_cons_of_mem _ hh), hr⟩
            · rintro ⟨hni, hr⟩
              refine ⟨fun hh => ?_, hr⟩
              rcases List.mem_cons.mp hh with hh1 | hh2
              · exact hqi hh1
              · exact hni hh2
          rw [hfe]
          omega
        · rename_i h1 h2
          rw [ih s e hnd.2, List.filter_cons]
          have hp : (decide ((i, f).1 ∉ e ∧ inRangeXY cfg s.headX s.headY (i, f).2)) = false := by
            simp only [decide_eq_false_iff_not]
            exact fun hc => h2 hc.2
          rw [hp]
          simp only [Bool.false_eq_true, if_false]

lemma eatFoods_bestLength (cfg : Config) :
    ∀ (l : List (ℕ × Food)) (s : Snake) (e : List ℕ), ((l.map (·.1)).Nodup) →
      (eatFoods cfg l s e).1.bestLength =
        if (l.filter (fun q => q.1 ∉ e ∧ inRangeXY cfg s.headX s.headY q.2)) = []
        then s.bestLength
        else max s.bestLength (eatFoods cfg l s e).1.segmentCount := by
  intro l
  induction l with
  | nil =>
      intro s e _
      rw [eatFoods, List.filter_nil, if_pos rfl]
  | cons p rest ih =>
      intro s e hnd
      obtain ⟨i, f⟩ := p
      rw [List.map_cons, List.nodup_cons] at hnd
      by_cases h1 : i ∈ e
      · have he : eatFoods cfg ((i, f) :: rest) s e = eatFoods cfg rest s e := by
          rw [eatFoods, if_pos h1]
        have hp : (decide ((i, f).1 ∉ e ∧ inRangeXY cfg s.headX s.headY (i, f).2)) = false := by
          simp only [decide_eq_false_iff_not]
          exact fun hc => hc.1 h1
        rw [he, List.filter_cons, hp]
        simp only [Bool.false_eq_true, if_false]
        exact ih s e hnd.2
      · by_cases h2 : distSq s.headX s.headY f.x f.y < eatThresholdSq cfg
        · have he : eatFoods cfg ((i, f) :: rest) s e
              = eatFoods cfg rest (eatOne f s) (i :: e) := by
            rw [eatFoods, if_neg h1, if_pos h2]
          have hp : (decide ((i, f).1 ∉ e ∧ inRangeXY cfg s.headX s.headY (i, f).2)) = true := by
            simp only [decide_eq_true_eq]
            exact ⟨h1, h2⟩
          have hfe : rest.filter (fun q =>
              decide (q.1 ∉ i :: e ∧ inRangeXY cfg (eatOne f s).headX (eatOne f s).headY q.2))
              = rest.filter (fun q =>
                decide (q.1 ∉ e ∧ inRangeXY cfg s.headX s.headY q.2)) := by
            refine List.filter_congr ?_
            intro q hq
            have hqi : q.1 ≠ i := fun hh =>
              hnd.1 (by rw [← hh]; exact List.mem_map_of_mem (·.1) hq)
            rw [decide_eq_decide, eatOne_headX, eatOne_headY]
            constructor
            · rintro ⟨hni, hr⟩
              exact ⟨fun hh => hni (List.mem_cons_of_mem _ hh), hr⟩
            · rintro ⟨hni, hr⟩
              refine ⟨fun hh => ?_, hr⟩
              rcases List.mem_cons.mp hh with hh1 | hh2
              · exact hqi hh1
              · exact hni hh2
          rw [he, List.filter_cons, hp]
          simp only [if_true]
          rw [if_neg (List.cons_ne_nil _ _), ih (eatOne f s) (i :: e) hnd.2, hfe]
          by_cases h3 : rest.filter (fun q =>
              decide (q.1 ∉ e ∧ inRangeXY cfg s.headX s.headY q.2)) = []
          · rw [if_pos h3, eatOne_bestLength]
            have hseg : (eatFoods cfg rest (eatOne f s) (i :: e)).1.segmentCount
                = s.segmentCount + f.value := by
              rw [eatFoods_segmentCount cfg rest (eatOne f s) (i :: e) hnd.2, hfe, h3,
                eatOne_segmentCount]
              rfl
            rw [hseg]
          · rw [if_neg h3, eatOne_bestLength]
            have hseg : (eatFoods cfg rest (eatOne f s) (i :: e)).1.segmentCount
                = (s.segmentCount + f.value) +
                  ((rest.filter (fun q =>
                    decide (q.1 ∉ e ∧ inRangeXY cfg s.headX s.headY q.2))).map
                      (fun q => q.2.value)).sum := by
              rw [eatFoods_segmentCount cfg rest (eatOne f s) (i :: e) hnd.2, hfe,
                eatOne_segmentCount]
            rw [hseg]
            omega
        · have he : eatFoods cfg ((i, f) :: rest) s e = eatFoods cfg rest s e := by
            rw [eatFoods, if_neg h1, if_neg h2]
          have hp : (decide ((i, f).1 ∉ e ∧ inRangeXY cfg s.headX s.headY (i, f).2)) = false := by
            simp only [decide_eq_false_iff_not]
            exact fun hc => h2 hc.2
          rw [he, List.filter_cons, hp]
          simp only [Bool.false_eq_true, if_false]
          exact ih s e hnd.2

lemma claimsFood_cons_zero (cfg : Config) (s : Snake) (rest : List Snake) (f : Food) :
    claimsFood cfg (s :: rest) 0 f ↔
      (s.alive = true ∧ inRangeXY cfg s.headX s.headY f) := by
  unfold claimsFood
  constructor
  · rintro ⟨h1, h2, -⟩
    exact ⟨h1, h2⟩
  · rintro ⟨h1, h2⟩
    exact ⟨h1, h2, fun j' hj' => absurd hj' (Nat.not_lt_zero j')⟩

lemma claimsFood_cons_succ (cfg : Config) (s : Snake) (rest : List Snake) (j : ℕ) (f : Food) :
    claimsFood cfg (s :: rest) (j + 1) f ↔
      ((s.alive = true → ¬ inRangeXY cfg s.headX s.headY f) ∧ claimsFood cfg rest j f) := by
  unfold claimsFood
  constructor
  · rintro ⟨h1, h2, h3⟩
    exact ⟨fun hal => h3 0 (Nat.succ_pos j) hal, h1, h2,
      fun j' hj' hal => h3 (j' + 1) (by omega) hal⟩
  · rintro ⟨h0, h1, h2, h3⟩
    refine ⟨h1, h2, fun j' hj' => ?_⟩
    cases j' with
    | zero => exact fun hal => h0 hal
    | succ j'' => exact fun hal => h3 j'' (by omega) hal

lemma claimsFood_unique (cfg : Config) (snakes : List Snake) (f : Food) :
    ∀ j j', claimsFood cfg snakes j f → claimsFood cfg snakes j' f → j = j' := by
  intro j j' hj hj'
  obtain ⟨ha, hr, hmin⟩ := hj
  obtain ⟨ha', hr', hmin'⟩ := hj'
  rcases Nat.lt_trichotomy j j' with h | h | h
  · exact absurd hr (hmin' j h ha)
  · exact h
  · exact absurd hr' (hmin j' h ha')

lemma eatGo_snd_mem (cfg : Config) (fi : List (ℕ × Food)) :
    ∀ (snakes : List Snake) (e : List ℕ) (i' : ℕ),
      i' ∈ (eatGo cfg fi snakes e).2 ↔ i' ∈ e ∨
        ∃ q ∈ fi, q.1 = i' ∧ ∃ s ∈ snakes, s.alive = true ∧
          inRangeXY cfg s.headX s.headY q.2 := by
  intro snakes
  induction snakes with
  | nil =>
      intro e i'
      rw [eatGo]
      constructor
      · exact fun h => Or.inl h
      · rintro (h | ⟨q, hq, hq1, s, hs, _, _⟩)
        · exact h
        · cases hs
  | cons s rest ih =>
      intro e i'
      rw [eatGo]
      split
      · rename_i halive
        show i' ∈ (eatGo cfg fi rest (eatFoods cfg fi s e).2).2 ↔ _
        rw [ih ((eatFoods cfg fi s e).2) i', eatFoods_snd_mem cfg fi s e i']
        constructor
        · rintro ((he | ⟨q, hq, hq1, hq2⟩) | ⟨q, hq, hq1, s', hs', ha', hr'⟩)
          · exact Or.inl he
          · exact Or.inr ⟨q, hq, hq1, s, List.mem_cons_self _ _, halive, hq2⟩
          · exact Or.inr ⟨q, hq, hq1, s', List.mem_cons_of_mem _ hs', ha', hr'⟩
        · rintro (he | ⟨q, hq, hq1, s', hs', ha', hr'⟩)
          · exact Or.inl (Or.inl he)
          · rcases List.mem_cons.mp hs' with rfl | hs''
            · exact Or.inl (Or.inr ⟨q, hq, hq1, hr'⟩)
            · exact Or.inr ⟨q, hq, hq1, s', hs'', ha', hr'⟩
      · rename_i halive
        show i' ∈ (eatGo cfg fi rest e).2 ↔ _
        rw [ih e i']
        constructor
        · rintro (he | ⟨q, hq, hq1, s', hs', ha', hr'⟩)
          · exact Or.inl he
          · exact Or.inr ⟨q, hq, hq1, s', List.mem_cons_of_mem _ hs', ha', hr'⟩
        · rintro (he | ⟨q, hq, hq1, s', hs', ha', hr'⟩)
          · exact Or.inl he
          · rcases List.mem_cons.mp hs' with rfl | hs''
            · exact absurd ha' halive
            · exact Or.inr ⟨q, hq, hq1, s', hs'', ha', hr'⟩

lemma eatGo_getD (cfg : Config) (fi : List (ℕ × Food)) (hnd : (fi.map (·.1)).Nodup) :
    ∀ (snakes : List Snake) (e : List ℕ) (j : ℕ), j < snakes.length →
      ((eatGo cfg fi snakes e).1.getD j default).segmentCount
        = (snakes.getD j default).segmentCount +
          ((fi.filter (fun q => q.1 ∉ e ∧ claimsFood cfg snakes j q.2)).map
            (fun q => q.2.value)).sum ∧
      ((eatGo cfg fi snakes e).1.getD j default).bestLength
        = if (fi.filter (fun q => q.1 ∉ e ∧ claimsFood cfg snakes j q.2)) = []
          then (snakes.getD j default).bestLength
          else max (snakes.getD j default).bestLength
            ((eatGo cfg fi snakes e).1.getD j default).segmentCount := by
  intro snakes
  induction snakes with
  | nil => intro e j hj; exact absurd hj (Nat.not_lt_zero j)
  | cons s rest ih =>
      intro e j hj
      by_cases halive : s.alive = true
      · have hres : (eatGo cfg fi (s :: rest) e).1
            = (eatFoods cfg fi s e).1 :: (eatGo cfg fi rest (eatFoods cfg fi s e).2).1 := by
          rw [eatGo, if_pos halive]
        rw [hres]
        cases j with
        | zero =>
            simp only [List.getD_cons_zero]
            have hfe : fi.filter (fun q =>
                decide (q.1 ∉ e ∧ inRangeXY cfg s.headX s.headY q.2))
                = fi.filter (fun q =>
                  decide (q.1 ∉ e ∧ claimsFood cfg (s :: rest) 0 q.2)) := by
              refine List.filter_congr ?_
              intro q hq
              rw [decide_eq_decide]
              constructor
              · rintro ⟨ha, hb⟩
                exact ⟨ha, (claimsFood_cons_zero cfg s rest q.2).mpr ⟨halive, hb⟩⟩
              · rintro ⟨ha, hb⟩
                exact ⟨ha, ((claimsFood_cons_zero cfg s rest q.2).mp hb).2⟩
            constructor
            · rw [eatFoods_segmentCount cfg fi s e hnd, hfe]
            · rw [eatFoods_bestLength cfg fi s e hnd, hfe]
        | succ j' =>
            simp only [List.getD_cons_succ]
            have hj' : j' < rest.length := by
              simpa using hj
            obtain ⟨ihseg, ihbest⟩ := ih ((eatFoods cfg fi s e).2) j' hj'
            have hfe2 : fi.filter (fun q =>
                decide (q.1 ∉ (eatFoods cfg fi s e).2 ∧ claimsFood cfg rest j' q.2))
                = fi.filter (fun q =>
                  decide (q.1 ∉ e ∧ claimsFood cfg (s :: rest) (j' + 1) q.2)) := by
              refine List.filter_congr ?_
              intro q hq
              rw [decide_eq_decide]
              constructor
              · rintro ⟨h1, h2⟩
                rw [eatFoods_snd_mem cfg fi s e q.1] at h1
                push_neg at h1
                exact ⟨h1.1, (claimsFood_cons_succ cfg s rest j' q.2).mpr
                  ⟨fun _ => h1.2 q hq rfl, h2⟩⟩
              · rintro ⟨h1, h2⟩
                rw [claimsFood_cons_succ] at h2
                refine ⟨?_, h2.2⟩
                rw [eatFoods_snd_mem cfg fi s e q.1]
                rintro (hmm | ⟨q', hq', hq'1, hq'2⟩)
                · exact h1 hmm
                · have heq : q' = q := nodup_keys_eq fi hnd q hq q' hq' hq'1
                  rw [heq] at hq'2
                  exact h2.1 halive hq'2
            rw [hfe2] at ihseg ihbest
            exact ⟨ihseg, ihbest⟩
      · have hres : (eatGo cfg fi (s :: rest) e).1 = s :: (eatGo cfg fi rest e).1 := by
          rw [eatGo, if_neg halive]
        rw [hres]
        cases j with
        | zero =>
            simp only [List.getD_cons_zero]
            have hnil : fi.filter (fun q =>
                decide (q.1 ∉ e ∧ claimsFood cfg (s :: rest) 0 q.2)) = [] := by
              rw [List.filter_eq_nil_iff]
              intro q hq
              simp only [decide_eq_true_eq]
              rintro ⟨-, hcl⟩
              obtain ⟨hal, -, -⟩ := hcl
              exact halive hal
            rw [hnil]
            exact ⟨by simp, by rw [if_pos rfl]⟩
        | succ j' =>
            simp only [List.getD_cons_succ]
            have hj' : j' < rest.length := by
              simpa using hj
            obtain ⟨ihseg, ihbest⟩ := ih e j' hj'
            have hfe2 : fi.filter (fun q =>
                decide (q.1 ∉ e ∧ claimsFood cfg rest j' q.2))
                = fi.filter (fun q =>
                  decide (q.1 ∉ e ∧ claimsFood cfg (s :: rest) (j' + 1) q.2)) := by
              refine List.filter_congr ?_
              intro q hq
              rw [decide_eq_decide]
              constructor
              · rintro ⟨h1, h2⟩
                exact ⟨h1, (claimsFood_cons_succ cfg s rest j' q.2).mpr
                  ⟨fun hal => absurd hal halive, h2⟩⟩
              · rintro ⟨h1, h2⟩
                exact ⟨h1, ((claimsFood_cons_succ cfg s rest j' q.2).mp h2).2⟩
            rw [hfe2] at ihseg ihbest
            exact ⟨ihseg, ihbest⟩

/-- C10: the eating step consumes each food item at most once.  The food at
index `i` is removed exactly when some alive snake's head is within the eat
radius, the survivors keep their relative order, and the snake that gains a
food's value (with the `bestLength` update) is exactly the earliest alive
in-range snake of the list — the one `claimsFood` picks out, which is unique
per food item. -/
theorem c10_exclusive_eating (cfg : Config) (gs : GameState) :
    (∀ j j' : ℕ, ∀ f : Food,
      claimsFood cfg gs.snakes j f → claimsFood cfg gs.snakes j' f → j = j') ∧
    (eatStep cfg gs).food
      = (gs.food.enum.filter (fun q => ¬ someoneEats cfg gs.snakes q.2)).map (·.2) ∧
    (∀ j, j < gs.snakes.length →
      ((eatStep cfg gs).snakes.getD j default).segmentCount
        = (gs.snakes.getD j default).segmentCount
          + ((gs.food.enum.filter (fun q => claimsFood cfg gs.snakes j q.2)).map
              (fun q => q.2.value)).sum ∧
      ((eatStep cfg gs).snakes.getD j default).bestLength
        = if (gs.food.enum.filter (fun q => claimsFood cfg gs.snakes j q.2)) = []
          then (gs.snakes.getD j default).bestLength
          else max ((gs.snakes.getD j default)).bestLength
            ((eatStep cfg gs).snakes.getD j default).segmentCount) := by
  have hnd : ((gs.food.enum.map (·.1)).Nodup) := by
    rw [show (gs.food.enum.map (·.1)) = gs.food.enum.map Prod.fst from rfl,
      List.enum_map_fst gs.food]
    exact List.nodup_range _
  refine ⟨fun j j' f hj hj' => claimsFood_unique cfg gs.snakes f j j' hj hj', ?_, ?_⟩
  · show (if (eatGo cfg gs.food.enum gs.snakes []).2 = [] then gs.food
        else (gs.food.enum.filter fun q =>
          q.1 ∉ (eatGo cfg gs.food.enum gs.snakes []).2).map (·.2))
      = (gs.food.enum.filter (fun q => ¬ someoneEats cfg gs.snakes q.2)).map (·.2)
    split
    · rename_i hemp
      have hall : ∀ q ∈ gs.food.enum,
          (decide (¬ someoneEats cfg gs.snakes q.2)) = true := by
        intro q hq
        simp only [decide_eq_true_eq]
        intro hsome
        have hm : q.1 ∈ (eatGo cfg gs.food.enum gs.snakes []).2 := by
          rw [eatGo_snd_mem cfg gs.food.enum gs.snakes [] q.1]
          exact Or.inr ⟨q, hq, rfl, hsome⟩
        rw [hemp] at hm
        cases hm
      rw [List.filter_eq_self.mpr hall, List.enum_map_snd]
    · rename_i hne
      refine congrArg (List.map (fun q : ℕ × Food => q.2)) (List.filter_congr ?_)
      intro q hq
      rw [decide_eq_decide, eatGo_snd_mem cfg gs.food.enum gs.snakes [] q.1]
      constructor
      · intro hnm hsome
        exact hnm (Or.inr ⟨q, hq, rfl, hsome⟩)
      · intro hnsome hmem
        rcases hmem with hmm | ⟨q', hq', hq'1, hsome'⟩
        · cases hmm
        · have heq : q' = q := nodup_keys_eq _ hnd q hq q' hq' hq'1
          rw [heq] at hsome'
          exact hnsome hsome'
  · intro j hj
    obtain ⟨hseg, hbest⟩ := eatGo_getD cfg gs.food.enum hnd gs.snakes [] j hj
    have hfe : gs.food.enum.filter
        (fun q => decide (q.1 ∉ ([] : List ℕ) ∧ claimsFood cfg gs.snakes j q.2))
        = gs.food.enum.filter (fun q => decide (claimsFood cfg gs.snakes j q.2)) := by
      refine List.filter_congr ?_
      intro q hq
      rw [decide_eq_decide]
      constructor
      · rintro ⟨-, hc⟩
        exact hc
      · intro hc
        exact ⟨List.not_mem_nil _, hc⟩
    rw [hfe] at hseg hbest
    exact ⟨hseg, hbest⟩

end

end SnakeGame
